import Mathlib

/-!
OS/161 `dumbvm` with a coremap (S21-CS350, assignment 3)

A shallow embedding of `kern/arch/mips/vm/dumbvm.c` (the `OPT_A3` configuration):
the coremap frame allocator (`getppages`, `free_kpages`), the per-page address
space (`as_prepare_load`, `as_copy`, `as_destroy`, ...) and the TLB miss handler
`vm_fault`.

Conventions of the embedding

* `paddr_t`, `vaddr_t`, `size_t` and `unsigned long` are 32-bit unsigned on the
  MIPS target: they are natural numbers and every arithmetic operation of the
  source is wrapped explicitly with `u32` / `sub32`.
* `int` values are integers; conversions from unsigned go through `toInt`.
* A kernel crash (an access outside a modelled table, a failed `KASSERT`) is a
  `Fault`; functions that can crash return `Except Fault _`.
* Loops are structural recursions on the number of remaining iterations; the one
  `while` loop whose trip count is not syntactically bounded takes fuel.
-/

namespace DumbVM

/-! ## Machine constants (`mips/vm.h`, `mips/tlb.h`, `kern/errno.h`) -/

/-- Modelled from the spec: `PAGE_SIZE` comes from the header `mips/vm.h`; the value is
the 4 KiB of section 6. -/
def PAGE_SIZE : Nat := 4096

/-- Modelled from the spec: `PAGE_FRAME` (declared in `mips/vm.h`) is the mask that
reduces a 32-bit address to its page base. -/
def PAGE_FRAME : Nat := 0xfffff000

/-- Modelled from the spec: `MIPS_KSEG0` (declared in `mips/vm.h`) is the base of the
direct-mapped kernel segment, `0x80000000` on MIPS. -/
def MIPS_KSEG0 : Nat := 0x80000000

/-- Modelled from the spec: `USERSTACK` (declared in `mips/vm.h`) is the top of the user
address space, which ends where the kernel segment begins. -/
def USERSTACK : Nat := MIPS_KSEG0

/-- Number of stack pages of every address space: `DUMBVM_STACKPAGES`. -/
def DUMBVM_STACKPAGES : Nat := 12

/-- Modelled from the spec: `NUM_TLB` (declared in `mips/tlb.h`) is the TLB capacity, 64
entries on the MIPS r3000. -/
def NUM_TLB : Nat := 64

/-- Modelled from the spec: `TLBLO_DIRTY` (declared in `mips/tlb.h`) is the bit of the
low word that makes the page writable. -/
def TLBLO_DIRTY : Nat := 0x00000400

/-- Modelled from the spec: `TLBLO_VALID` (declared in `mips/tlb.h`) is the bit of the
low word that makes the entry present. -/
def TLBLO_VALID : Nat := 0x00000200

/-- Modelled from the spec: `TLBLO_PPAGE` (declared in `mips/tlb.h`) is the field of the
low word that holds the physical page. -/
def TLBLO_PPAGE : Nat := 0xfffff000

/-- Modelled from the spec: the out-of-memory code `ENOMEM` of the header `kern/errno.h`;
only its being non-zero matters here. -/
def ENOMEM : Nat := 3

/-- Modelled from the spec: the bad-address code `EFAULT` of `kern/errno.h`. -/
def EFAULT : Nat := 6

/-- Modelled from the spec: the bad-argument code `EINVAL` of `kern/errno.h`. -/
def EINVAL : Nat := 8

/-! ## 32-bit arithmetic -/

/-- Reduction of a natural number to an unsigned 32-bit value. -/
def u32 (x : Nat) : Nat := x % 4294967296

/-- Unsigned 32-bit subtraction `a - b`. -/
def sub32 (a b : Nat) : Nat := (a % 4294967296 + 4294967296 - b % 4294967296) % 4294967296

/-- Conversion of an unsigned 32-bit value to `int` (two's complement). -/
def toInt (x : Nat) : Int :=
  if x % 4294967296 < 2147483648 then (x % 4294967296 : Nat) else (x % 4294967296 : Nat) - 4294967296

/-- Modelled from the spec: the macro `PADDR_TO_KVADDR` (declared in `mips/vm.h`) adds
the base of the direct-mapped kernel segment to a physical address. -/
def PADDR_TO_KVADDR (paddr : Nat) : Nat := u32 (paddr + MIPS_KSEG0)

/-! ## Faults -/

/-- Ways in which the modelled kernel code stops without returning. -/
inductive Fault where
  /-- A load or store outside the modelled table or through a `NULL` pointer. -/
  | badAccess
  /-- A failed `KASSERT`. -/
  | assertion
  /-- The iteration budget of a `while` loop was exhausted. -/
  | fuel
  /-- The thread sleeps in `cv_wait` on a condition that no step of the sequential model
  makes true. -/
  | blocked
deriving DecidableEq, Repr

/-! ## External collaborators -/

/-- Modelled from the spec: the external collaborators `ram_stealmem` and `kmalloc`
appear through their results only. A `kmalloc` of
`size` bytes returns `NULL` when `kmalloc_null size` holds and otherwise a block whose
`i`-th word holds the uninitialised value `kmalloc_junk size i`; the heap itself is
outside the modelled state. -/
structure Env where
  ram_stealmem : Nat → Nat
  kmalloc_null : Nat → Bool
  kmalloc_junk : Nat → Nat → Nat

/-- An array of `paddr_t` obtained from `kmalloc (size)`: `none` is `NULL`. -/
def kmalloc_array (env : Env) (size : Nat) : Option (List Nat) :=
  if env.kmalloc_null size then none
  else some ((List.range (size / 4)).map (env.kmalloc_junk size))

deriving instance DecidableEq for Except

/-- Value carried by a result, for reading off the components of a call that returned. -/
def returned {α : Type} [Inhabited α] : Except Fault α → α
  | .ok a => a
  | .error _ => default

/-! ## The coremap -/

/-- The file-scope state of the allocator: the table at `coremap_start` (one `int`
per managed frame) and the statics `number_of_pages`, `frame_start`, `frame_end`,
`coremap_created`. -/
structure Coremap where
  slots : List Int
  number_of_pages : Nat
  frame_start : Nat
  frame_end : Nat
  coremap_created : Bool
deriving DecidableEq, Repr, Inhabited

/-- Table index inspected by the scan of `getppages`:
`(addr + i * PAGE_SIZE - frame_start) / PAGE_SIZE`, computed in unsigned 32-bit
arithmetic. The quotient is below `2 ^ 20`, so its conversion to `int` keeps the value. -/
def scanIndex (st : Coremap) (addr i : Nat) : Nat :=
  sub32 (u32 (addr + u32 (i * PAGE_SIZE))) st.frame_start / PAGE_SIZE

/-- Table index written by the marking loop of `getppages`:
`(PAGE_SIZE * j + addr - frame_start) / PAGE_SIZE`, computed like `scanIndex`. -/
def markIndex (st : Coremap) (addr j : Nat) : Nat :=
  sub32 (u32 (u32 (PAGE_SIZE * j) + addr)) st.frame_start / PAGE_SIZE

/-- The inner `for (i = 0; i < npages; i++)` scan of `getppages`, with `k` iterations
left and loop counter `i`. The result `some i` is the `break` at an occupied slot
(`is_found = false`), `none` is the loop running to completion (`is_found` still true).
The code does not check `index`: here a read past the end of the table is a fault, and
`scanLoopRaw` follows the machine, which goes on with the word found behind the table. -/
def scanLoop (st : Coremap) (addr : Nat) : Nat → Nat → Except Fault (Option Nat)
  | 0, _ => .ok none
  | k + 1, i =>
    match st.slots[scanIndex st addr i]? with
    | none => .error .badAccess
    | some entry => if entry ≠ 0 then .ok (some i) else scanLoop st addr k (i + 1)

/-- The marking loop `for (j = 0; j < npages; j++) coremap[index] = j + 1`. -/
def markLoop (st : Coremap) (addr : Nat) : Nat → Nat → List Int → Except Fault (List Int)
  | 0, _, slots => .ok slots
  | k + 1, j, slots =>
    if markIndex st addr j < slots.length then
      markLoop st addr k (j + 1) (slots.set (markIndex st addr j) (toInt (u32 (j + 1))))
    else .error .badAccess

/-- The `while (ending_point <= frame_end)` loop of `getppages`. -/
def searchLoop (st : Coremap) (npages : Nat) : Nat → Nat → Nat → Except Fault (Nat × Coremap)
  | 0, _, _ => .error .fuel
  | fuel + 1, addr, ending_point =>
    if ending_point ≤ st.frame_end then
      match scanLoop st addr npages 0 with
      | .error e => .error e
      | .ok (some i) =>
        searchLoop st npages fuel (u32 (addr + u32 (PAGE_SIZE * (i + 1))))
          (u32 (u32 (PAGE_SIZE * npages) + u32 (addr + u32 (PAGE_SIZE * (i + 1)))))
      | .ok none =>
        match markLoop st addr npages 0 st.slots with
        | .error e => .error e
        | .ok slots => .ok (addr, { st with slots := slots })
    else .ok (0, st)

/-- The function `getppages`. After bootstrap (`coremap_created`) it searches the coremap;
before, it returns what the boot allocator `ram_stealmem` returns.
Every outer iteration that does not return moves `addr` forward by at least one page
over an occupied slot of the table, so `number_of_pages + 1` iterations are enough. -/
def getppages (env : Env) (st : Coremap) (npages : Nat) :
    Except Fault (Nat × Coremap) :=
  if st.coremap_created then
    searchLoop st npages (st.number_of_pages + 1) st.frame_start
      (u32 (npages * PAGE_SIZE + st.frame_start))
  else .ok (env.ram_stealmem npages, st)

/-- The function `alloc_kpages`. -/
def alloc_kpages (env : Env) (st : Coremap) (npages : Nat) :
    Except Fault (Nat × Coremap) :=
  match getppages env st npages with
  | .error e => .error e
  | .ok (pa, st') => if pa = 0 then .ok (0, st') else .ok (PADDR_TO_KVADDR pa, st')

/-- The loop of `free_kpages`, with `k` iterations left, loop counter `i` and the
expected value `index`. -/
def freeLoop : Nat → Nat → Int → List Int → Except Fault (List Int)
  | 0, _, _, slots => .ok slots
  | k + 1, i, index, slots =>
    match slots[i]? with
    | none => .error .badAccess
    | some v =>
      if v = index then freeLoop k (i + 1) (index + 1) (slots.set i 0)
      else freeLoop k (i + 1) index slots

/-- The function `free_kpages`. `start` is an `int` computed from an unsigned quotient
below `2 ^ 20`, hence non-negative; the loop runs for `i = start, ..., number_of_pages - 1`.
The counter `index` grows by at most one per iteration and so stays within `int`. -/
def free_kpages (st : Coremap) (addr : Nat) : Except Fault Coremap :=
  let start := sub32 (sub32 addr MIPS_KSEG0) st.frame_start / PAGE_SIZE
  match freeLoop (st.number_of_pages - start) start 1 st.slots with
  | .error e => .error e
  | .ok slots => .ok { st with slots := slots }

/-- State of the allocator after `vm_bootstrap`: the table has one slot per managed
frame, and the managed range `[frame_start, frame_end)` starts on a page boundary, lies
above physical address `0` (the kernel image and the table come first) and within the
32-bit physical address space. -/
structure Bootstrapped (st : Coremap) : Prop where
  created : st.coremap_created = true
  table : st.slots.length = st.number_of_pages
  aligned : st.frame_start % PAGE_SIZE = 0
  nonzero : 0 < st.frame_start
  extent : st.frame_end = st.frame_start + PAGE_SIZE * st.number_of_pages
  bound : st.frame_end < 4294967296

/-- Slots `s .. s+n-1` exist and are all free. -/
def Fits (st : Coremap) (n s : Nat) : Prop :=
  s + n ≤ st.number_of_pages ∧ ∀ i, i < n → st.slots[s + i]? = some 0

/-- Slots `s .. s+n-1` carry `1, 2, ..., n`. -/
def RunAt (slots : List Int) (s n : Nat) : Prop :=
  ∀ i, i < n → slots[s + i]? = some ((i : Int) + 1)

/-- The coremap `st'` is `st` with slots `s .. s+n-1` turned into the run `1, ..., n`:
every other slot and every static is the same. -/
structure Allocated (st st' : Coremap) (s n : Nat) : Prop where
  pages : st'.number_of_pages = st.number_of_pages
  start : st'.frame_start = st.frame_start
  stop : st'.frame_end = st.frame_end
  created : st'.coremap_created = st.coremap_created
  length : st'.slots.length = st.slots.length
  run : RunAt st'.slots s n
  frame : ∀ m, (m < s ∨ s + n ≤ m) → st'.slots[m]? = st.slots[m]?

instance (st : Coremap) (n s : Nat) : Decidable (Fits st n s) := by
  unfold Fits; infer_instance

instance (slots : List Int) (s n : Nat) : Decidable (RunAt slots s n) := by
  unfold RunAt; infer_instance

/-! ## Concrete machines used in the examples -/

/-- A bootstrapped coremap whose managed range starts at physical address `0x1000` and
whose table is `slots`. -/
def coremapOf (slots : List Int) : Coremap :=
  { slots := slots, number_of_pages := slots.length, frame_start := 4096,
    frame_end := 4096 + 4096 * slots.length, coremap_created := true }

/-- An environment whose boot allocator is exhausted and whose heap never fails. -/
def quietEnv : Env :=
  { ram_stealmem := fun _ => 0, kmalloc_null := fun _ => false, kmalloc_junk := fun _ _ => 0 }

/-! ## Memory seen through the kernel's direct-mapped alias -/

/-- Byte contents of memory, indexed by kernel-virtual address. -/
abbrev Memory := Nat → Nat

/-- Modelled from the spec: the library routine `bzero (addr, len)` clears `len` bytes
from `addr` on. -/
def bzero (mem : Memory) (addr len : Nat) : Memory :=
  fun a => if addr ≤ a ∧ a < addr + len then 0 else mem a

/-- Modelled from the spec: the library routine `memmove (dst, src, len)` copies `len`
bytes from `src` to `dst`, reading all of them before any is overwritten. -/
def memmove (mem : Memory) (dst src len : Nat) : Memory :=
  fun a => if dst ≤ a ∧ a < dst + len then mem (src + (a - dst)) else mem a

/-- The function `as_zero_region`. -/
def as_zero_region (mem : Memory) (paddr npages : Nat) : Memory :=
  bzero mem (PADDR_TO_KVADDR paddr) (u32 (npages * PAGE_SIZE))

/-! ## Address spaces -/

/-- Modelled from the spec: `struct addrspace` comes from the header `addrspace.h`; the
fields are those `dumbvm.c` uses under `OPT_A3`. The three frame
arrays are pointers to `kmalloc`ed arrays of `paddr_t`: `none` is `NULL`. -/
structure addrspace where
  as_vbase1 : Nat
  as_pbase1 : Option (List Nat)
  as_npages1 : Nat
  as_vbase2 : Nat
  as_pbase2 : Option (List Nat)
  as_npages2 : Nat
  as_stackpbase : Option (List Nat)
  loadelf_done : Bool
deriving DecidableEq, Repr, Inhabited

/-- Modelled from the spec: `sizeof(struct addrspace)`, eight 32-bit words; it is only
passed to `kmalloc`. -/
def SIZEOF_ADDRSPACE : Nat := 32

/-- Load of `arr[i]` from a frame array. -/
def loadWord (arr : Option (List Nat)) (i : Nat) : Except Fault Nat :=
  match arr with
  | none => .error .badAccess
  | some l =>
    match l[i]? with
    | none => .error .badAccess
    | some v => .ok v

/-- Store `arr[i] = v` into a frame array. -/
def storeWord (arr : Option (List Nat)) (i v : Nat) : Except Fault (Option (List Nat)) :=
  match arr with
  | none => .error .badAccess
  | some l => if i < l.length then .ok (some (l.set i v)) else .error .badAccess

/-- The function `as_create`: `none` is the `NULL` returned when `kmalloc` fails. -/
def as_create (env : Env) : Option addrspace :=
  if env.kmalloc_null SIZEOF_ADDRSPACE then none
  else some { as_vbase1 := 0, as_pbase1 := none, as_npages1 := 0, as_vbase2 := 0,
              as_pbase2 := none, as_npages2 := 0, as_stackpbase := none,
              loadelf_done := false }

/-- The loop `for (i = 0; i < npages; i++) free_kpages(PADDR_TO_KVADDR(arr[i]))` of
`as_destroy`. -/
def destroyLoop (arr : Option (List Nat)) : Nat → Nat → Coremap → Except Fault Coremap
  | 0, _, cm => .ok cm
  | k + 1, i, cm =>
    match loadWord arr i with
    | .error e => .error e
    | .ok p =>
      match free_kpages cm (PADDR_TO_KVADDR p) with
      | .error e => .error e
      | .ok cm' => destroyLoop arr k (i + 1) cm'

/-- The function `as_destroy`; `kfree` does not touch the modelled state. -/
def as_destroy (cm : Coremap) (as : addrspace) : Except Fault Coremap :=
  match destroyLoop as.as_pbase1 as.as_npages1 0 cm with
  | .error e => .error e
  | .ok cm1 =>
    match destroyLoop as.as_pbase2 as.as_npages2 0 cm1 with
    | .error e => .error e
    | .ok cm2 => destroyLoop as.as_stackpbase DUMBVM_STACKPAGES 0 cm2

/-- The loops `for (i = 0; i < npages; i++) KASSERT(arr[i] == 0)` of `as_prepare_load`. -/
def assertZeroLoop (arr : Option (List Nat)) : Nat → Nat → Except Fault Unit
  | 0, _ => .ok ()
  | k + 1, i =>
    match loadWord arr i with
    | .error e => .error e
    | .ok v => if v = 0 then assertZeroLoop arr k (i + 1) else .error .assertion

/-- One of the three allocation loops of `as_prepare_load`:
`arr[i] = getppages(1); if (arr[i] == 0) return ENOMEM; as_zero_region(arr[i], 1);`.
The first component of the result is `0` when the loop ran to completion and `ENOMEM`
when it returned early. -/
def allocLoop (env : Env) :
    Nat → Nat → Coremap → Memory → Option (List Nat) →
      Except Fault (Nat × Coremap × Memory × Option (List Nat))
  | 0, _, cm, mem, arr => .ok (0, cm, mem, arr)
  | k + 1, i, cm, mem, arr =>
    match getppages env cm 1 with
    | .error e => .error e
    | .ok (pa, cm') =>
      match storeWord arr i pa with
      | .error e => .error e
      | .ok arr' =>
        if pa = 0 then .ok (ENOMEM, cm', mem, arr')
        else allocLoop env k (i + 1) cm' (as_zero_region mem pa 1) arr'

/-- The function `as_prepare_load`. The result carries the return value, the coremap,
the memory and the address space as the call leaves them. -/
def as_prepare_load (env : Env) (cm : Coremap) (mem : Memory) (as : addrspace) :
    Except Fault (Nat × Coremap × Memory × addrspace) :=
  match assertZeroLoop as.as_pbase1 as.as_npages1 0 with
  | .error e => .error e
  | .ok _ =>
    match assertZeroLoop as.as_pbase2 as.as_npages2 0 with
    | .error e => .error e
    | .ok _ =>
      if as.as_stackpbase.isSome then .error .assertion
      else
        match allocLoop env as.as_npages1 0 cm mem as.as_pbase1 with
        | .error e => .error e
        | .ok (r1, cm1, mem1, p1) =>
          if r1 ≠ 0 then .ok (r1, cm1, mem1, { as with as_pbase1 := p1 })
          else
            match allocLoop env as.as_npages2 0 cm1 mem1 as.as_pbase2 with
            | .error e => .error e
            | .ok (r2, cm2, mem2, p2) =>
              if r2 ≠ 0 then .ok (r2, cm2, mem2, { as with as_pbase1 := p1, as_pbase2 := p2 })
              else
                match allocLoop env DUMBVM_STACKPAGES 0 cm2 mem2
                    (kmalloc_array env (u32 (DUMBVM_STACKPAGES * 4))) with
                | .error e => .error e
                | .ok (r3, cm3, mem3, p3) =>
                  .ok (r3, cm3, mem3,
                    { as with as_pbase1 := p1, as_pbase2 := p2, as_stackpbase := p3 })

/-- The function `as_complete_load`: `(void)as; return 0;`. -/
def as_complete_load (as : addrspace) : Nat × addrspace := (0, as)

/-- The loops `for (i = 0; i < npages; i++) arr[i] = 0` of `as_copy`. -/
def zeroFillLoop : Nat → Nat → Option (List Nat) → Except Fault (Option (List Nat))
  | 0, _, arr => .ok arr
  | k + 1, i, arr =>
    match storeWord arr i 0 with
    | .error e => .error e
    | .ok arr' => zeroFillLoop k (i + 1) arr'

/-- The checks `KASSERT(arr != NULL); for (...) KASSERT(arr[i] != 0);` of `as_copy`. -/
def assertNonzeroLoop (arr : Option (List Nat)) : Nat → Nat → Except Fault Unit
  | 0, _ => if arr.isSome then .ok () else .error .assertion
  | k + 1, i =>
    if arr.isSome then
      match loadWord arr i with
      | .error e => .error e
      | .ok v => if v ≠ 0 then assertNonzeroLoop arr k (i + 1) else .error .assertion
    else .error .assertion

/-- One of the three copy loops of `as_copy`:
`memmove(PADDR_TO_KVADDR(dst[i]), PADDR_TO_KVADDR(src[i]), PAGE_SIZE)`. -/
def copyLoop (dst src : Option (List Nat)) : Nat → Nat → Memory → Except Fault Memory
  | 0, _, mem => .ok mem
  | k + 1, i, mem =>
    match loadWord dst i with
    | .error e => .error e
    | .ok d =>
      match loadWord src i with
      | .error e => .error e
      | .ok s =>
        copyLoop dst src k (i + 1)
          (memmove mem (PADDR_TO_KVADDR d) (PADDR_TO_KVADDR s) PAGE_SIZE)

/-- The function `as_copy`. The last component of the result is the address space
stored through `ret` (`none` when nothing is stored). -/
def as_copy (env : Env) (cm : Coremap) (mem : Memory) (old : addrspace) :
    Except Fault (Nat × Coremap × Memory × Option addrspace) :=
  match as_create env with
  | none => .ok (ENOMEM, cm, mem, none)
  | some created =>
    match zeroFillLoop old.as_npages1 0 (kmalloc_array env (u32 (old.as_npages1 * 4))) with
    | .error e => .error e
    | .ok p1 =>
      match zeroFillLoop old.as_npages2 0 (kmalloc_array env (u32 (old.as_npages2 * 4))) with
      | .error e => .error e
      | .ok p2 =>
        match as_prepare_load env cm mem
            { created with as_vbase1 := old.as_vbase1, as_npages1 := old.as_npages1,
                           as_vbase2 := old.as_vbase2, as_npages2 := old.as_npages2,
                           as_pbase1 := p1, as_pbase2 := p2 } with
        | .error e => .error e
        | .ok (r, cm', mem', new) =>
          if r ≠ 0 then
            match as_destroy cm' new with
            | .error e => .error e
            | .ok cm'' => .ok (ENOMEM, cm'', mem', none)
          else
            match assertNonzeroLoop new.as_pbase1 new.as_npages1 0 with
            | .error e => .error e
            | .ok _ =>
              match assertNonzeroLoop new.as_pbase2 new.as_npages2 0 with
              | .error e => .error e
              | .ok _ =>
                match assertNonzeroLoop new.as_stackpbase DUMBVM_STACKPAGES 0 with
                | .error e => .error e
                | .ok _ =>
                  match copyLoop new.as_pbase1 old.as_pbase1 new.as_npages1 0 mem' with
                  | .error e => .error e
                  | .ok mem1 =>
                    match copyLoop new.as_pbase2 old.as_pbase2 new.as_npages2 0 mem1 with
                    | .error e => .error e
                    | .ok mem2 =>
                      match copyLoop new.as_stackpbase old.as_stackpbase
                          DUMBVM_STACKPAGES 0 mem2 with
                      | .error e => .error e
                      | .ok mem3 => .ok (0, cm', mem3, some new)

/-- Precondition of `as_prepare_load`: both frame arrays exist with one zero entry per
page, and the stack array is not allocated. -/
structure PrepareLoadPre (as : addrspace) : Prop where
  text : as.as_pbase1 = some (List.replicate as.as_npages1 0)
  data : as.as_pbase2 = some (List.replicate as.as_npages2 0)
  stack : as.as_stackpbase = none

/-- The physical address `p` is a managed frame whose slot is occupied. -/
def FrameAllocated (cm : Coremap) (p : Nat) : Prop :=
  ∃ s, s < cm.number_of_pages ∧ (p = cm.frame_start + s * PAGE_SIZE ∧ cm.slots[s]? ≠ some 0)

/-- The physical address `p` is a managed frame whose slot is free. -/
def FrameFree (cm : Coremap) (p : Nat) : Prop :=
  ∃ s, s < cm.number_of_pages ∧ (p = cm.frame_start + s * PAGE_SIZE ∧ cm.slots[s]? = some 0)

/-- The kernel-virtual address `a` lies in the frame at physical address `p`. -/
def InFrame (p a : Nat) : Prop :=
  PADDR_TO_KVADDR p ≤ a ∧ a < PADDR_TO_KVADDR p + PAGE_SIZE

/-- A fully populated address space whose frames are marked allocated in the coremap:
the three arrays exist with one entry per page, and each entry is an occupied frame. -/
structure Populated (cm : Coremap) (as : addrspace) : Prop where
  text : ∃ l, as.as_pbase1 = some l ∧ l.length = as.as_npages1 ∧ ∀ p ∈ l, FrameAllocated cm p
  data : ∃ l, as.as_pbase2 = some l ∧ l.length = as.as_npages2 ∧ ∀ p ∈ l, FrameAllocated cm p
  stack : ∃ l, as.as_stackpbase = some l ∧ l.length = DUMBVM_STACKPAGES ∧
    ∀ p ∈ l, FrameAllocated cm p

/-- All frame numbers of an address space: text, data, stack. -/
def framesOf (as : addrspace) : List Nat :=
  as.as_pbase1.getD [] ++ as.as_pbase2.getD [] ++ as.as_stackpbase.getD []

/-- What one allocation loop of `as_prepare_load` guarantees when it returns `ret` after
starting at index `i` with `k` iterations to go: the coremap stays bootstrapped and only
gains single-page runs on slots that were free, memory changes only inside frames that
were free, and when the loop completes (`ret = 0`) the entries `i .. i+k-1` of the array
are pairwise distinct frames that were free before and are occupied now. -/
structure AllocPost (cm cm' : Coremap) (mem mem' : Memory) (arr arr' : Option (List Nat))
    (i k ret : Nat) : Prop where
  boot : Bootstrapped cm'
  pages : cm'.number_of_pages = cm.number_of_pages
  start : cm'.frame_start = cm.frame_start
  slots : ∀ s : Nat, cm'.slots[s]? = cm.slots[s]? ∨ (cm.slots[s]? = some 0 ∧ cm'.slots[s]? = some 1)
  memory : ∀ a, (∀ p, FrameFree cm p → ¬ InFrame p a) → mem' a = mem a
  null : arr = none → arr' = none
  array : ∀ l, arr = some l → ∃ l', arr' = some l' ∧ l'.length = l.length ∧
    ∀ m : Nat, (m < i ∨ i + k ≤ m) → l'[m]? = l[m]?
  code : ret = 0 ∨ ret = ENOMEM
  fresh : ret = 0 → ∀ m, i ≤ m → m < i + k → ∃ s, s < cm.number_of_pages ∧
    (arr'.getD [])[m]? = some (cm.frame_start + s * PAGE_SIZE) ∧
    cm.slots[s]? = some 0 ∧ cm'.slots[s]? = some 1
  distinct : ret = 0 → ∀ m₁ m₂, i ≤ m₁ → m₁ < m₂ → m₂ < i + k →
    (arr'.getD [])[m₁]? ≠ (arr'.getD [])[m₂]?

/-- The physical address `p` is a managed frame whose slot holds `v`. -/
def FrameWith (cm : Coremap) (p : Nat) (v : Int) : Prop :=
  ∃ s, s < cm.number_of_pages ∧ (p = cm.frame_start + s * PAGE_SIZE ∧ cm.slots[s]? = some v)

/-- What `as_prepare_load` guarantees when it returns `ret`. -/
structure PreparePost (cm cm' : Coremap) (mem mem' : Memory) (as as' : addrspace)
    (ret : Nat) : Prop where
  boot : Bootstrapped cm'
  pages : cm'.number_of_pages = cm.number_of_pages
  start : cm'.frame_start = cm.frame_start
  slots : ∀ s : Nat, cm'.slots[s]? = cm.slots[s]? ∨ (cm.slots[s]? = some 0 ∧ cm'.slots[s]? = some 1)
  memory : ∀ a, (∀ p, FrameFree cm p → ¬ InFrame p a) → mem' a = mem a
  code : ret = 0 ∨ ret = ENOMEM
  geometry : as' = { as with as_pbase1 := as'.as_pbase1, as_pbase2 := as'.as_pbase2,
                             as_stackpbase := as'.as_stackpbase }
  null1 : as.as_pbase1 = none → as'.as_pbase1 = none
  null2 : as.as_pbase2 = none → as'.as_pbase2 = none
  frames : ret = 0 → ∀ l₁ l₂, as.as_pbase1 = some l₁ → l₁.length = as.as_npages1 →
    as.as_pbase2 = some l₂ → l₂.length = as.as_npages2 →
    ∃ n₁ n₂ n₃, as'.as_pbase1 = some n₁ ∧ as'.as_pbase2 = some n₂ ∧
      as'.as_stackpbase = some n₃ ∧ n₁.length = as.as_npages1 ∧ n₂.length = as.as_npages2 ∧
      n₃.length = DUMBVM_STACKPAGES ∧ (n₁ ++ n₂ ++ n₃).Nodup ∧
      ∀ p ∈ n₁ ++ n₂ ++ n₃, FrameFree cm p ∧ FrameWith cm' p 1

/-- The coremap `cm'` arises from `cm` by turning free slots into single-page runs. -/
structure Grows (cm cm' : Coremap) : Prop where
  pages : cm'.number_of_pages = cm.number_of_pages
  start : cm'.frame_start = cm.frame_start
  slots : ∀ s : Nat, cm'.slots[s]? = cm.slots[s]? ∨ (cm.slots[s]? = some 0 ∧ cm'.slots[s]? = some 1)

/-- Memory filled with zero bytes. -/
def zeroMemory : Memory := fun _ => 0

/-- An address space after two `as_define_region` calls: one text page at `0x400000`
and one data page at `0x401000`, no frames yet. -/
def definedSpace : addrspace :=
  { as_vbase1 := 0x400000, as_pbase1 := some [0], as_npages1 := 1,
    as_vbase2 := 0x401000, as_pbase2 := some [0], as_npages2 := 1,
    as_stackpbase := none, loadelf_done := false }

/-- A coremap of sixteen frames in which frames 0 and 2 are taken. -/
def sixteenFrames : Coremap :=
  coremapOf [1, 0, 1, 0, 0, 0, 0, 0, 0, 0, 0, 0, 0, 0, 0, 0]

/-- A page-aligned 32-bit physical address. -/
def PageAligned (p : Nat) : Prop := p % PAGE_SIZE = 0 ∧ p < 4294967296

/-- What a call `as_copy (old, &new)` that returns `0` guarantees: `new` has the geometry
of `old`, its frames were free before the call, are pairwise distinct and are occupied
afterwards, and each page of `new` holds the bytes the page of `old` with the same index
held before the call. -/
structure CopyPost (cm cm' : Coremap) (mem mem' : Memory) (old new : addrspace) : Prop where
  boot : Bootstrapped cm'
  grows : Grows cm cm'
  vbase1 : new.as_vbase1 = old.as_vbase1
  npages1 : new.as_npages1 = old.as_npages1
  vbase2 : new.as_vbase2 = old.as_vbase2
  npages2 : new.as_npages2 = old.as_npages2
  flag : new.loadelf_done = false
  frames : ∃ n₁ n₂ n₃ o₁ o₂ o₃,
    (new.as_pbase1 = some n₁ ∧ new.as_pbase2 = some n₂ ∧ new.as_stackpbase = some n₃) ∧
    (old.as_pbase1 = some o₁ ∧ old.as_pbase2 = some o₂ ∧ old.as_stackpbase = some o₃) ∧
    (n₁.length = old.as_npages1 ∧ n₂.length = old.as_npages2 ∧
      n₃.length = DUMBVM_STACKPAGES) ∧
    (n₁ ++ n₂ ++ n₃).Nodup ∧
    (∀ p ∈ n₁ ++ n₂ ++ n₃, FrameFree cm p ∧ FrameWith cm' p 1) ∧
    (∀ (j : Nat) p q off, n₁[j]? = some p → o₁[j]? = some q → off < PAGE_SIZE →
      mem' (PADDR_TO_KVADDR p + off) = mem (PADDR_TO_KVADDR q + off)) ∧
    (∀ (j : Nat) p q off, n₂[j]? = some p → o₂[j]? = some q → off < PAGE_SIZE →
      mem' (PADDR_TO_KVADDR p + off) = mem (PADDR_TO_KVADDR q + off)) ∧
    (∀ (j : Nat) p q off, n₃[j]? = some p → o₃[j]? = some q → off < PAGE_SIZE →
      mem' (PADDR_TO_KVADDR p + off) = mem (PADDR_TO_KVADDR q + off))

instance (cm : Coremap) (p : Nat) : Decidable (FrameAllocated cm p) := by
  unfold FrameAllocated; infer_instance

/-- A coremap of thirty frames whose first fourteen frames are single-page allocations. -/
def thirtyFrames : Coremap :=
  coremapOf (List.replicate 14 1 ++ List.replicate 16 0)

/-- A loaded address space owning the first fourteen frames of `thirtyFrames`: one text
page, one data page and the twelve stack pages. -/
def parentSpace : addrspace :=
  { as_vbase1 := 0x400000, as_pbase1 := some [0x1000], as_npages1 := 1,
    as_vbase2 := 0x401000, as_pbase2 := some [0x2000], as_npages2 := 1,
    as_stackpbase := some [0x3000, 0x4000, 0x5000, 0x6000, 0x7000, 0x8000, 0x9000, 0xa000,
      0xb000, 0xc000, 0xd000, 0xe000],
    loadelf_done := true }

/-- Memory in which every byte holds the low eight bits of the sum of its page number
and its offset, so that different pages differ. -/
def patternMemory : Memory := fun a => (a / 4096 + a % 4096) % 256

/-- What `as_copy` leaves when `parentSpace` is copied in `thirtyFrames`. -/
def forkResult : Nat × Coremap × Memory × Option addrspace :=
  returned (as_copy quietEnv thirtyFrames patternMemory parentSpace)

/-! ## The TLB and the fault handler -/

/-- Modelled from the spec: the fault kind `VM_FAULT_READ`, declared in `vm.h`. -/
def VM_FAULT_READ : Int := 0

/-- Modelled from the spec: the fault kind `VM_FAULT_WRITE`, declared in `vm.h`. -/
def VM_FAULT_WRITE : Int := 1

/-- Modelled from the spec: the fault kind `VM_FAULT_READONLY`, declared in `vm.h`. -/
def VM_FAULT_READONLY : Int := 2

/-- Modelled from the spec: the TLB of the current CPU, read and written by the external
`tlb_read`, `tlb_write` and `tlb_random`, is a list of `NUM_TLB` pairs `(ehi, elo)`. -/
abbrev TLB := List (Nat × Nat)

/-- The loops `for (i = 0; i < npages; i++) KASSERT((arr[i] & PAGE_FRAME) == arr[i])`
of `vm_fault`. -/
def assertAlignedLoop (arr : Option (List Nat)) : Nat → Nat → Except Fault Unit
  | 0, _ => .ok ()
  | k + 1, i =>
    match loadWord arr i with
    | .error e => .error e
    | .ok p => if p &&& PAGE_FRAME = p then assertAlignedLoop arr k (i + 1) else .error .assertion

/-- The block of `KASSERT`s of `vm_fault` (lines 238-281), in source order. -/
def vmFaultAsserts (as : addrspace) : Except Fault Unit :=
  if as.as_vbase1 = 0 then .error .assertion
  else if as.as_pbase1.isNone then .error .assertion
  else if as.as_npages1 = 0 then .error .assertion
  else if as.as_vbase2 = 0 then .error .assertion
  else if as.as_pbase2.isNone then .error .assertion
  else if as.as_npages2 = 0 then .error .assertion
  else if as.as_stackpbase.isNone then .error .assertion
  else if as.as_vbase1 &&& PAGE_FRAME ≠ as.as_vbase1 then .error .assertion
  else
    match assertAlignedLoop as.as_pbase1 as.as_npages1 0 with
    | .error e => .error e
    | .ok _ =>
      if as.as_vbase2 &&& PAGE_FRAME ≠ as.as_vbase2 then .error .assertion
      else
        match assertAlignedLoop as.as_pbase2 as.as_npages2 0 with
        | .error e => .error e
        | .ok _ => assertAlignedLoop as.as_stackpbase DUMBVM_STACKPAGES 0

/-- Translation inside one region (lines 297-300): `int diff = faultaddress - base`,
`index = diff / PAGE_SIZE`, `offset = diff % PAGE_SIZE`, `paddr = arr[index] + offset`,
with C's truncating division on `int` and the sum taken in 32 bits. -/
def translate (arr : Option (List Nat)) (faultaddress base : Nat) : Except Fault Nat :=
  let diff : Int := toInt (sub32 faultaddress base)
  let index : Int := Int.tdiv diff (PAGE_SIZE : Nat)
  let offset : Int := Int.tmod diff (PAGE_SIZE : Nat)
  if index < 0 then .error .badAccess
  else
    match loadWord arr index.toNat with
    | .error e => .error e
    | .ok p => .ok (((p : Int) + offset) % 4294967296).toNat

/-- Start of the stack region: `USERSTACK - DUMBVM_STACKPAGES * PAGE_SIZE`. -/
def stackbase : Nat := sub32 USERSTACK (u32 (DUMBVM_STACKPAGES * PAGE_SIZE))

/-- End of the text region, `vtop1 = vbase1 + as_npages1 * PAGE_SIZE`, in 32 bits. -/
def vtop1 (as : addrspace) : Nat := u32 (as.as_vbase1 + u32 (as.as_npages1 * PAGE_SIZE))

/-- End of the data region, `vtop2 = vbase2 + as_npages2 * PAGE_SIZE`, in 32 bits. -/
def vtop2 (as : addrspace) : Nat := u32 (as.as_vbase2 + u32 (as.as_npages2 * PAGE_SIZE))

/-- The region lookup of `vm_fault` (lines 290-319). The result `none` is the
`return EFAULT` of the last branch; `some (read_only, paddr)` otherwise. -/
def locate (as : addrspace) (faultaddress : Nat) : Except Fault (Option (Bool × Nat)) :=
  if as.as_vbase1 ≤ faultaddress ∧ faultaddress < vtop1 as then
    match translate as.as_pbase1 faultaddress as.as_vbase1 with
    | .error e => .error e
    | .ok paddr => .ok (some (true, paddr))
  else if as.as_vbase2 ≤ faultaddress ∧ faultaddress < vtop2 as then
    match translate as.as_pbase2 faultaddress as.as_vbase2 with
    | .error e => .error e
    | .ok paddr => .ok (some (false, paddr))
  else if stackbase ≤ faultaddress ∧ faultaddress < USERSTACK then
    match translate as.as_stackpbase faultaddress stackbase with
    | .error e => .error e
    | .ok paddr => .ok (some (false, paddr))
  else .ok none

/-- The low word of the new entry: `paddr | TLBLO_DIRTY | TLBLO_VALID`, followed by
`elo &= ~TLBLO_DIRTY` when `read_only && loadelf_finished`. -/
def entryLo (paddr : Nat) (read_only loadelf_finished : Bool) : Nat :=
  if read_only && loadelf_finished then
    (paddr ||| TLBLO_DIRTY ||| TLBLO_VALID) &&& (4294967295 - TLBLO_DIRTY)
  else paddr ||| TLBLO_DIRTY ||| TLBLO_VALID

/-- The scan `for (i = 0; i < NUM_TLB; i++)` of `vm_fault` for an entry whose
`TLBLO_VALID` bit is clear, with `k` iterations left: `some i` is the slot found. -/
def tlbScan (tlb : TLB) : Nat → Nat → Except Fault (Option Nat)
  | 0, _ => .ok none
  | k + 1, i =>
    match tlb[i]? with
    | none => .error .badAccess
    | some e => if e.2 &&& TLBLO_VALID ≠ 0 then tlbScan tlb k (i + 1) else .ok (some i)

/-- The TLB update of `vm_fault` (lines 342-376): `tlb_write` into the slot found by the
scan, or `tlb_random` when every entry is valid. `random` is the slot the hardware
picks for `tlb_random`. -/
def tlbInstall (random : Nat) (tlb : TLB) (ehi elo : Nat) : Except Fault TLB :=
  match tlbScan tlb NUM_TLB 0 with
  | .error e => .error e
  | .ok (some i) => .ok (tlb.set i (ehi, elo))
  | .ok none => .ok (tlb.set (random % NUM_TLB) (ehi, elo))

/-- The function `vm_fault`. `curproc` is `none` when there is no current process,
`some none` when the current process has no address space. The result is the return
value and the TLB. -/
def vm_fault (random : Nat) (tlb : TLB) (curproc : Option (Option addrspace))
    (faulttype : Int) (faultaddress : Nat) : Except Fault (Nat × TLB) :=
  if faulttype = VM_FAULT_READONLY then .ok (EINVAL, tlb)
  else if faulttype = VM_FAULT_READ ∨ faulttype = VM_FAULT_WRITE then
    match curproc with
    | none => .ok (EFAULT, tlb)
    | some none => .ok (EFAULT, tlb)
    | some (some as) =>
      match vmFaultAsserts as with
      | .error e => .error e
      | .ok _ =>
        match locate as (faultaddress &&& PAGE_FRAME) with
        | .error e => .error e
        | .ok none => .ok (EFAULT, tlb)
        | .ok (some (read_only, paddr)) =>
          if paddr &&& PAGE_FRAME ≠ paddr then .error .assertion
          else
            match tlbInstall random tlb (faultaddress &&& PAGE_FRAME)
                (entryLo paddr read_only as.loadelf_done) with
            | .error e => .error e
            | .ok tlb' => .ok (0, tlb')
  else .ok (EINVAL, tlb)

/-- The page base `p` lies in the text region. -/
def InText (as : addrspace) (p : Nat) : Prop :=
  as.as_vbase1 ≤ p ∧ p < as.as_vbase1 + as.as_npages1 * PAGE_SIZE

/-- The page base `p` lies in the data region. -/
def InData (as : addrspace) (p : Nat) : Prop :=
  as.as_vbase2 ≤ p ∧ p < as.as_vbase2 + as.as_npages2 * PAGE_SIZE

/-- The page base `p` lies in the stack region `[USERSTACK - 12 * PAGE_SIZE, USERSTACK)`. -/
def InStack (p : Nat) : Prop :=
  USERSTACK - 12 * PAGE_SIZE ≤ p ∧ p < USERSTACK

instance (as : addrspace) (p : Nat) : Decidable (InText as p) := by
  unfold InText; infer_instance

instance (as : addrspace) (p : Nat) : Decidable (InData as p) := by
  unfold InData; infer_instance

instance (p : Nat) : Decidable (InStack p) := by
  unfold InStack; infer_instance

/-- A well-formed address space, as `vm_fault` expects the one of the current process:
the conditions of its `KASSERT`s (both regions defined, non-empty and page-aligned, the
three frame arrays allocated with page-aligned entries), one array entry per page, and
the two regions disjoint and below the stack. -/
structure WellFormed (as : addrspace) : Prop where
  vbase1_ne : as.as_vbase1 ≠ 0
  vbase2_ne : as.as_vbase2 ≠ 0
  npages1_ne : as.as_npages1 ≠ 0
  npages2_ne : as.as_npages2 ≠ 0
  vbase1_al : as.as_vbase1 % PAGE_SIZE = 0
  vbase2_al : as.as_vbase2 % PAGE_SIZE = 0
  text : ∃ l, as.as_pbase1 = some l ∧ l.length = as.as_npages1 ∧ ∀ p ∈ l, PageAligned p
  data : ∃ l, as.as_pbase2 = some l ∧ l.length = as.as_npages2 ∧ ∀ p ∈ l, PageAligned p
  stack : ∃ l, as.as_stackpbase = some l ∧ l.length = DUMBVM_STACKPAGES ∧
    ∀ p ∈ l, PageAligned p
  text_top : as.as_vbase1 + as.as_npages1 * PAGE_SIZE ≤ USERSTACK - 12 * PAGE_SIZE
  data_top : as.as_vbase2 + as.as_npages2 * PAGE_SIZE ≤ USERSTACK - 12 * PAGE_SIZE
  apart : as.as_vbase1 + as.as_npages1 * PAGE_SIZE ≤ as.as_vbase2 ∨
    as.as_vbase2 + as.as_npages2 * PAGE_SIZE ≤ as.as_vbase1

instance (p : Nat) : Decidable (PageAligned p) := by
  unfold PageAligned; infer_instance

/-- A successful `vm_fault` for the page base of `va`, resolved through entry `index` of
the frame array `arr`: the call returns `0` and writes one TLB slot, whose high word is
the page base and whose low word has the frame `arr[index]` in its frame bits and
`TLBLO_VALID` set. -/
def Installs (random : Nat) (tlb : TLB) (as : addrspace) (faulttype : Int) (va : Nat)
    (arr : Option (List Nat)) (index : Nat) : Prop :=
  ∃ idx elo frame,
    vm_fault random tlb (some (some as)) faulttype va
      = .ok (0, tlb.set idx (va &&& PAGE_FRAME, elo)) ∧
    idx < NUM_TLB ∧ loadWord arr index = .ok frame ∧
    elo &&& TLBLO_PPAGE = frame ∧ elo &&& TLBLO_VALID = TLBLO_VALID

/-- A loaded address space: two text pages at `0x400000`, one data page at `0x10000000`,
twelve stack pages, `load_elf` finished. -/
def loadedSpace : addrspace :=
  { as_vbase1 := 0x400000, as_pbase1 := some [0x1000, 0x2000], as_npages1 := 2,
    as_vbase2 := 0x10000000, as_pbase2 := some [0x3000], as_npages2 := 1,
    as_stackpbase := some [0x4000, 0x5000, 0x6000, 0x7000, 0x8000, 0x9000, 0xa000, 0xb000,
      0xc000, 0xd000, 0xe000, 0xf000],
    loadelf_done := true }

/-- A TLB right after `as_activate`: all 64 entries invalid. -/
def emptyTLB : TLB := List.replicate 64 (0, 0)

/-! ## Region definition and bootstrap -/

/-- Modelled from the spec: the unsupported-operation code `EUNIMP` of the header
`kern/errno.h`; only its being non-zero matters here. -/
def EUNIMP : Nat := 2

/-- Page base stored by `as_define_region`: `vaddr &= PAGE_FRAME`. -/
def regionBase (vaddr : Nat) : Nat := vaddr &&& PAGE_FRAME

/-- Page count computed by `as_define_region` (lines 487-493):
`sz += vaddr & ~(vaddr_t)PAGE_FRAME; sz = (sz + PAGE_SIZE - 1) & PAGE_FRAME;
npages = sz / PAGE_SIZE`, in unsigned 32-bit arithmetic. -/
def regionPages (vaddr sz : Nat) : Nat :=
  (u32 (u32 (sz + (vaddr &&& (4294967295 - PAGE_FRAME))) + PAGE_SIZE - 1) &&& PAGE_FRAME)
    / PAGE_SIZE

/-- The function `as_define_region`; the permission arguments are ignored by the source.
The frame array comes from `kmalloc (sizeof(paddr_t) * npages)` and is filled with
zeros without a check for `NULL`. -/
def as_define_region (env : Env) (as : addrspace) (vaddr sz : Nat) :
    Except Fault (Nat × addrspace) :=
  if as.as_vbase1 = 0 then
    match zeroFillLoop (regionPages vaddr sz) 0
        (kmalloc_array env (u32 (4 * regionPages vaddr sz))) with
    | .error e => .error e
    | .ok arr =>
      .ok (0, { as with as_vbase1 := regionBase vaddr, as_npages1 := regionPages vaddr sz,
                        as_pbase1 := arr })
  else if as.as_vbase2 = 0 then
    match zeroFillLoop (regionPages vaddr sz) 0
        (kmalloc_array env (u32 (4 * regionPages vaddr sz))) with
    | .error e => .error e
    | .ok arr =>
      .ok (0, { as with as_vbase2 := regionBase vaddr, as_npages2 := regionPages vaddr sz,
                        as_pbase2 := arr })
  else .ok (EUNIMP, as)

/-- The function `vm_bootstrap`, for the pair `(lo, hi)` stored by `ram_getsize`. The
field `slots` is the table as the zeroing loop leaves it: one entry for each of the
`diff_to_start / (PAGE_SIZE + 4)` positions it writes. -/
def vm_bootstrap (lo hi : Nat) : Coremap :=
  let pages := sub32 hi lo / (PAGE_SIZE + 4)
  let first := u32 (sub32 (PADDR_TO_KVADDR lo) MIPS_KSEG0 + u32 (pages * 4))
  let frame_start :=
    if first % PAGE_SIZE ≠ 0 then u32 (PAGE_SIZE * (first / PAGE_SIZE + 1)) else first
  let number_of_pages := sub32 hi frame_start / PAGE_SIZE
  { slots := List.replicate pages 0,
    number_of_pages := number_of_pages,
    frame_start := frame_start,
    frame_end := u32 (u32 (PAGE_SIZE * number_of_pages) + frame_start),
    coremap_created := true }

/-- The address space `as_create` returns when `kmalloc` succeeds. -/
def freshSpace : addrspace :=
  { as_vbase1 := 0, as_pbase1 := none, as_npages1 := 0, as_vbase2 := 0,
    as_pbase2 := none, as_npages2 := 0, as_stackpbase := none, loadelf_done := false }

/-! ## Process records and the system calls `fork`, `_exit`, `waitpid` -/

/-- Modelled from the spec: the no-such-process code `ESRCH` of `kern/errno.h`. -/
def ESRCH : Nat := 15

/-- Modelled from the spec: the no-child code `ECHILD` of `kern/errno.h`. -/
def ECHILD : Nat := 16

/-- Modelled from the spec: the macro `_MKWAIT_EXIT` of `kern/wait.h`, the normal-exit
encoding of an exit code as a wait status: the code shifted left by two bits, with tag 0,
as a 32-bit `int`. The results about `sys_waitpid` do not depend on the encoding. -/
def _MKWAIT_EXIT (x : Int) : Int := toInt ((x * 4 % 4294967296).toNat)

/-- The fields of `struct proc` that the lifecycle system calls use. A pointer to a process
record is an index into the table `procs` of `Kernel`; the `children` array holds such
pointers. -/
structure proc where
  pid : Int
  parent : Option Nat
  children : List Nat
  terminated : Bool
  exit_code : Int
  p_addrspace : Option addrspace
deriving DecidableEq, Repr, Inhabited

/-- Kernel state seen by the lifecycle system calls: the process records (a freed record
is `none`), the coremap and physical memory. -/
structure Kernel where
  procs : List (Option proc)
  coremap : Coremap
  mem : Memory

instance : Inhabited Kernel := ⟨⟨[], coremapOf [], fun _ => 0⟩⟩

/-- Read of a process record through a pointer; a pointer to no record faults. -/
def deref (procs : List (Option proc)) (p : Nat) : Except Fault proc :=
  match procs[p]? with
  | some (some r) => .ok r
  | _ => .error .badAccess

/-- Process record as `proc_create_runprogram` hands it out: the PID it assigned, no
parent, no children, not terminated, no address space. -/
def blankProc (pid : Int) : proc :=
  { pid := pid, parent := none, children := [], terminated := false, exit_code := 0,
    p_addrspace := none }

/-- Modelled from the spec: `proc_create_runprogram`, an external collaborator. It returns
`NULL` (here `none`) when out of memory, and otherwise a pointer to a new record with the
PID it assigned, no parent, no children, not terminated and no address space. -/
def proc_create_runprogram (newpid : Option Int) (procs : List (Option proc)) :
    Option (Nat × List (Option proc)) :=
  match newpid with
  | none => none
  | some pid => some (procs.length, procs ++ [some (blankProc pid)])

/-- Modelled from the spec: `proc_destroy`, an external collaborator, frees the record. -/
def proc_destroy (procs : List (Option proc)) (p : Nat) : List (Option proc) :=
  procs.set p none

/-- What a call of `sys_waitpid` leaves behind: the code it returns, the value it stored
in `*retval` (`none` when it stored nothing), and the calls of `copyout` it made, each
with the user address and the integer handed over. -/
structure WaitResult where
  result : Nat
  retval : Option Int
  copyouts : List (Nat × Int)
deriving DecidableEq, Repr, Inhabited

/-- The search loop of `sys_waitpid` over `curproc->children`: `none` when no child has
the PID, and otherwise the wait status of the first child that has it. When that child has
not terminated the caller sleeps in `cv_wait`. -/
def waitScan (procs : List (Option proc)) (pid : Int) : List Nat → Except Fault (Option Int)
  | [] => .ok none
  | c :: rest =>
    match deref procs c with
    | .error e => .error e
    | .ok curr_child =>
      if curr_child.pid = pid then
        if curr_child.terminated = false then .error .blocked
        else .ok (some (_MKWAIT_EXIT curr_child.exit_code))
      else waitScan procs pid rest

/-- The function `sys_waitpid`. `copyout_result` is the code the external `copyout`
returns for the status pointer (0 when the pointer is writable). -/
def sys_waitpid (copyout_result : Nat) (k : Kernel) (curproc : Nat) (pid : Int)
    (status : Nat) (options : Int) : Except Fault WaitResult :=
  if options ≠ 0 then .ok { result := EINVAL, retval := none, copyouts := [] }
  else if pid < 0 then .ok { result := ESRCH, retval := some (-1), copyouts := [] }
  else
    match deref k.procs curproc with
    | .error e => .error e
    | .ok p =>
      match waitScan k.procs pid p.children with
      | .error e => .error e
      | .ok none => .ok { result := ECHILD, retval := some (-1), copyouts := [] }
      | .ok (some exitstatus) =>
        if copyout_result ≠ 0 then
          .ok { result := copyout_result, retval := none, copyouts := [(status, exitstatus)] }
        else .ok { result := 0, retval := some pid, copyouts := [(status, exitstatus)] }

/-- The function `sys__exit`, up to its call of `thread_exit`, which does not return: the
result is the kernel state at that call. -/
def sys__exit (k : Kernel) (curproc : Nat) (exitcode : Int) : Except Fault Kernel :=
  match deref k.procs curproc with
  | .error e => .error e
  | .ok p =>
    let has_parent := p.parent.isSome
    match p.p_addrspace with
    | none => .error .assertion
    | some as =>
      match as_destroy k.coremap as with
      | .error e => .error e
      | .ok cm =>
        let procs := k.procs.set curproc
          (some { p with terminated := true, exit_code := exitcode, p_addrspace := none })
        .ok { k with procs := if has_parent then procs else proc_destroy procs curproc,
                     coremap := cm }

/-- Outcomes of the external calls of `sys_fork`: the PID `proc_create_runprogram` assigns
(`none` when it returns `NULL`), whether `kmalloc` of the trapframe copy fails, and the
code `thread_fork` returns. -/
structure ForkEnv where
  newpid : Option Int
  tf_copy_null : Bool
  thread_fork : Nat

/-- The call `as_copy(curr_addr_space, &new_addr_space)` of `sys_fork`, whose first
argument may be `NULL`: `as_copy` reads it only after its own `as_create` succeeded. -/
def as_copy_from (env : Env) (cm : Coremap) (mem : Memory) (old : Option addrspace) :
    Except Fault (Nat × Coremap × Memory × Option addrspace) :=
  match old with
  | some as => as_copy env cm mem as
  | none =>
    match as_create env with
    | none => .ok (ENOMEM, cm, mem, none)
    | some _ => .error .badAccess

/-- The function `sys_fork`. The result holds the code returned, the value stored in
`*retval` (`none` when nothing is stored) and the kernel state. `tf` is the trapframe
pointer. -/
def sys_fork (env : Env) (fe : ForkEnv) (k : Kernel) (curproc : Nat) (tf : Option Nat) :
    Except Fault (Nat × Option Int × Kernel) :=
  if tf = none then .error .assertion
  else
    match deref k.procs curproc with
    | .error e => .error e
    | .ok p =>
      if ¬ (p.pid > 0) then .error .assertion
      else
        match proc_create_runprogram fe.newpid k.procs with
        | none => .ok (ENOMEM, none, k)
        | some (c_proc, procs1) =>
          match as_create env with
          | none => .ok (ENOMEM, none, { k with procs := proc_destroy procs1 c_proc })
          | some fresh =>
            match as_copy_from env k.coremap k.mem p.p_addrspace with
            | .error e => .error e
            | .ok (err_msg, cm, mem, new_addr_space) =>
              if err_msg ≠ 0 then
                match as_destroy cm fresh with
                | .error e => .error e
                | .ok cm' =>
                  .ok (ENOMEM, none,
                    { procs := proc_destroy procs1 c_proc, coremap := cm', mem := mem })
              else
                match deref procs1 c_proc with
                | .error e => .error e
                | .ok c =>
                  let procs2 := procs1.set c_proc (some { c with p_addrspace := new_addr_space })
                  let procs3 := procs2.set curproc
                    (some { p with children := p.children ++ [c_proc] })
                  let procs4 := procs3.set c_proc
                    (some { c with p_addrspace := new_addr_space, parent := some curproc })
                  if fe.tf_copy_null = true ∨ fe.thread_fork ≠ 0 then
                    match new_addr_space with
                    | none => .error .badAccess
                    | some as =>
                      match as_destroy cm as with
                      | .error e => .error e
                      | .ok cm' =>
                        .ok (ENOMEM, none,
                          { procs := proc_destroy procs4 c_proc, coremap := cm', mem := mem })
                  else .ok (0, some c.pid, { procs := procs4, coremap := cm, mem := mem })

/-- A kernel with two process records: a parent (PID 2, pointer 0) whose only child
(PID 3, pointer 1) has not terminated. -/
def familyKernel : Kernel :=
  { procs := [some { pid := 2, parent := none, children := [1], terminated := false,
                     exit_code := 0, p_addrspace := some parentSpace },
              some { pid := 3, parent := some 0, children := [], terminated := false,
                     exit_code := 0, p_addrspace := none }],
    coremap := thirtyFrames, mem := patternMemory }

/-- A kernel with one process (PID 2, pointer 0) that owns `parentSpace` and has no
children. -/
def loneKernel : Kernel :=
  { procs := [some { pid := 2, parent := none, children := [], terminated := false,
                     exit_code := 0, p_addrspace := some parentSpace }],
    coremap := thirtyFrames, mem := patternMemory }

/-- The process table after a successful `sys_fork`, for a parent record `parent`, a child
PID `pid` and the address space pointer `res` stored in the child. -/
def forkedProcs (procs : List (Option proc)) (curproc : Nat) (parent : proc) (pid : Int)
    (res : Option addrspace) : List (Option proc) :=
  (((procs ++ [some (blankProc pid)]).set procs.length
      (some { blankProc pid with p_addrspace := res })).set curproc
      (some { parent with children := parent.children ++ [procs.length] })).set procs.length
      (some { blankProc pid with p_addrspace := res, parent := some curproc })

/-! ## The system call `execv` -/

/-- Modelled from the spec: the name-too-long code `ENAMETOOLONG` of `kern/errno.h`. -/
def ENAMETOOLONG : Nat := 7

/-- The local constant `MAX_LEN` of `sys_execv`. -/
def MAX_LEN : Nat := 128

/-- Modelled from the spec: the macro `ROUNDUP` comes from the header `lib.h`, which is not
among the source files, and the spec does not define it. It is taken as its name reads:
`ROUNDUP(a, b)` is `a` rounded up to the next multiple of `b`, computed as
`((a + b - 1) / b) * b` on 32-bit unsigned values. -/
def ROUNDUP (a b : Nat) : Nat := u32 (u32 (a + b - 1) / b * b)

/-- Bytes of the C string that starts a byte sequence: those before the first NUL. -/
def cstring (s : List Nat) : List Nat := s.takeWhile (fun c => c ≠ 0)

/-- The library function `strlen` on a byte sequence. -/
def strlen (s : List Nat) : Nat := (cstring s).length

/-- Modelled from the spec: `copyinstr`, the bounded string copy from user space, an
external collaborator. `usersrc` is the byte sequence at the user pointer. The call fails
with the code `fault` when that code is not 0, fails with `ENAMETOOLONG` when the string
and its NUL do not fit in `len` bytes, and otherwise fills the kernel buffer with the
string and its NUL. -/
def copyinstr (fault : Nat) (usersrc : List Nat) (len : Nat) : Except Nat (List Nat) :=
  if fault ≠ 0 then .error fault
  else if len < strlen usersrc + 1 then .error ENAMETOOLONG
  else .ok (cstring usersrc ++ [0])

/-- Modelled from the spec: `copyout`, the copy of `len` bytes of the kernel buffer `src`
to the user address `userdest`, an external collaborator. It fails with the code
`fault userdest len` when that code is not 0 (the destination is not writable), fails with
`EFAULT` when the destination does not end at or below `USERSTACK`, the top of user
space, and otherwise stores the bytes in user memory. -/
def copyout (fault : Nat → Nat → Nat) (um : Memory) (src : List Nat) (userdest len : Nat) :
    Except Nat Memory :=
  if fault userdest len ≠ 0 then .error (fault userdest len)
  else if USERSTACK < userdest + len then .error EFAULT
  else .ok (fun a => if userdest ≤ a ∧ a < userdest + len then src.getD (a - userdest) 0
                     else um a)

/-- The four bytes of a 32-bit word in memory, most significant first (the MIPS of
System/161 is big-endian). -/
def wordBytes (w : Nat) : List Nat :=
  [w / 16777216 % 256, w / 65536 % 256, w / 256 % 256, w % 256]

/-- The 32-bit word stored at a user address. -/
def readWord (um : Memory) (a : Nat) : Nat :=
  um a * 16777216 + um (a + 1) * 65536 + um (a + 2) * 256 + um (a + 3)

/-- The function `as_define_stack`: the returned code and the initial stack pointer. -/
def as_define_stack (as : addrspace) : Except Fault (Nat × Nat) :=
  if as.as_stackpbase = none then .error .assertion else .ok (0, USERSTACK)

/-- Outcomes of the external calls of `sys_execv`: whether a `kmalloc` returns `NULL`, the
codes returned by `copyinstr`, `vfs_open` and `load_elf`, the entry point, address space
and user memory that `load_elf` leaves, and the code with which `copyout` refuses a
destination. -/
structure ExecEnv where
  name_alloc_fails : Bool
  copyinstr_name : Nat
  args_alloc_fails : Bool
  arg_alloc_fails : Nat → Bool
  copyinstr_arg : Nat → Nat
  vfs_open : Nat
  load_elf : Nat
  entrypoint : Nat
  loaded_as : addrspace
  loaded_umem : Memory
  stack_args_alloc_fails : Bool
  copyout_fault : Nat → Nat → Nat

/-- Identity of an address space during `sys_execv`: the one the process had when it made
the call (`old_as` in the source), or the one the call created (`as`). -/
inductive AsId where
  | caller
  | created
deriving DecidableEq, Repr

/-- What `sys_execv` has done to the process: which address space `curproc->p_addrspace`
is, whether `as_destroy(old_as)` was called, how often `vfs_open` succeeded and
`vfs_close(v)` was called, and the user memory of the created address space. -/
structure ExecState where
  p_addrspace : AsId
  old_destroyed : Bool
  vfs_opens : Nat
  vfs_closes : Nat
  umem : Memory

/-- How `sys_execv` ends: it returns an error code, or it calls `enter_new_process`, which
does not return. -/
inductive ExecExit where
  | error (code : Nat)
  | enter_new_process (argc : Nat) (argv : Nat) (stackptr : Nat) (entrypoint : Nat)
deriving DecidableEq, Repr

instance : Inhabited ExecExit := ⟨.error 0⟩

instance : Inhabited ExecState := ⟨⟨.caller, false, 0, 0, fun _ => 0⟩⟩

/-- The loop `for (i = 0; i < args_count; i++) copyinstr(args[i], args_copy[i], MAX_LEN)`,
from index `i` on; the result is the error code or the kernel copies. -/
def copyinArgs (fault : Nat → Nat) : Nat → List (List Nat) → Except Nat (List (List Nat))
  | _, [] => .ok []
  | i, a :: rest =>
    match copyinstr (fault i) a MAX_LEN with
    | .error e => .error e
    | .ok buf =>
      match copyinArgs fault (i + 1) rest with
      | .error e => .error e
      | .ok bufs => .ok (buf :: bufs)

/-- The loop `for (i = args_count - 1; i >= 0; i--)` that pushes the argument strings: the
strings after the first are pushed before it. The result is the error code with user
memory as the failed `copyout` found it, or the stack pointer, the recorded addresses
`stack_args[0 .. args_count - 1]` and user memory. -/
def pushStrings (fault : Nat → Nat → Nat) :
    List (List Nat) → Nat → Memory → Except (Nat × Memory) (Nat × List Nat × Memory)
  | [], stackptr, um => .ok (stackptr, [], um)
  | buf :: rest, stackptr, um =>
    match pushStrings fault rest stackptr um with
    | .error e => .error e
    | .ok (sp1, addrs, um1) =>
      let single_arg_len := strlen buf + 1
      let sp2 := sub32 sp1 single_arg_len
      match copyout fault um1 buf sp2 single_arg_len with
      | .error e => .error (e, um1)
      | .ok um2 => .ok (sp2, sp2 :: addrs, um2)

/-- The loop `for (i = args_count; i >= 0; i--)` that pushes the words of `stack_args`: the
words after the first are pushed before it. -/
def pushWords (fault : Nat → Nat → Nat) :
    List Nat → Nat → Memory → Except (Nat × Memory) (Nat × Memory)
  | [], stackptr, um => .ok (stackptr, um)
  | w :: rest, stackptr, um =>
    match pushWords fault rest stackptr um with
    | .error e => .error e
    | .ok (sp1, um1) =>
      let sp2 := sub32 sp1 4
      match copyout fault um1 (wordBytes w) sp2 4 with
      | .error e => .error (e, um1)
      | .ok um2 => .ok (sp2, um2)

/-- The part of `sys_execv` before `vfs_open`: the copies of the program name and of the
arguments into the kernel. The result is the error code or `args_copy`. -/
def execCopyin (xe : ExecEnv) (progname : List Nat) (args : List (List Nat)) :
    Except Nat (List (List Nat)) :=
  if xe.name_alloc_fails then .error ENOMEM
  else
    match copyinstr xe.copyinstr_name progname (strlen progname + 1) with
    | .error e => .error e
    | .ok _ =>
      if xe.args_alloc_fails then .error ENOMEM
      else if (List.range args.length).any xe.arg_alloc_fails then .error ENOMEM
      else copyinArgs xe.copyinstr_arg 0 args

/-- The part of `sys_execv` that builds the argument block on the user stack, from the
`kmalloc` of `stack_args` to the end of the second `copyout` loop. The result is the error
code with user memory at the failure, or the final `stackptr` and user memory. -/
def execStack (xe : ExecEnv) (args_copy : List (List Nat)) (stackptr : Nat) (um : Memory) :
    Except (Nat × Memory) (Nat × Memory) :=
  if xe.stack_args_alloc_fails then .error (ENOMEM, um)
  else
    match pushStrings xe.copyout_fault args_copy stackptr um with
    | .error e => .error e
    | .ok (sp1, addrs, um1) =>
      let reminder := sp1 % 4
      let sp2 := if reminder > 0 then sub32 sp1 reminder else sp1
      pushWords xe.copyout_fault (addrs ++ [0]) sp2 um1

/-- The function `sys_execv`. `progname` and `args` are `none` for `NULL` pointers and
otherwise hold the bytes at `progname` and at each `args[i]` before the terminating `NULL`
entry. `um` is the user memory of the address space the call creates, as `as_create`
leaves it. -/
def sys_execv (env : Env) (xe : ExecEnv) (um : Memory) (progname : Option (List Nat))
    (args : Option (List (List Nat))) : Except Fault (ExecExit × ExecState) :=
  let st0 : ExecState :=
    { p_addrspace := .caller, old_destroyed := false, vfs_opens := 0, vfs_closes := 0,
      umem := um }
  match progname, args with
  | none, _ => .error .assertion
  | some _, none => .error .assertion
  | some name, some argv =>
    match execCopyin xe name argv with
    | .error e => .ok (.error e, st0)
    | .ok args_copy =>
      if xe.vfs_open ≠ 0 then .ok (.error xe.vfs_open, st0)
      else
        match as_create env with
        | none => .ok (.error ENOMEM, { st0 with vfs_opens := 1, vfs_closes := 1 })
        | some _ =>
          if xe.load_elf ≠ 0 then
            .ok (.error xe.load_elf,
              { st0 with p_addrspace := .created, vfs_opens := 1, vfs_closes := 2 })
          else
            match as_define_stack xe.loaded_as with
            | .error f => .error f
            | .ok (result, stackptr) =>
              if result ≠ 0 then
                .ok (.error result,
                  { p_addrspace := .created, old_destroyed := true, vfs_opens := 1,
                    vfs_closes := 1, umem := xe.loaded_umem })
              else
                match execStack xe args_copy stackptr xe.loaded_umem with
                | .error (e, um') =>
                  .ok (.error e,
                    { p_addrspace := .created, old_destroyed := true, vfs_opens := 1,
                      vfs_closes := 1, umem := um' })
                | .ok (sp, um') =>
                  .ok (.enter_new_process argv.length sp (ROUNDUP sp 8) xe.entrypoint,
                    { p_addrspace := .created, old_destroyed := true, vfs_opens := 1,
                      vfs_closes := 1, umem := um' })

/-- An environment in which every external call of `sys_execv` succeeds; `load_elf` leaves
`loadedSpace`, zeroed user memory and the entry point `0x400000`. -/
def calmExec : ExecEnv :=
  { name_alloc_fails := false, copyinstr_name := 0, args_alloc_fails := false,
    arg_alloc_fails := fun _ => false, copyinstr_arg := fun _ => 0, vfs_open := 0,
    load_elf := 0, entrypoint := 0x400000, loaded_as := loadedSpace,
    loaded_umem := zeroMemory, stack_args_alloc_fails := false,
    copyout_fault := fun _ _ => 0 }

/-- The environment `calmExec`, except that `load_elf` returns the code 13. -/
def badElfExec : ExecEnv := { calmExec with load_elf := 13 }

/-- The environment `calmExec`, except that every `copyout` fails with the code 6. -/
def faultyStackExec : ExecEnv := { calmExec with copyout_fault := fun _ _ => 6 }

/-! ## The run encoding of the coremap -/

/-- The run encoding of the coremap table: every slot holds 0, or 1, or a value `k > 1`
right after a slot that holds `k - 1`; slot 0 therefore holds 0 or 1. -/
def RunEncoded (slots : List Int) : Prop :=
  ∀ i, i < slots.length → slots.getD i 0 = 0 ∨ slots.getD i 0 = 1 ∨
    (1 < slots.getD i 0 ∧ 0 < i ∧ slots.getD (i - 1) 0 = slots.getD i 0 - 1)

instance (slots : List Int) : Decidable (RunEncoded slots) := by
  unfold RunEncoded; infer_instance

/-- The run encoding in the middle of the loop of `free_kpages`, which is about to visit
slot `i` with the expected value `index`: slot `i` may hold `index` although the slot
before it has just been cleared. -/
def RunEncodedExcept (slots : List Int) (i : Nat) (index : Int) : Prop :=
  ∀ j, j < slots.length → slots.getD j 0 = 0 ∨ slots.getD j 0 = 1 ∨
    (1 < slots.getD j 0 ∧ 0 < j ∧
      (slots.getD (j - 1) 0 = slots.getD j 0 - 1 ∨
        (j = i ∧ slots.getD j 0 = index ∧ slots.getD (j - 1) 0 = 0)))

/-- Number of free frames: the slots of the coremap table that hold 0. -/
def zeroSlots (cm : Coremap) : Nat := cm.slots.count 0

/-- A bootstrapped one-frame coremap at the top of the 32-bit physical range, its frame in
use. -/
def topFrame : Coremap :=
  { slots := [1], number_of_pages := 1, frame_start := 4294959104,
    frame_end := 4294963200, coremap_created := true }

/-- An environment whose every `kmalloc` returns `NULL`. -/
def starvedEnv : Env :=
  { ram_stealmem := fun _ => 0, kmalloc_null := fun _ => true, kmalloc_junk := fun _ _ => 0 }

/-- An address space with two empty regions, as `as_prepare_load` expects it. -/
def emptyRegions : addrspace :=
  { as_vbase1 := 0x400000, as_pbase1 := some [], as_npages1 := 0, as_vbase2 := 0x10000000,
    as_pbase2 := some [], as_npages2 := 0, as_stackpbase := none, loadelf_done := false }

/-- A TLB whose slots 0 and 1 hold valid entries and whose other slots are invalid. -/
def partTLB : TLB :=
  [(0x10000000, 0x3600), (0x7ffff000, 0x4600)] ++ List.replicate 62 (0, 0)

/-- The kernel `loneKernel` with only five free frames left, fewer than a copy of
`parentSpace` needs. -/
def crowdedKernel : Kernel :=
  { loneKernel with coremap := coremapOf (List.replicate 14 1 ++ List.replicate 5 0) }

/-! ## The search of `getppages` on the memory behind the table -/

/-- The word `((int *)coremap_start)[index]` as the machine reads it: the slot when the
index lies in the table, and otherwise the word `behind index` that memory holds at that
offset behind the table. The code has no bounds check on the index. -/
def readSlot (slots : List Int) (behind : Nat → Int) (index : Nat) : Int :=
  match slots[index]? with
  | some v => v
  | none => behind index

/-- A store at a table index as the machine performs it: into the slot when the index
lies in the table, and otherwise into the word behind the table. -/
def writeSlot (slots : List Int) (behind : Nat → Int) (index : Nat) (v : Int) :
    List Int × (Nat → Int) :=
  if index < slots.length then (slots.set index v, behind)
  else (slots, fun m => if m = index then v else behind m)

/-- The inner scan of `getppages` as `scanLoop`, reading through `readSlot`: a read past
the table goes on with the word found there. -/
def scanLoopRaw (st : Coremap) (behind : Nat → Int) (addr : Nat) : Nat → Nat → Option Nat
  | 0, _ => none
  | k + 1, i =>
    if readSlot st.slots behind (scanIndex st addr i) ≠ 0 then some i
    else scanLoopRaw st behind addr k (i + 1)

/-- The marking loop of `getppages` as `markLoop`, storing through `writeSlot`. -/
def markLoopRaw (st : Coremap) (addr : Nat) :
    Nat → Nat → List Int → (Nat → Int) → List Int × (Nat → Int)
  | 0, _, slots, behind => (slots, behind)
  | k + 1, j, slots, behind =>
    markLoopRaw st addr k (j + 1)
      (writeSlot slots behind (markIndex st addr j) (toInt (u32 (j + 1)))).1
      (writeSlot slots behind (markIndex st addr j) (toInt (u32 (j + 1)))).2

/-- The `while (ending_point <= frame_end)` loop of `getppages` as `searchLoop`, on the
table and the memory behind it. -/
def searchLoopRaw (st : Coremap) (behind : Nat → Int) (npages : Nat) :
    Nat → Nat → Nat → Except Fault (Nat × Coremap × (Nat → Int))
  | 0, _, _ => .error .fuel
  | fuel + 1, addr, ending_point =>
    if ending_point ≤ st.frame_end then
      match scanLoopRaw st behind addr npages 0 with
      | some i =>
        searchLoopRaw st behind npages fuel (u32 (addr + u32 (PAGE_SIZE * (i + 1))))
          (u32 (u32 (PAGE_SIZE * npages) + u32 (addr + u32 (PAGE_SIZE * (i + 1)))))
      | none =>
        .ok (addr, { st with slots := (markLoopRaw st addr npages 0 st.slots behind).1 },
          (markLoopRaw st addr npages 0 st.slots behind).2)
    else .ok (0, st, behind)

/-- The function `getppages` as the machine runs it, without the fault that `getppages`
raises at a table index past the end of the table: `behind` is the memory behind the
table, and the result holds the address returned, the coremap and that memory. The search
does not change what it reads and `addr` keeps its offset within the page, so a search
that has not returned after `2^20 + 1` iterations never returns. -/
def getppagesRaw (env : Env) (st : Coremap) (behind : Nat → Int) (npages : Nat) :
    Except Fault (Nat × Coremap × (Nat → Int)) :=
  if st.coremap_created then
    searchLoopRaw st behind npages 1048577 st.frame_start
      (u32 (npages * PAGE_SIZE + st.frame_start))
  else .ok (env.ram_stealmem npages, st, behind)
/-- Four frames with the second one allocated, the table used to run a request whose end
address wraps around 32 bits. -/
def wrapTable : Coremap := coremapOf [0, 1, 0, 0]

/-- Memory behind the table holding zero words only. -/
def zeroBehind : Nat → Int := fun _ => 0

/-! # Theorems -/

/-! ## Arithmetic of the table indices -/

theorem scanIndex_eq {st : Coremap} (hb : Bootstrapped st) {s i : Nat}
    (h : s + i ≤ st.number_of_pages) :
    scanIndex st (st.frame_start + PAGE_SIZE * s) i = s + i := by
  have h1 := hb.extent
  have h2 := hb.bound
  simp only [scanIndex, sub32, u32, PAGE_SIZE] at *
  omega

theorem markIndex_eq {st : Coremap} (hb : Bootstrapped st) {s j : Nat}
    (h : s + j ≤ st.number_of_pages) :
    markIndex st (st.frame_start + PAGE_SIZE * s) j = s + j := by
  have h1 := hb.extent
  have h2 := hb.bound
  simp only [markIndex, sub32, u32, PAGE_SIZE] at *
  omega

theorem toInt_small {x : Nat} (h : x < 2147483648) : toInt (u32 x) = (x : Int) := by
  have h1 : x % 4294967296 = x := Nat.mod_eq_of_lt (by omega)
  simp only [toInt, u32, Nat.mod_mod, h1, if_pos h]

/-! ## The scan and the marking loop -/

theorem scanLoop_spec {st : Coremap} (hb : Bootstrapped st) (s : Nat) :
    ∀ (k i : Nat), s + i ≤ st.number_of_pages →
      (∀ j, j < i → st.slots[s + j]? = some 0) →
      (scanLoop st (st.frame_start + PAGE_SIZE * s) k i = .ok none →
        s + i + k ≤ st.number_of_pages ∧ ∀ j, j < i + k → st.slots[s + j]? = some 0) ∧
      (∀ r, scanLoop st (st.frame_start + PAGE_SIZE * s) k i = .ok (some r) →
        i ≤ r ∧ r < i + k ∧ s + r < st.number_of_pages ∧ st.slots[s + r]? ≠ some 0 ∧
          ∀ j, j < r → st.slots[s + j]? = some 0) ∧
      (∀ e, scanLoop st (st.frame_start + PAGE_SIZE * s) k i = .error e →
        e = .badAccess ∧ st.number_of_pages < s + i + k ∧
          ∀ j, s + j < st.number_of_pages → st.slots[s + j]? = some 0) := by
  intro k
  induction k with
  | zero =>
    intro i hi hz
    refine ⟨fun _ => ⟨by omega, fun j hj => hz j (by omega)⟩, ?_, ?_⟩
    · intro r h; simp [scanLoop] at h
    · intro e h; simp [scanLoop] at h
  | succ k ih =>
    intro i hi hz
    have hidx := scanIndex_eq hb hi
    rw [scanLoop, hidx]
    cases hget : st.slots[s + i]? with
    | none =>
      have hlen : st.slots.length ≤ s + i := List.getElem?_eq_none_iff.mp hget
      have htab := hb.table
      refine ⟨fun h => by simp at h, fun r h => by simp at h, ?_⟩
      intro e h
      simp only [Except.error.injEq] at h
      refine ⟨h.symm, by omega, fun j hj => hz j (by omega)⟩
    | some entry =>
      have hlt : s + i < st.slots.length := by
        by_contra hcon
        have : st.slots[s + i]? = none := List.getElem?_eq_none_iff.mpr (by omega)
        rw [this] at hget; cases hget
      have htab := hb.table
      by_cases he : entry = 0
      · subst he
        simp only [ne_eq, not_true_eq_false, if_false]
        have hz' : ∀ j, j < i + 1 → st.slots[s + j]? = some 0 := by
          intro j hj
          rcases Nat.lt_succ_iff_lt_or_eq.mp hj with h | h
          · exact hz j h
          · subst h; exact hget
        obtain ⟨h1, h2, h3⟩ := ih (i + 1) (by omega) hz'
        refine ⟨?_, ?_, ?_⟩
        · intro h
          obtain ⟨a, b⟩ := h1 h
          exact ⟨by omega, fun j hj => b j (by omega)⟩
        · intro r h
          obtain ⟨a, b, c⟩ := h2 r h
          exact ⟨by omega, by omega, c⟩
        · intro e h
          obtain ⟨a, b, c⟩ := h3 e h
          exact ⟨a, by omega, c⟩
      · simp only [ne_eq, he, not_false_eq_true, if_true]
        refine ⟨fun h => by simp at h, ?_, fun e h => by simp at h⟩
        intro r h
        simp only [Except.ok.injEq, Option.some.injEq] at h
        subst h
        refine ⟨le_refl _, by omega, by omega, ?_, hz⟩
        rw [hget]
        simpa using he

theorem markLoop_spec {st : Coremap} (hb : Bootstrapped st) (s : Nat) :
    ∀ (k j : Nat) (slots : List Int), s + j + k ≤ st.number_of_pages →
      slots.length = st.number_of_pages →
      ∃ slots', markLoop st (st.frame_start + PAGE_SIZE * s) k j slots = .ok slots' ∧
        slots'.length = slots.length ∧
        (∀ i, j ≤ i → i < j + k → slots'[s + i]? = some ((i : Int) + 1)) ∧
        (∀ m, (m < s + j ∨ s + j + k ≤ m) → slots'[m]? = slots[m]?) := by
  intro k
  induction k with
  | zero =>
    intro j slots _ _
    exact ⟨slots, rfl, rfl, fun i h1 h2 => by omega, fun _ _ => rfl⟩
  | succ k ih =>
    intro j slots hjk hlen
    have hidx := markIndex_eq (s := s) (j := j) hb (by omega)
    have hbound : st.number_of_pages < 1048576 := by
      have h1 := hb.extent
      have h2 := hb.bound
      have h3 := hb.nonzero
      simp only [PAGE_SIZE] at h1
      omega
    rw [markLoop, hidx, if_pos (by omega), toInt_small (by omega)]
    obtain ⟨slots', h1, h2, h3, h4⟩ :=
      ih (j + 1) (slots.set (s + j) ((j + 1 : Nat) : Int)) (by omega) (by simpa using hlen)
    refine ⟨slots', h1, by simpa using h2, ?_, ?_⟩
    · intro i hi1 hi2
      rcases Nat.eq_or_lt_of_le hi1 with h | h
      · subst h
        rw [h4 (s + j) (Or.inl (by omega)), List.getElem?_set_self (by omega)]
        simp
      · exact h3 i (by omega) (by omega)
    · intro m hm
      rw [h4 m (by omega), List.getElem?_set_ne (by omega)]

/-! ## The search of `getppages` -/

theorem searchLoop_spec {st : Coremap} (hb : Bootstrapped st) (n : Nat) (hn : 1 ≤ n) :
    ∀ (fuel s : Nat), s ≤ st.number_of_pages → st.number_of_pages + 1 ≤ fuel + s →
      (∀ s', s' < s → ¬ Fits st n s') →
      (∃ s' st', searchLoop st n fuel (st.frame_start + PAGE_SIZE * s)
            (u32 (n * PAGE_SIZE + (st.frame_start + PAGE_SIZE * s)))
            = .ok (st.frame_start + PAGE_SIZE * s', st') ∧
          Fits st n s' ∧ (∀ s'', s'' < s' → ¬ Fits st n s'') ∧ Allocated st st' s' n) ∨
      (searchLoop st n fuel (st.frame_start + PAGE_SIZE * s)
            (u32 (n * PAGE_SIZE + (st.frame_start + PAGE_SIZE * s))) = .ok (0, st) ∧
          ∀ s', ¬ Fits st n s') ∨
      (searchLoop st n fuel (st.frame_start + PAGE_SIZE * s)
            (u32 (n * PAGE_SIZE + (st.frame_start + PAGE_SIZE * s))) = .error .badAccess ∧
          (∀ s', ¬ Fits st n s') ∧ 4294967296 ≤ n * PAGE_SIZE + st.frame_end) := by
  have hext := hb.extent
  have hbnd := hb.bound
  intro fuel
  induction fuel with
  | zero => intro s h1 h2; omega
  | succ fuel ih =>
    intro s hs hfuel hlow
    rw [searchLoop]
    by_cases hend : u32 (n * PAGE_SIZE + (st.frame_start + PAGE_SIZE * s)) ≤ st.frame_end
    · rw [if_pos hend]
      obtain ⟨hnone, hsome, herr⟩ := scanLoop_spec hb s n 0 (by omega) (fun j hj => by omega)
      cases hscan : scanLoop st (st.frame_start + PAGE_SIZE * s) n 0 with
      | error e =>
        obtain ⟨he, hover, hzero⟩ := herr e hscan
        subst he
        right; right
        refine ⟨rfl, ?_, ?_⟩
        · intro s' hf
          by_cases hlt : s' < s
          · exact hlow s' hlt hf
          · have := hf.1; omega
        · simp only [u32, PAGE_SIZE] at hend hext ⊢
          omega
      | ok found =>
        cases found with
        | none =>
          obtain ⟨hle, hz⟩ := hnone hscan
          obtain ⟨slots', hm1, hm2, hm3, hm4⟩ :=
            markLoop_spec hb s n 0 st.slots (by omega) hb.table
          left
          refine ⟨s, { st with slots := slots' }, ?_, ⟨by omega, fun i hi => hz i (by omega)⟩,
            hlow, ?_⟩
          · simp only [hm1]
          · exact ⟨rfl, rfl, rfl, rfl, hm2, fun i hi => hm3 i (Nat.zero_le _) (by omega),
              fun m hm => hm4 m (by omega)⟩
        | some r =>
          obtain ⟨_, hr, hrn, hocc, hz⟩ := hsome r hscan
          have haddr : u32 (st.frame_start + PAGE_SIZE * s + u32 (PAGE_SIZE * (r + 1)))
              = st.frame_start + PAGE_SIZE * (s + r + 1) := by
            simp only [u32, PAGE_SIZE] at hext ⊢
            omega
          have hending : u32 (u32 (PAGE_SIZE * n) + (st.frame_start + PAGE_SIZE * (s + r + 1)))
              = u32 (n * PAGE_SIZE + (st.frame_start + PAGE_SIZE * (s + r + 1))) := by
            simp only [u32, PAGE_SIZE]
            omega
          simp only [haddr, hending]
          refine ih (s + r + 1) (by omega) (by omega) ?_
          intro s' hs' hf
          by_cases hlt : s' < s
          · exact hlow s' hlt hf
          · apply hocc
            have := hf.2 (s + r - s') (by omega)
            rwa [show s' + (s + r - s') = s + r by omega] at this
    · rw [if_neg hend]
      right; left
      refine ⟨rfl, ?_⟩
      intro s' hf
      by_cases hlt : s' < s
      · exact hlow s' hlt hf
      · have := hf.1
        simp only [u32, PAGE_SIZE] at hend hext
        omega

/-- Outcome of `getppages` on a bootstrapped coremap, for every request of at least one
page: the lowest fitting run is allocated, or there is no fit and the call returns `0`
with the coremap untouched, or there is no fit, the 32-bit computation of `ending_point`
wrapped around and the scan left the table. -/
theorem getppages_outcome (env : Env) {st : Coremap} (hb : Bootstrapped st)
    (n : Nat) (hn : 1 ≤ n) :
    (∃ s st', getppages env st n = .ok (st.frame_start + PAGE_SIZE * s, st') ∧
        Fits st n s ∧ (∀ s', s' < s → ¬ Fits st n s') ∧ Allocated st st' s n) ∨
    (getppages env st n = .ok (0, st) ∧ ∀ s, ¬ Fits st n s) ∨
    (getppages env st n = .error .badAccess ∧ (∀ s, ¬ Fits st n s) ∧
        4294967296 ≤ n * PAGE_SIZE + st.frame_end) := by
  have h := searchLoop_spec hb n hn (st.number_of_pages + 1) 0 (Nat.zero_le _) (by omega)
    (fun s' hs' => by omega)
  simp only [Nat.mul_zero, Nat.add_zero] at h
  simpa only [getppages, hb.created, if_true] using h

/-! ## Claims about `getppages` -/

theorem bootstrapped_coremapOf (slots : List Int) (h : slots.length < 1048575) :
    Bootstrapped (coremapOf slots) := by
  refine ⟨rfl, rfl, ?_, ?_, rfl, ?_⟩ <;> simp only [coremapOf, PAGE_SIZE] <;> omega

/-- C1 (as amended): on a bootstrapped coremap, for every request of `n ≥ 1` pages whose
32-bit end address `n * PAGE_SIZE + frame_end` does not wrap around, `getppages` is exact
first-fit: when slot `s` is the lowest start of `n` free slots the call returns
`frame_start + s * PAGE_SIZE`, and it returns `0` exactly when no start fits. -/
theorem getppages_first_fit (env : Env) (st : Coremap) (hb : Bootstrapped st) (n : Nat)
    (hn : 1 ≤ n) (hw : n * PAGE_SIZE + st.frame_end < 4294967296) :
    (∀ s, Fits st n s → (∀ s', s' < s → ¬ Fits st n s') →
      ∃ st', getppages env st n = .ok (st.frame_start + s * PAGE_SIZE, st')) ∧
    ((∃ st', getppages env st n = .ok (0, st')) ↔ ¬ ∃ s, Fits st n s) := by
  have hpos := hb.nonzero
  rcases getppages_outcome env hb n hn with ⟨s0, st0, h0, hfit0, hlow0, _⟩ | ⟨h0, hno⟩ | ⟨_, _, hwrap⟩
  · refine ⟨?_, ?_⟩
    · intro s hfit hlow
      have hs : s = s0 := by
        rcases Nat.lt_trichotomy s s0 with h | h | h
        · exact absurd hfit (hlow0 s h)
        · exact h
        · exact absurd hfit0 (hlow s0 h)
      subst hs
      exact ⟨st0, by rw [h0, Nat.mul_comm]⟩
    · constructor
      · rintro ⟨st', h⟩
        rw [h0] at h
        simp only [Except.ok.injEq, Prod.mk.injEq] at h
        omega
      · intro h
        exact absurd ⟨s0, hfit0⟩ h
  · refine ⟨fun s hfit _ => absurd hfit (hno s), ?_⟩
    exact ⟨fun _ => fun ⟨s, hs⟩ => hno s hs, fun _ => ⟨st, h0⟩⟩
  · omega

/-- Witness for C1: with slots `1,2,0,1,0,0,0,0,0,0` a request of three pages is served
from slot 4, skipping the single free slot 2. -/
theorem getppages_first_fit_witness :
    ∃ st', getppages quietEnv (coremapOf [1, 2, 0, 1, 0, 0, 0, 0, 0, 0]) 3
      = .ok (4096 + 4 * PAGE_SIZE, st') :=
  (getppages_first_fit quietEnv (coremapOf [1, 2, 0, 1, 0, 0, 0, 0, 0, 0])
    (bootstrapped_coremapOf _ (by decide)) 3 (by decide) (by decide)).1 4
    (by decide) (by decide)

/-- C1 (as stated) fails: on ten free frames no run of `2 ^ 20` pages exists, yet the call
does not return `0`: `npages * PAGE_SIZE` wraps to `0`, the loop is entered and the scan
runs off the end of the table. -/
theorem getppages_first_fit_counterexample :
    Bootstrapped (coremapOf [0, 0, 0, 0, 0, 0, 0, 0, 0, 0]) ∧
    (¬ ∃ s, Fits (coremapOf [0, 0, 0, 0, 0, 0, 0, 0, 0, 0]) 1048576 s) ∧
    getppages quietEnv (coremapOf [0, 0, 0, 0, 0, 0, 0, 0, 0, 0]) 1048576
      = .error .badAccess ∧
    ¬ ∃ st', getppages quietEnv (coremapOf [0, 0, 0, 0, 0, 0, 0, 0, 0, 0]) 1048576
      = .ok (0, st') := by
  have hrun : getppages quietEnv (coremapOf [0, 0, 0, 0, 0, 0, 0, 0, 0, 0]) 1048576
      = .error .badAccess := by rfl
  refine ⟨bootstrapped_coremapOf _ (by decide), ?_, hrun, ?_⟩
  · rintro ⟨s, hs, _⟩
    simp only [coremapOf, List.length_cons, List.length_nil] at hs
    omega
  · rintro ⟨st', h⟩
    rw [hrun] at h
    cases h

/-! ## Claims about `free_kpages` -/

theorem freeLoop_total :
    ∀ (k i : Nat) (index : Int) (slots : List Int), i + k ≤ slots.length →
      ∃ slots', freeLoop k i index slots = .ok slots' ∧ slots'.length = slots.length ∧
        (∀ m, m < i → slots'[m]? = slots[m]?) ∧
        (∀ m : Nat, slots'[m]? = slots[m]? ∨ slots'[m]? = some 0) := by
  intro k
  induction k with
  | zero =>
    intro i index slots _
    exact ⟨slots, rfl, rfl, fun _ _ => rfl, fun _ => Or.inl rfl⟩
  | succ k ih =>
    intro i index slots hlen
    have hi : i < slots.length := by omega
    rw [freeLoop, List.getElem?_eq_getElem hi]
    by_cases hv : slots[i] = index
    · simp only [hv, if_true]
      obtain ⟨slots', h1, h2, h3, h4⟩ := ih (i + 1) (index + 1) (slots.set i 0)
        (by simpa using (by omega : i + 1 + k ≤ slots.length))
      refine ⟨slots', h1, by simpa using h2, ?_, ?_⟩
      · intro m hm
        rw [h3 m (by omega), List.getElem?_set_ne (by omega)]
      · intro m
        by_cases hmi : m = i
        · subst hmi
          right
          rw [h3 m (by omega), List.getElem?_set_self hi]
        · rcases h4 m with h | h
          · left; rw [h, List.getElem?_set_ne (fun h' => hmi h'.symm)]
          · right; exact h
    · simp only [hv, if_false]
      obtain ⟨slots', h1, h2, h3, h4⟩ := ih (i + 1) index slots (by omega)
      exact ⟨slots', h1, h2, fun m hm => h3 m (by omega), h4⟩

theorem freeLoop_run :
    ∀ (n k i : Nat) (index : Int) (slots : List Int), n ≤ k → i + k ≤ slots.length →
      (∀ t, t < n → slots[i + t]? = some (index + t)) →
      ∃ slots', freeLoop k i index slots = .ok slots' ∧ slots'.length = slots.length ∧
        ∀ t, t < n → slots'[i + t]? = some 0 := by
  intro n
  induction n with
  | zero =>
    intro k i index slots _ hlen _
    obtain ⟨slots', h1, h2, _, _⟩ := freeLoop_total k i index slots hlen
    exact ⟨slots', h1, h2, fun t ht => by omega⟩
  | succ n ih =>
    intro k i index slots hk hlen hrun
    obtain ⟨k, rfl⟩ : ∃ k', k = k' + 1 := ⟨k - 1, by omega⟩
    have hi : i < slots.length := by omega
    have h0 := hrun 0 (by omega)
    simp only [Nat.add_zero, Nat.cast_zero, add_zero] at h0
    rw [freeLoop, h0]
    simp only [if_true]
    have hrun' : ∀ t, t < n → (slots.set i 0)[i + 1 + t]? = some (index + 1 + (t : Int)) := by
      intro t ht
      rw [List.getElem?_set_ne (by omega)]
      have := hrun (t + 1) (by omega)
      rw [show i + 1 + t = i + (t + 1) by omega, this]
      push_cast
      congr 1
      ring
    obtain ⟨slots', h1, h2, h3⟩ := ih k (i + 1) (index + 1) (slots.set i 0) (by omega)
      (by simpa using (by omega : i + 1 + k ≤ slots.length)) hrun'
    obtain ⟨slots'', g1, _, g3, _⟩ := freeLoop_total k (i + 1) (index + 1) (slots.set i 0)
      (by simpa using (by omega : i + 1 + k ≤ slots.length))
    refine ⟨slots', h1, by simpa using h2, ?_⟩
    intro t ht
    rcases Nat.eq_zero_or_pos t with hz | hp
    · subst hz
      rw [h1] at g1
      cases g1
      rw [Nat.add_zero, g3 i (by omega), List.getElem?_set_self hi]
    · have := h3 (t - 1) (by omega)
      rwa [show i + 1 + (t - 1) = i + t by omega] at this

theorem free_start_eq {st : Coremap} (hb : Bootstrapped st) {s : Nat}
    (hs : s ≤ st.number_of_pages) :
    sub32 (sub32 (PADDR_TO_KVADDR (st.frame_start + s * PAGE_SIZE)) MIPS_KSEG0) st.frame_start
      / PAGE_SIZE = s := by
  have h1 := hb.extent
  have h2 := hb.bound
  simp only [sub32, u32, PADDR_TO_KVADDR, MIPS_KSEG0, PAGE_SIZE] at *
  omega

theorem free_kpages_total {st : Coremap} (hb : Bootstrapped st) (addr : Nat) :
    ∃ st', free_kpages st addr = .ok st' := by
  have htab := hb.table
  unfold free_kpages
  simp only []
  by_cases hle : sub32 (sub32 addr MIPS_KSEG0) st.frame_start / PAGE_SIZE ≤ st.number_of_pages
  · obtain ⟨slots', h, _⟩ := freeLoop_total
      (st.number_of_pages - sub32 (sub32 addr MIPS_KSEG0) st.frame_start / PAGE_SIZE)
      (sub32 (sub32 addr MIPS_KSEG0) st.frame_start / PAGE_SIZE) 1 st.slots (by omega)
    rw [h]
    exact ⟨_, rfl⟩
  · rw [show st.number_of_pages - sub32 (sub32 addr MIPS_KSEG0) st.frame_start / PAGE_SIZE = 0
      by omega]
    exact ⟨_, rfl⟩

/-- C3: on a bootstrapped coremap in which slots `s .. s+n-1` hold the run `1, ..., n`,
`free_kpages` called with the kernel-virtual address of frame `s` returns and leaves
`0` in each of the slots `s .. s+n-1` (whatever follows the run). -/
theorem free_kpages_clears_run (st : Coremap) (hb : Bootstrapped st) (s n : Nat)
    (hrun : RunAt st.slots s n) :
    ∃ st', free_kpages st (PADDR_TO_KVADDR (st.frame_start + s * PAGE_SIZE)) = .ok st' ∧
      ∀ i, i < n → st'.slots[s + i]? = some 0 := by
  have htab := hb.table
  rcases Nat.eq_zero_or_pos n with hn | hn
  · subst hn
    obtain ⟨st', h⟩ := free_kpages_total hb (PADDR_TO_KVADDR (st.frame_start + s * PAGE_SIZE))
    exact ⟨st', h, fun i hi => by omega⟩
  · have hs : s + n ≤ st.number_of_pages := by
      have hlast := hrun (n - 1) (by omega)
      by_contra hcon
      rw [List.getElem?_eq_none_iff.mpr (by omega)] at hlast
      cases hlast
    have hrun' : ∀ t, t < n → st.slots[s + t]? = some ((1 : Int) + t) := by
      intro t ht
      rw [hrun t ht, add_comm]
    obtain ⟨slots', h1, _, h3⟩ := freeLoop_run n (st.number_of_pages - s) s 1 st.slots
      (by omega) (by omega) hrun'
    refine ⟨{ st with slots := slots' }, ?_, h3⟩
    simp only [free_kpages, free_start_eq hb (by omega : s ≤ st.number_of_pages), h1]

/-- Witness for C3: freeing the first run of `1,2,3,1,2,0,0,0,0,0` clears slots 0 to 2. -/
theorem free_kpages_clears_run_witness :
    ∃ st', free_kpages (coremapOf [1, 2, 3, 1, 2, 0, 0, 0, 0, 0])
        (PADDR_TO_KVADDR ((coremapOf [1, 2, 3, 1, 2, 0, 0, 0, 0, 0]).frame_start + 0 * PAGE_SIZE))
        = .ok st' ∧
      ∀ i, i < 3 → st'.slots[0 + i]? = some 0 :=
  free_kpages_clears_run (coremapOf [1, 2, 3, 1, 2, 0, 0, 0, 0, 0])
    (bootstrapped_coremapOf _ (by decide)) 0 3 (by decide)

/-- C4 fails on the code: the loop of `free_kpages` has no `break`, so after the run
ends it keeps scanning and clears any later slot that holds the next expected index.
With the table `1,1,2` (a one-page allocation followed by a two-page allocation), the
run headed at slot 0 has length 1 (slot 1 holds `1`, not `2`), and freeing it also
clears slot 2, the second page of the other allocation. -/
theorem free_kpages_clears_beyond_run :
    Bootstrapped (coremapOf [1, 1, 2]) ∧ RunAt (coremapOf [1, 1, 2]).slots 0 1 ∧
    (coremapOf [1, 1, 2]).slots[1]? ≠ some 2 ∧
    free_kpages (coremapOf [1, 1, 2])
        (PADDR_TO_KVADDR ((coremapOf [1, 1, 2]).frame_start + 0 * PAGE_SIZE))
      = .ok (coremapOf [0, 1, 0]) ∧
    (coremapOf [1, 1, 2]).slots[2]? = some 2 ∧ (coremapOf [0, 1, 0]).slots[2]? = some 0 :=
  ⟨bootstrapped_coremapOf _ (by decide), by decide, by decide, by rfl, by rfl, by rfl⟩

/-! ## The allocation loops of `as_prepare_load` -/

theorem Allocated.bootstrapped {st st' : Coremap} {s n : Nat} (hb : Bootstrapped st)
    (h : Allocated st st' s n) : Bootstrapped st' := by
  refine ⟨?_, ?_, ?_, ?_, ?_, ?_⟩
  · rw [h.created]; exact hb.created
  · rw [h.length, h.pages]; exact hb.table
  · rw [h.start]; exact hb.aligned
  · rw [h.start]; exact hb.nonzero
  · rw [h.stop, h.start, h.pages]; exact hb.extent
  · rw [h.stop]; exact hb.bound

theorem allocLoop_spec (env : Env) :
    ∀ (k i : Nat) (cm : Coremap) (mem : Memory) (arr : Option (List Nat))
      (ret : Nat) (cm' : Coremap) (mem' : Memory) (arr' : Option (List Nat)),
      Bootstrapped cm → allocLoop env k i cm mem arr = .ok (ret, cm', mem', arr') →
      AllocPost cm cm' mem mem' arr arr' i k ret := by
  intro k
  induction k with
  | zero =>
    intro i cm mem arr ret cm' mem' arr' hb h
    simp only [allocLoop, Except.ok.injEq, Prod.mk.injEq] at h
    obtain ⟨rfl, rfl, rfl, rfl⟩ := h
    exact ⟨hb, rfl, rfl, fun _ => Or.inl rfl, fun _ _ => rfl, fun h => h,
      fun l hl => ⟨l, hl, rfl, fun _ _ => rfl⟩, Or.inl rfl,
      fun _ m h1 h2 => by omega, fun _ m₁ m₂ h1 h2 h3 => by omega⟩
  | succ k ih =>
    intro i cm mem arr ret cm' mem' arr' hb h
    have hpos := hb.nonzero
    rw [allocLoop] at h
    rcases getppages_outcome env hb 1 (le_refl 1) with
      ⟨s, cm1, hget, hfit, _, hal⟩ | ⟨hget, _⟩ | ⟨hget, _⟩
    · -- a frame was found
      rw [hget] at h
      cases arr with
      | none => simp [storeWord] at h
      | some l =>
        simp only [storeWord] at h
        by_cases hi : i < l.length
        · simp only [hi, if_true] at h
          have hne : ¬ (cm.frame_start + PAGE_SIZE * s = 0) := by omega
          simp only [hne, if_false] at h
          have hb1 := hal.bootstrapped hb
          have post := ih (i + 1) cm1 _ _ ret cm' mem' arr' hb1 h
          have hs0 : cm.slots[s]? = some 0 := by simpa using hfit.2 0 (by omega)
          have hs1 : cm1.slots[s]? = some 1 := by simpa using hal.run 0 (by omega)
          have hslt : s < cm.number_of_pages := by have := hfit.1; omega
          have hstep : ∀ t : Nat, cm1.slots[t]? = cm.slots[t]? ∨
              (cm.slots[t]? = some 0 ∧ cm1.slots[t]? = some 1) := by
            intro t
            by_cases hts : t = s
            · subst hts; exact Or.inr ⟨hs0, hs1⟩
            · exact Or.inl (hal.frame t (by omega))
          have hfree : ∀ p, FrameFree cm1 p → FrameFree cm p := by
            rintro p ⟨t, ht, hp, hz⟩
            refine ⟨t, by rw [← hal.pages]; exact ht, by rw [← hal.start]; exact hp, ?_⟩
            rcases hstep t with h' | ⟨_, h'⟩
            · rw [← h']; exact hz
            · rw [h'] at hz; cases hz
          obtain ⟨l', hl', hlen', hout'⟩ := post.array _ rfl
          have hgetD : arr'.getD [] = l' := by rw [hl']; rfl
          refine ⟨post.boot, by rw [post.pages, hal.pages], by rw [post.start, hal.start],
            ?_, ?_, (fun h' => by cases h'), ?_, post.code, ?_, ?_⟩
          · intro t
            rcases post.slots t with h1 | ⟨h1, h2⟩
            · rcases hstep t with h3 | ⟨h3, h4⟩
              · exact Or.inl (h1.trans h3)
              · exact Or.inr ⟨h3, h1.trans h4⟩
            · rcases hstep t with h3 | ⟨h3, h4⟩
              · exact Or.inr ⟨h3 ▸ h1, h2⟩
              · rw [h4] at h1; cases h1
          · intro a ha
            rw [post.memory a (fun p hp => ha p (hfree p hp))]
            have hnot := ha (cm.frame_start + PAGE_SIZE * s)
              ⟨s, hslt, by rw [Nat.mul_comm], hs0⟩
            simp only [as_zero_region, bzero]
            rw [if_neg]
            simpa [InFrame, u32, PAGE_SIZE] using hnot
          · intro l0 hl0
            cases hl0
            refine ⟨l', hl', by simpa using hlen', ?_⟩
            intro m hm
            rw [hout' m (by omega), List.getElem?_set_ne (by omega)]
          · intro hret m hm1 hm2
            rw [hgetD]
            rcases Nat.eq_or_lt_of_le hm1 with heq | hlt
            · subst heq
              refine ⟨s, hslt, ?_, hs0, ?_⟩
              · rw [hout' i (Or.inl (by omega)), List.getElem?_set_self hi, Nat.mul_comm]
              · rcases post.slots s with h1 | ⟨h1, _⟩
                · rw [h1]; exact hs1
                · rw [hs1] at h1; cases h1
            · obtain ⟨t, ht, hmt, ht0, ht1⟩ := post.fresh hret m (by omega) (by omega)
              rw [hgetD] at hmt
              refine ⟨t, by rw [← hal.pages]; exact ht, by rw [← hal.start]; exact hmt, ?_, ht1⟩
              rcases hstep t with h' | ⟨_, h'⟩
              · rw [← h']; exact ht0
              · rw [h'] at ht0; cases ht0
          · intro hret m₁ m₂ h1 h2 h3
            rw [hgetD]
            rcases Nat.eq_or_lt_of_le h1 with heq | hlt
            · subst heq
              obtain ⟨t, ht, hmt, ht0, _⟩ := post.fresh hret m₂ (by omega) (by omega)
              rw [hgetD] at hmt
              rw [hout' i (Or.inl (by omega)), List.getElem?_set_self hi, hmt, hal.start]
              intro hcon
              simp only [Option.some.injEq] at hcon
              have hts : t = s := by
                simp only [PAGE_SIZE] at hcon
                omega
              subst hts
              rw [hs1] at ht0
              cases ht0
            · have := post.distinct hret m₁ m₂ (by omega) h2 (by omega)
              rwa [hgetD] at this
        · simp only [hi, if_false] at h
          cases h
    · -- the coremap is full
      rw [hget] at h
      cases arr with
      | none => simp [storeWord] at h
      | some l =>
        simp only [storeWord] at h
        by_cases hi : i < l.length
        · simp only [hi, if_true, Except.ok.injEq, Prod.mk.injEq] at h
          obtain ⟨rfl, rfl, rfl, rfl⟩ := h
          refine ⟨hb, rfl, rfl, fun _ => Or.inl rfl, fun _ _ => rfl, (fun h' => by cases h'),
            ?_, Or.inr rfl, (fun h' => by simp [ENOMEM] at h'), (fun h' => by simp [ENOMEM] at h')⟩
          intro l0 hl0
          cases hl0
          exact ⟨_, rfl, by simp, fun m hm => List.getElem?_set_ne (by omega)⟩
        · simp only [hi, if_false] at h
          cases h
    · rw [hget] at h
      cases h

theorem AllocPost.frames {cm cm' : Coremap} {mem mem' : Memory} {l : List Nat}
    {arr' : Option (List Nat)} {k : Nat}
    (post : AllocPost cm cm' mem mem' (some l) arr' 0 k 0) (hl : l.length = k) :
    ∃ l', arr' = some l' ∧ l'.length = k ∧ l'.Nodup ∧
      ∀ p ∈ l', FrameFree cm p ∧ FrameWith cm' p 1 := by
  obtain ⟨l', hl', hlen, _⟩ := post.array l rfl
  have hgetD : arr'.getD [] = l' := by rw [hl']; rfl
  refine ⟨l', hl', by omega, ?_, ?_⟩
  · rw [List.nodup_iff_getElem?_ne_getElem?]
    intro m₁ m₂ h1 h2
    have := post.distinct rfl m₁ m₂ (Nat.zero_le _) h1 (by omega)
    rwa [hgetD] at this
  · intro p hp
    obtain ⟨m, hm⟩ := List.getElem?_of_mem hp
    have hmlt : m < l'.length := by
      by_contra hcon
      rw [List.getElem?_eq_none_iff.mpr (by omega)] at hm
      cases hm
    obtain ⟨s, hs, hps, h0, h1⟩ := post.fresh rfl m (Nat.zero_le _) (by omega)
    rw [hgetD, hm] at hps
    simp only [Option.some.injEq] at hps
    exact ⟨⟨s, hs, hps, h0⟩, ⟨s, by rw [post.pages]; exact hs, by rw [post.start]; exact hps, h1⟩⟩

theorem FrameWith.unique {cm : Coremap} {p : Nat} {v w : Int}
    (h1 : FrameWith cm p v) (h2 : FrameWith cm p w) : v = w := by
  obtain ⟨s, _, hp, hv⟩ := h1
  obtain ⟨t, _, hq, hw⟩ := h2
  have hst : s = t := by
    simp only [PAGE_SIZE] at hp hq
    omega
  subst hst
  rw [hv] at hw
  simpa using hw

theorem Grows.refl (cm : Coremap) : Grows cm cm := ⟨rfl, rfl, fun _ => Or.inl rfl⟩

theorem Grows.trans {a b c : Coremap} (h1 : Grows a b) (h2 : Grows b c) : Grows a c := by
  refine ⟨by rw [h2.pages, h1.pages], by rw [h2.start, h1.start], ?_⟩
  intro s
  rcases h2.slots s with g | ⟨g1, g2⟩
  · rcases h1.slots s with f | ⟨f1, f2⟩
    · exact Or.inl (g.trans f)
    · exact Or.inr ⟨f1, g.trans f2⟩
  · rcases h1.slots s with f | ⟨f1, f2⟩
    · exact Or.inr ⟨f ▸ g1, g2⟩
    · rw [f2] at g1; cases g1

theorem Grows.free_back {cm cm' : Coremap} (h : Grows cm cm') {p : Nat}
    (hp : FrameFree cm' p) : FrameFree cm p := by
  obtain ⟨s, hs, hps, hz⟩ := hp
  refine ⟨s, by rw [← h.pages]; exact hs, by rw [← h.start]; exact hps, ?_⟩
  rcases h.slots s with g | ⟨_, g⟩
  · rw [← g]; exact hz
  · rw [g] at hz; cases hz

theorem Grows.one_forward {cm cm' : Coremap} (h : Grows cm cm') {p : Nat}
    (hp : FrameWith cm p 1) : FrameWith cm' p 1 := by
  obtain ⟨s, hs, hps, hv⟩ := hp
  refine ⟨s, by rw [h.pages]; exact hs, by rw [h.start]; exact hps, ?_⟩
  rcases h.slots s with g | ⟨g, _⟩
  · rw [g]; exact hv
  · rw [hv] at g; cases g

theorem Grows.allocated_forward {cm cm' : Coremap} (h : Grows cm cm') {p : Nat}
    (hp : FrameAllocated cm p) : FrameAllocated cm' p := by
  obtain ⟨s, hs, hps, hv⟩ := hp
  refine ⟨s, by rw [h.pages]; exact hs, by rw [h.start]; exact hps, ?_⟩
  rcases h.slots s with g | ⟨_, g⟩
  · rw [g]; exact hv
  · rw [g]; simp

theorem AllocPost.grows {cm cm' : Coremap} {mem mem' : Memory} {arr arr' : Option (List Nat)}
    {i k ret : Nat} (post : AllocPost cm cm' mem mem' arr arr' i k ret) : Grows cm cm' :=
  ⟨post.pages, post.start, post.slots⟩

theorem as_prepare_load_spec (env : Env) (cm : Coremap) (mem : Memory) (as : addrspace)
    (ret : Nat) (cm' : Coremap) (mem' : Memory) (as' : addrspace) (hb : Bootstrapped cm)
    (h : as_prepare_load env cm mem as = .ok (ret, cm', mem', as')) :
    PreparePost cm cm' mem mem' as as' ret := by
  unfold as_prepare_load at h
  split at h
  · cases h
  · split at h
    · cases h
    · split at h
      · cases h
      · split at h
        · cases h
        · rename_i r1 cm1 mem1 p1 hal1
          have post1 := allocLoop_spec env _ _ _ _ _ _ _ _ _ hb hal1
          have g1 := post1.grows
          split at h
          · rename_i hr1
            simp only [Except.ok.injEq, Prod.mk.injEq] at h
            obtain ⟨rfl, rfl, rfl, rfl⟩ := h
            exact ⟨post1.boot, g1.pages, g1.start, g1.slots, post1.memory, post1.code, rfl,
              post1.null, fun h' => h', fun h0 => absurd h0 hr1⟩
          · rename_i hr1
            have hr1 : r1 = 0 := by simpa using hr1
            subst hr1
            split at h
            · cases h
            · rename_i r2 cm2 mem2 p2 hal2
              have post2 := allocLoop_spec env _ _ _ _ _ _ _ _ _ post1.boot hal2
              have g2 := g1.trans post2.grows
              have hmem2 : ∀ a, (∀ p, FrameFree cm p → ¬ InFrame p a) → mem2 a = mem a := by
                intro a ha
                rw [post2.memory a (fun p hp => ha p (g1.free_back hp)), post1.memory a ha]
              split at h
              · rename_i hr2
                simp only [Except.ok.injEq, Prod.mk.injEq] at h
                obtain ⟨rfl, rfl, rfl, rfl⟩ := h
                exact ⟨post2.boot, g2.pages, g2.start, g2.slots, hmem2, post2.code, rfl,
                  post1.null, post2.null, fun h0 => absurd h0 hr2⟩
              · rename_i hr2
                have hr2 : r2 = 0 := by simpa using hr2
                subst hr2
                split at h
                · cases h
                · rename_i r3 cm3 mem3 p3 hal3
                  have post3 := allocLoop_spec env _ _ _ _ _ _ _ _ _ post2.boot hal3
                  have g3 := g2.trans post3.grows
                  simp only [Except.ok.injEq, Prod.mk.injEq] at h
                  obtain ⟨rfl, rfl, rfl, rfl⟩ := h
                  refine ⟨post3.boot, g3.pages, g3.start, g3.slots, ?_, post3.code, rfl,
                    post1.null, post2.null, ?_⟩
                  · intro a ha
                    rw [post3.memory a (fun p hp => ha p (g2.free_back hp)), hmem2 a ha]
                  · intro hr3 l₁ l₂ hl1 hlen1 hl2 hlen2
                    subst hr3
                    rw [hl1] at post1
                    rw [hl2] at post2
                    obtain ⟨n₁, hn1, hlen1', hnd1, hfr1⟩ := post1.frames hlen1
                    obtain ⟨n₂, hn2, hlen2', hnd2, hfr2⟩ := post2.frames hlen2
                    have hstack : ∃ l₃, kmalloc_array env (u32 (DUMBVM_STACKPAGES * 4)) = some l₃ ∧
                        l₃.length = DUMBVM_STACKPAGES := by
                      unfold kmalloc_array
                      split
                      · rename_i hnull
                        have hnone := post3.null (by simp [kmalloc_array, hnull])
                        obtain ⟨s, _, hs, _⟩ := post3.fresh rfl 0 (Nat.zero_le _)
                          (by simp [DUMBVM_STACKPAGES])
                        rw [hnone] at hs
                        simp at hs
                      · exact ⟨_, rfl, by simp [u32, DUMBVM_STACKPAGES]⟩
                    obtain ⟨l₃, hl3, hlen3⟩ := hstack
                    rw [hl3] at post3
                    obtain ⟨n₃, hn3, hlen3', hnd3, hfr3⟩ := post3.frames hlen3
                    refine ⟨n₁, n₂, n₃, hn1, hn2, hn3, hlen1', hlen2', hlen3', ?_, ?_⟩
                    · rw [List.nodup_append, List.nodup_append]
                      refine ⟨⟨hnd1, hnd2, ?_⟩, hnd3, ?_⟩
                      · intro p hp1 hp2
                        have a1 := (hfr1 p hp1).2
                        obtain ⟨s, hs, hps, hz⟩ := (hfr2 p hp2).1
                        have := FrameWith.unique a1 ⟨s, hs, hps, hz⟩
                        simp at this
                      · intro p hp12 hp3
                        obtain ⟨s, hs, hps, hz⟩ := (hfr3 p hp3).1
                        have a1 : FrameWith cm2 p 1 := by
                          rcases List.mem_append.mp hp12 with hp | hp
                          · exact post2.grows.one_forward (hfr1 p hp).2
                          · exact (hfr2 p hp).2
                        have := FrameWith.unique a1 ⟨s, hs, hps, hz⟩
                        simp at this
                    · intro p hp
                      rcases List.mem_append.mp hp with hp12 | hp3
                      · rcases List.mem_append.mp hp12 with hp1 | hp2
                        · exact ⟨(hfr1 p hp1).1,
                            post3.grows.one_forward (post2.grows.one_forward (hfr1 p hp1).2)⟩
                        · exact ⟨g1.free_back (hfr2 p hp2).1,
                            post3.grows.one_forward (hfr2 p hp2).2⟩
                      · exact ⟨g2.free_back (hfr3 p hp3).1, (hfr3 p hp3).2⟩

/-- C5: for a bootstrapped coremap (its `frame_start` is positive) and an address space
meeting the preconditions of `as_prepare_load`, a call that returns `0` leaves the three
arrays allocated with `npages1`, `npages2` and 12 entries, every entry non-zero, and the
`npages1 + npages2 + 12` entries pairwise distinct. -/
theorem as_prepare_load_exclusive (env : Env) (cm : Coremap) (mem : Memory) (as : addrspace)
    (hb : Bootstrapped cm) (hpre : PrepareLoadPre as)
    (r : Nat × Coremap × Memory × addrspace)
    (h : as_prepare_load env cm mem as = .ok r) (h0 : r.1 = 0) :
    ∃ n₁ n₂ n₃, r.2.2.2.as_pbase1 = some n₁ ∧ r.2.2.2.as_pbase2 = some n₂ ∧
      r.2.2.2.as_stackpbase = some n₃ ∧ n₁.length = as.as_npages1 ∧
      n₂.length = as.as_npages2 ∧ n₃.length = 12 ∧
      (∀ p ∈ n₁ ++ n₂ ++ n₃, p ≠ 0) ∧ (n₁ ++ n₂ ++ n₃).Nodup := by
  obtain ⟨ret, cm', mem', as'⟩ := r
  simp only at h0
  subst h0
  have post := as_prepare_load_spec env cm mem as 0 cm' mem' as' hb h
  obtain ⟨n₁, n₂, n₃, h1, h2, h3, hl1, hl2, hl3, hnd, hfr⟩ :=
    post.frames rfl _ _ hpre.text (by simp) hpre.data (by simp)
  refine ⟨n₁, n₂, n₃, h1, h2, h3, hl1, hl2, hl3, ?_, hnd⟩
  intro p hp
  obtain ⟨s, _, hps, _⟩ := (hfr p hp).1
  have := hb.nonzero
  omega

/-- Witness for C5: one text page, one data page and twelve stack pages are taken from a
sixteen-frame coremap with two frames in use. -/
theorem as_prepare_load_exclusive_witness :
    ∃ n₁ n₂ n₃,
      (returned (as_prepare_load quietEnv sixteenFrames zeroMemory definedSpace)).2.2.2.as_pbase1
        = some n₁ ∧
      (returned (as_prepare_load quietEnv sixteenFrames zeroMemory definedSpace)).2.2.2.as_pbase2
        = some n₂ ∧
      (returned (as_prepare_load quietEnv sixteenFrames zeroMemory definedSpace)).2.2.2.as_stackpbase
        = some n₃ ∧
      n₁.length = definedSpace.as_npages1 ∧ n₂.length = definedSpace.as_npages2 ∧
      n₃.length = 12 ∧ (∀ p ∈ n₁ ++ n₂ ++ n₃, p ≠ 0) ∧ (n₁ ++ n₂ ++ n₃).Nodup :=
  as_prepare_load_exclusive quietEnv sixteenFrames zeroMemory definedSpace
    (bootstrapped_coremapOf _ (by decide)) ⟨rfl, rfl, rfl⟩
    (returned (as_prepare_load quietEnv sixteenFrames zeroMemory definedSpace))
    (by rfl) (by rfl)

/-! ## The copy loops of `as_copy` -/

theorem inFrame_unique {p q a : Nat} (hp : PageAligned p) (hq : PageAligned q)
    (h1 : InFrame p a) (h2 : InFrame q a) : p = q := by
  simp only [PageAligned, InFrame, PADDR_TO_KVADDR, u32, MIPS_KSEG0, PAGE_SIZE] at *
  omega

theorem inFrame_offset (p off : Nat) (h : off < PAGE_SIZE) :
    InFrame p (PADDR_TO_KVADDR p + off) := by
  simp only [InFrame]
  omega

theorem FrameFree.aligned_of_free {cm : Coremap} (hb : Bootstrapped cm) {p : Nat}
    (h : FrameFree cm p) : PageAligned p := by
  obtain ⟨s, hs, hp, _⟩ := h
  have h1 := hb.extent
  have h2 := hb.bound
  have h3 := hb.aligned
  simp only [PageAligned, PAGE_SIZE] at *
  omega

theorem FrameAllocated.aligned_of_allocated {cm : Coremap} (hb : Bootstrapped cm) {p : Nat}
    (h : FrameAllocated cm p) : PageAligned p := by
  obtain ⟨s, hs, hp, _⟩ := h
  have h1 := hb.extent
  have h2 := hb.bound
  have h3 := hb.aligned
  simp only [PageAligned, PAGE_SIZE] at *
  omega

theorem FrameFree.not_allocated {cm : Coremap} {p : Nat} (h1 : FrameFree cm p)
    (h2 : FrameAllocated cm p) : False := by
  obtain ⟨s, _, hp, hz⟩ := h1
  obtain ⟨t, _, hq, hnz⟩ := h2
  have hst : s = t := by
    simp only [PAGE_SIZE] at hp hq
    omega
  subst hst
  exact hnz hz

theorem copyLoop_spec (d sr : List Nat)
    (hd : ∀ p ∈ d, PageAligned p) (hsr : ∀ q ∈ sr, PageAligned q)
    (hnd : d.Nodup) (hdis : ∀ p ∈ d, p ∉ sr) :
    ∀ (k i : Nat) (mem mem' : Memory), copyLoop (some d) (some sr) k i mem = .ok mem' →
      (∀ a, (∀ j p, i ≤ j → j < i + k → d[j]? = some p → ¬ InFrame p a) → mem' a = mem a) ∧
      (∀ j p q, i ≤ j → j < i + k → d[j]? = some p → sr[j]? = some q →
        ∀ off, off < PAGE_SIZE → mem' (PADDR_TO_KVADDR p + off) = mem (PADDR_TO_KVADDR q + off)) := by
  intro k
  induction k with
  | zero =>
    intro i mem mem' h
    simp only [copyLoop, Except.ok.injEq] at h
    subst h
    exact ⟨fun _ _ => rfl, fun j p q h1 h2 => by omega⟩
  | succ k ih =>
    intro i mem mem' h
    rw [copyLoop] at h
    simp only [loadWord] at h
    cases hdi : d[i]? with
    | none => simp [hdi] at h
    | some p0 =>
      cases hsi : sr[i]? with
      | none => simp [hdi, hsi] at h
      | some q0 =>
        simp only [hdi, hsi] at h
        obtain ⟨ih1, ih2⟩ := ih (i + 1) _ mem' h
        have hp0 : p0 ∈ d := List.mem_iff_getElem?.mpr ⟨i, hdi⟩
        have hq0 : q0 ∈ sr := List.mem_iff_getElem?.mpr ⟨i, hsi⟩
        have hmove : ∀ a, ¬ InFrame p0 a →
            memmove mem (PADDR_TO_KVADDR p0) (PADDR_TO_KVADDR q0) PAGE_SIZE a = mem a := by
          intro a ha
          simp only [memmove]
          rw [if_neg]
          simpa [InFrame] using ha
        have hlater : ∀ j p, i + 1 ≤ j → d[j]? = some p → p ≠ p0 := by
          intro j p hj hdj heq
          subst heq
          have hjlt : j < d.length := by
            by_contra hcon
            rw [List.getElem?_eq_none_iff.mpr (by omega)] at hdj
            cases hdj
          have hilt : i < d.length := by
            by_contra hcon
            rw [List.getElem?_eq_none_iff.mpr (by omega)] at hdi
            cases hdi
          have := (List.nodup_iff_getElem?_ne_getElem?.mp hnd) i j (by omega) hjlt
          rw [hdi, hdj] at this
          exact this rfl
        refine ⟨?_, ?_⟩
        · intro a ha
          rw [ih1 a (fun j p h1 h2 => ha j p (by omega) (by omega))]
          exact hmove a (ha i p0 (le_refl _) (by omega) hdi)
        · intro j p q h1 h2 hdj hsj off hoff
          rcases Nat.eq_or_lt_of_le h1 with heq | hlt
          · subst heq
            rw [hdi] at hdj
            rw [hsi] at hsj
            cases hdj
            cases hsj
            rw [ih1]
            · have hoff' : off < 4096 := hoff
              simp only [memmove, PAGE_SIZE]
              rw [if_pos ⟨by omega, by omega⟩, Nat.add_sub_cancel_left]
            · intro j' p' hj1 _ hdj' hin
              have hp' : p' ∈ d := List.mem_iff_getElem?.mpr ⟨j', hdj'⟩
              have := inFrame_unique (hd p' hp') (hd p0 hp0) hin (inFrame_offset p0 off hoff)
              exact hlater j' p' hj1 hdj' this
          · rw [ih2 j p q (by omega) (by omega) hdj hsj off hoff]
            apply hmove
            intro hin
            have hq : q ∈ sr := List.mem_iff_getElem?.mpr ⟨j, hsj⟩
            have := inFrame_unique (hd p0 hp0) (hsr q hq) hin (inFrame_offset q off hoff)
            exact hdis p0 hp0 (this ▸ hq)

theorem zeroFillLoop_spec :
    ∀ (k i : Nat) (arr arr' : Option (List Nat)), zeroFillLoop k i arr = .ok arr' →
      ∀ l', arr' = some l' → ∃ l, arr = some l ∧ l'.length = l.length ∧
        (k = 0 ∨ i + k ≤ l.length) := by
  intro k
  induction k with
  | zero =>
    intro i arr arr' h l' hl'
    simp only [zeroFillLoop, Except.ok.injEq] at h
    subst h
    exact ⟨l', hl', rfl, Or.inl rfl⟩
  | succ k ih =>
    intro i arr arr' h l' hl'
    rw [zeroFillLoop] at h
    cases arr with
    | none => simp [storeWord] at h
    | some l =>
      simp only [storeWord] at h
      by_cases hi : i < l.length
      · simp only [hi, if_true] at h
        obtain ⟨l₁, h1, h2, h3⟩ := ih (i + 1) _ arr' h l' hl'
        cases h1
        refine ⟨l, rfl, by simpa using h2, Or.inr ?_⟩
        rcases h3 with h3 | h3
        · omega
        · simp only [List.length_set] at h3
          omega
      · simp only [hi, if_false] at h
        cases h

theorem kmalloc_array_length (env : Env) (n : Nat) (l : List Nat)
    (h : kmalloc_array env (u32 (n * 4)) = some l) : l.length ≤ n := by
  unfold kmalloc_array at h
  split at h
  · cases h
  · simp only [Option.some.injEq] at h
    subst h
    simp only [List.length_map, List.length_range, u32]
    omega

theorem zeroFill_kmalloc (env : Env) (n : Nat) (arr' : Option (List Nat))
    (h : zeroFillLoop n 0 (kmalloc_array env (u32 (n * 4))) = .ok arr') :
    ∀ l', arr' = some l' → l'.length = n := by
  intro l' hl'
  obtain ⟨l, h1, h2, h3⟩ := zeroFillLoop_spec n 0 _ arr' h l' hl'
  have := kmalloc_array_length env n l h1
  omega

theorem assertNonzeroLoop_isSome (arr : Option (List Nat)) (k i : Nat) (u : Unit)
    (h : assertNonzeroLoop arr k i = .ok u) : ∃ l, arr = some l := by
  cases arr with
  | some l => exact ⟨l, rfl⟩
  | none => cases k <;> simp [assertNonzeroLoop] at h

theorem as_copy_spec (env : Env) (cm : Coremap) (mem : Memory) (old : addrspace)
    (cm' : Coremap) (mem' : Memory) (res : Option addrspace)
    (hb : Bootstrapped cm) (hpop : Populated cm old)
    (h : as_copy env cm mem old = .ok (0, cm', mem', res)) :
    ∃ new, res = some new ∧ CopyPost cm cm' mem mem' old new := by
  unfold as_copy at h
  split at h
  · simp [ENOMEM] at h
  · rename_i created hcreate
    have hcr : created.as_stackpbase = none ∧ created.loadelf_done = false := by
      unfold as_create at hcreate
      split at hcreate
      · cases hcreate
      · simp only [Option.some.injEq] at hcreate
        subst hcreate
        exact ⟨rfl, rfl⟩
    split at h
    · cases h
    · rename_i p1 hz1
      split at h
      · cases h
      · rename_i p2 hz2
        split at h
        · cases h
        · rename_i r cmP memP new hprep
          have post := as_prepare_load_spec env _ _ _ _ _ _ _ hb hprep
          split at h
          · split at h <;> simp [ENOMEM] at h
          · rename_i hr
            have hr : r = 0 := by simpa using hr
            subst hr
            split at h
            · cases h
            · rename_i u1 ha1
              split at h
              · cases h
              · rename_i u2 ha2
                split at h
                · cases h
                · rename_i u3 ha3
                  split at h
                  · cases h
                  · rename_i mem1 hc1
                    split at h
                    · cases h
                    · rename_i mem2 hc2
                      split at h
                      · cases h
                      · rename_i mem3 hc3
                        simp only [Except.ok.injEq, Prod.mk.injEq, true_and] at h
                        obtain ⟨rfl, rfl, rfl⟩ := h
                        refine ⟨new, rfl, ?_⟩
                        have hgeo := post.geometry
                        have hv1 : new.as_vbase1 = old.as_vbase1 := by
                          have := congrArg addrspace.as_vbase1 hgeo
                          simpa using this
                        have hn1 : new.as_npages1 = old.as_npages1 := by
                          have := congrArg addrspace.as_npages1 hgeo
                          simpa using this
                        have hv2 : new.as_vbase2 = old.as_vbase2 := by
                          have := congrArg addrspace.as_vbase2 hgeo
                          simpa using this
                        have hn2 : new.as_npages2 = old.as_npages2 := by
                          have := congrArg addrspace.as_npages2 hgeo
                          simpa using this
                        have hfl : new.loadelf_done = false := by
                          have := congrArg addrspace.loadelf_done hgeo
                          simpa [hcr.2] using this
                        obtain ⟨l₁, hl1⟩ : ∃ l, p1 = some l := by
                          cases hp : p1 with
                          | some l => exact ⟨l, rfl⟩
                          | none =>
                            obtain ⟨x, hx⟩ := assertNonzeroLoop_isSome _ _ _ _ ha1
                            rw [post.null1 hp] at hx
                            cases hx
                        obtain ⟨l₂, hl2⟩ : ∃ l, p2 = some l := by
                          cases hp : p2 with
                          | some l => exact ⟨l, rfl⟩
                          | none =>
                            obtain ⟨x, hx⟩ := assertNonzeroLoop_isSome _ _ _ _ ha2
                            rw [post.null2 hp] at hx
                            cases hx
                        have hlen1 := zeroFill_kmalloc env _ _ hz1 l₁ hl1
                        have hlen2 := zeroFill_kmalloc env _ _ hz2 l₂ hl2
                        obtain ⟨n₁, n₂, n₃, e1, e2, e3, k1, k2, k3, hnd, hfr⟩ :=
                          post.frames rfl l₁ l₂ hl1 hlen1 hl2 hlen2
                        simp only at k1 k2
                        obtain ⟨o₁, f1, g1, a1⟩ := hpop.text
                        obtain ⟨o₂, f2, g2, a2⟩ := hpop.data
                        obtain ⟨o₃, f3, g3, a3⟩ := hpop.stack
                        rw [List.nodup_append, List.nodup_append] at hnd
                        obtain ⟨⟨nd1, nd2, dj12⟩, nd3, dj3⟩ := hnd
                        have al1 : ∀ p ∈ n₁, PageAligned p := fun p hp =>
                          (hfr p (List.mem_append_left _ (List.mem_append_left _ hp))).1.aligned_of_free hb
                        have al2 : ∀ p ∈ n₂, PageAligned p := fun p hp =>
                          (hfr p (List.mem_append_left _ (List.mem_append_right _ hp))).1.aligned_of_free hb
                        have al3 : ∀ p ∈ n₃, PageAligned p := fun p hp =>
                          (hfr p (List.mem_append_right _ hp)).1.aligned_of_free hb
                        have fresh : ∀ p ∈ n₁ ++ n₂ ++ n₃, ∀ q, FrameAllocated cm q → p ≠ q := by
                          intro p hp q hq heq
                          subst heq
                          exact (hfr p hp).1.not_allocated hq
                        have sep : ∀ x y, PageAligned x → PageAligned y → x ≠ y →
                            ∀ off, off < PAGE_SIZE → ¬ InFrame x (PADDR_TO_KVADDR y + off) :=
                          fun x y hx hy hne off hoff hin =>
                            hne (inFrame_unique hx hy hin (inFrame_offset y off hoff))
                        rw [e1, f1, hn1] at hc1
                        rw [e2, f2, hn2] at hc2
                        rw [e3, f3] at hc3
                        obtain ⟨c1a, c1b⟩ := copyLoop_spec n₁ o₁ al1
                          (fun q hq => (a1 q hq).aligned_of_allocated hb) nd1
                          (fun p hp hq => fresh p (List.mem_append_left _ (List.mem_append_left _ hp))
                            p (a1 p hq) rfl) _ 0 memP mem1 hc1
                        obtain ⟨c2a, c2b⟩ := copyLoop_spec n₂ o₂ al2
                          (fun q hq => (a2 q hq).aligned_of_allocated hb) nd2
                          (fun p hp hq => fresh p (List.mem_append_left _ (List.mem_append_right _ hp))
                            p (a2 p hq) rfl) _ 0 mem1 mem2 hc2
                        obtain ⟨c3a, c3b⟩ := copyLoop_spec n₃ o₃ al3
                          (fun q hq => (a3 q hq).aligned_of_allocated hb) nd3
                          (fun p hp hq => fresh p (List.mem_append_right _ hp)
                            p (a3 p hq) rfl) _ 0 mem2 mem3 hc3
                        have hlt : ∀ (l : List Nat) (j : Nat) (p : Nat), l[j]? = some p →
                            j < l.length := by
                          intro l j p hj
                          by_contra hcon
                          rw [List.getElem?_eq_none_iff.mpr (by omega)] at hj
                          cases hj
                        have hmemP : ∀ q, FrameAllocated cm q → ∀ off, off < PAGE_SIZE →
                            memP (PADDR_TO_KVADDR q + off) = mem (PADDR_TO_KVADDR q + off) := by
                          intro q hq off hoff
                          apply post.memory
                          intro p hp
                          apply sep p q (hp.aligned_of_free hb) (hq.aligned_of_allocated hb) _ off hoff
                          intro heq
                          subst heq
                          exact hp.not_allocated hq
                        refine ⟨post.boot, ⟨post.pages, post.start, post.slots⟩, hv1, hn1, hv2, hn2,
                          hfl, n₁, n₂, n₃, o₁, o₂, o₃, ⟨e1, e2, e3⟩, ⟨f1, f2, f3⟩, ⟨k1, k2, k3⟩,
                          ?_, hfr, ?_, ?_, ?_⟩
                        · rw [List.nodup_append, List.nodup_append]
                          exact ⟨⟨nd1, nd2, dj12⟩, nd3, dj3⟩
                        · intro j p q off hp hq hoff
                          have hpm : p ∈ n₁ := List.mem_iff_getElem?.mpr ⟨j, hp⟩
                          have hqm : q ∈ o₁ := List.mem_iff_getElem?.mpr ⟨j, hq⟩
                          rw [c3a, c2a, c1b j p q (Nat.zero_le _) (by have := hlt _ _ _ hp; omega)
                            hp hq off hoff, hmemP q (a1 q hqm) off hoff]
                          · intro j' p' _ _ hp'
                            have hp'm : p' ∈ n₂ := List.mem_iff_getElem?.mpr ⟨j', hp'⟩
                            exact sep p' p (al2 p' hp'm) (al1 p hpm)
                              (fun heq => dj12 hpm (heq ▸ hp'm)) off hoff
                          · intro j' p' _ _ hp'
                            have hp'm : p' ∈ n₃ := List.mem_iff_getElem?.mpr ⟨j', hp'⟩
                            exact sep p' p (al3 p' hp'm) (al1 p hpm)
                              (fun heq => dj3 (List.mem_append_left _ hpm) (heq ▸ hp'm)) off hoff
                        · intro j p q off hp hq hoff
                          have hpm : p ∈ n₂ := List.mem_iff_getElem?.mpr ⟨j, hp⟩
                          have hqm : q ∈ o₂ := List.mem_iff_getElem?.mpr ⟨j, hq⟩
                          rw [c3a, c2b j p q (Nat.zero_le _) (by have := hlt _ _ _ hp; omega)
                            hp hq off hoff, c1a, hmemP q (a2 q hqm) off hoff]
                          · intro j' p' _ _ hp'
                            have hp'm : p' ∈ n₁ := List.mem_iff_getElem?.mpr ⟨j', hp'⟩
                            exact sep p' q (al1 p' hp'm) ((a2 q hqm).aligned_of_allocated hb)
                              (fresh p' (List.mem_append_left _ (List.mem_append_left _ hp'm))
                                q (a2 q hqm)) off hoff
                          · intro j' p' _ _ hp'
                            have hp'm : p' ∈ n₃ := List.mem_iff_getElem?.mpr ⟨j', hp'⟩
                            exact sep p' p (al3 p' hp'm) (al2 p hpm)
                              (fun heq => dj3 (List.mem_append_right _ hpm) (heq ▸ hp'm)) off hoff
                        · intro j p q off hp hq hoff
                          have hpm : p ∈ n₃ := List.mem_iff_getElem?.mpr ⟨j, hp⟩
                          have hqm : q ∈ o₃ := List.mem_iff_getElem?.mpr ⟨j, hq⟩
                          rw [c3b j p q (Nat.zero_le _) (by have := hlt _ _ _ hp; omega)
                            hp hq off hoff, c2a, c1a, hmemP q (a3 q hqm) off hoff]
                          · intro j' p' _ _ hp'
                            have hp'm : p' ∈ n₁ := List.mem_iff_getElem?.mpr ⟨j', hp'⟩
                            exact sep p' q (al1 p' hp'm) ((a3 q hqm).aligned_of_allocated hb)
                              (fresh p' (List.mem_append_left _ (List.mem_append_left _ hp'm))
                                q (a3 q hqm)) off hoff
                          · intro j' p' _ _ hp'
                            have hp'm : p' ∈ n₂ := List.mem_iff_getElem?.mpr ⟨j', hp'⟩
                            exact sep p' q (al2 p' hp'm) ((a3 q hqm).aligned_of_allocated hb)
                              (fresh p' (List.mem_append_left _ (List.mem_append_right _ hp'm))
                                q (a3 q hqm)) off hoff

/-! ## Claims about `as_copy` -/

theorem populated_parentSpace : Populated thirtyFrames parentSpace :=
  ⟨⟨_, rfl, rfl, by decide⟩, ⟨_, rfl, rfl, by decide⟩, ⟨_, rfl, rfl, by decide⟩⟩

/-- C6: for a bootstrapped coremap and a fully populated address space `old` whose frames
are marked allocated, a call of `as_copy` that returns `0` stores an address space with
the `as_vbase1`, `as_npages1`, `as_vbase2`, `as_npages2` of `old`, and for every page
index of the text region, the data region and the 12 stack pages the `PAGE_SIZE` bytes of
the new frame equal the bytes that the frame of `old` at that index held at the call. -/
theorem as_copy_fidelity (env : Env) (cm : Coremap) (mem : Memory) (old : addrspace)
    (hb : Bootstrapped cm) (hpop : Populated cm old)
    (r : Nat × Coremap × Memory × Option addrspace)
    (h : as_copy env cm mem old = .ok r) (h0 : r.1 = 0) :
    ∃ new, r.2.2.2 = some new ∧
      (new.as_vbase1 = old.as_vbase1 ∧ new.as_npages1 = old.as_npages1 ∧
        new.as_vbase2 = old.as_vbase2 ∧ new.as_npages2 = old.as_npages2) ∧
      (∀ i, i < old.as_npages1 → ∃ p q, loadWord new.as_pbase1 i = .ok p ∧
        loadWord old.as_pbase1 i = .ok q ∧ ∀ off, off < PAGE_SIZE →
          r.2.2.1 (PADDR_TO_KVADDR p + off) = mem (PADDR_TO_KVADDR q + off)) ∧
      (∀ i, i < old.as_npages2 → ∃ p q, loadWord new.as_pbase2 i = .ok p ∧
        loadWord old.as_pbase2 i = .ok q ∧ ∀ off, off < PAGE_SIZE →
          r.2.2.1 (PADDR_TO_KVADDR p + off) = mem (PADDR_TO_KVADDR q + off)) ∧
      (∀ i, i < 12 → ∃ p q, loadWord new.as_stackpbase i = .ok p ∧
        loadWord old.as_stackpbase i = .ok q ∧ ∀ off, off < PAGE_SIZE →
          r.2.2.1 (PADDR_TO_KVADDR p + off) = mem (PADDR_TO_KVADDR q + off)) := by
  obtain ⟨ret, cm', mem', res⟩ := r
  simp only at h0
  subst h0
  obtain ⟨new, hres, post⟩ := as_copy_spec env cm mem old cm' mem' res hb hpop h
  obtain ⟨n₁, n₂, n₃, o₁, o₂, o₃, ⟨e1, e2, e3⟩, ⟨f1, f2, f3⟩, ⟨k1, k2, k3⟩, _, _, m1, m2, m3⟩ :=
    post.frames
  obtain ⟨_, _, g1, _⟩ := hpop.text
  obtain ⟨_, _, g2, _⟩ := hpop.data
  obtain ⟨_, _, g3, _⟩ := hpop.stack
  have hload : ∀ (l : List Nat) (i : Nat) (hi : i < l.length), loadWord (some l) i = .ok l[i] := by
    intro l i hi
    simp [loadWord, List.getElem?_eq_getElem hi]
  refine ⟨new, hres, ⟨post.vbase1, post.npages1, post.vbase2, post.npages2⟩, ?_, ?_, ?_⟩
  · intro i hi
    have hi1 : i < n₁.length := by omega
    have hi2 : i < o₁.length := by rw [f1] at *; simp_all
    exact ⟨n₁[i], o₁[i], by rw [e1]; exact hload _ _ hi1, by rw [f1]; exact hload _ _ hi2,
      fun off hoff => m1 i _ _ off (List.getElem?_eq_getElem hi1) (List.getElem?_eq_getElem hi2) hoff⟩
  · intro i hi
    have hi1 : i < n₂.length := by omega
    have hi2 : i < o₂.length := by rw [f2] at *; simp_all
    exact ⟨n₂[i], o₂[i], by rw [e2]; exact hload _ _ hi1, by rw [f2]; exact hload _ _ hi2,
      fun off hoff => m2 i _ _ off (List.getElem?_eq_getElem hi1) (List.getElem?_eq_getElem hi2) hoff⟩
  · intro i hi
    have hi1 : i < n₃.length := by rw [k3]; exact hi
    have hi2 : i < o₃.length := by rw [f3] at *; simp_all [DUMBVM_STACKPAGES]
    exact ⟨n₃[i], o₃[i], by rw [e3]; exact hload _ _ hi1, by rw [f3]; exact hload _ _ hi2,
      fun off hoff => m3 i _ _ off (List.getElem?_eq_getElem hi1) (List.getElem?_eq_getElem hi2) hoff⟩

/-- Witness for C6: copying `parentSpace` out of a thirty-frame coremap. -/
theorem as_copy_fidelity_witness :
    ∃ new, forkResult.2.2.2 = some new ∧
      (new.as_vbase1 = parentSpace.as_vbase1 ∧ new.as_npages1 = parentSpace.as_npages1 ∧
        new.as_vbase2 = parentSpace.as_vbase2 ∧ new.as_npages2 = parentSpace.as_npages2) ∧
      (∀ i, i < parentSpace.as_npages1 → ∃ p q, loadWord new.as_pbase1 i = .ok p ∧
        loadWord parentSpace.as_pbase1 i = .ok q ∧ ∀ off, off < PAGE_SIZE →
          forkResult.2.2.1 (PADDR_TO_KVADDR p + off) = patternMemory (PADDR_TO_KVADDR q + off)) ∧
      (∀ i, i < parentSpace.as_npages2 → ∃ p q, loadWord new.as_pbase2 i = .ok p ∧
        loadWord parentSpace.as_pbase2 i = .ok q ∧ ∀ off, off < PAGE_SIZE →
          forkResult.2.2.1 (PADDR_TO_KVADDR p + off) = patternMemory (PADDR_TO_KVADDR q + off)) ∧
      (∀ i, i < 12 → ∃ p q, loadWord new.as_stackpbase i = .ok p ∧
        loadWord parentSpace.as_stackpbase i = .ok q ∧ ∀ off, off < PAGE_SIZE →
          forkResult.2.2.1 (PADDR_TO_KVADDR p + off) = patternMemory (PADDR_TO_KVADDR q + off)) :=
  as_copy_fidelity quietEnv thirtyFrames patternMemory parentSpace
    (bootstrapped_coremapOf _ (by decide)) populated_parentSpace forkResult (by rfl) (by rfl)

/-- C7: for a bootstrapped coremap and a fully populated address space `old` whose frames
are marked allocated, a call of `as_copy` that returns `0` stores an address space none
of whose entries in `as_pbase1`, `as_pbase2`, `as_stackpbase` equals an entry of the
three arrays of `old`. -/
theorem as_copy_no_shared_frames (env : Env) (cm : Coremap) (mem : Memory) (old : addrspace)
    (hb : Bootstrapped cm) (hpop : Populated cm old)
    (r : Nat × Coremap × Memory × Option addrspace)
    (h : as_copy env cm mem old = .ok r) (h0 : r.1 = 0) :
    ∃ new, r.2.2.2 = some new ∧ ∀ p ∈ framesOf new, p ∉ framesOf old := by
  obtain ⟨ret, cm', mem', res⟩ := r
  simp only at h0
  subst h0
  obtain ⟨new, hres, post⟩ := as_copy_spec env cm mem old cm' mem' res hb hpop h
  obtain ⟨n₁, n₂, n₃, o₁, o₂, o₃, ⟨e1, e2, e3⟩, ⟨f1, f2, f3⟩, _, _, hfr, _⟩ := post.frames
  obtain ⟨x₁, y1, _, a1⟩ := hpop.text
  obtain ⟨x₂, y2, _, a2⟩ := hpop.data
  obtain ⟨x₃, y3, _, a3⟩ := hpop.stack
  rw [f1] at y1
  rw [f2] at y2
  rw [f3] at y3
  cases y1
  cases y2
  cases y3
  refine ⟨new, hres, ?_⟩
  intro p hp hq
  simp only [framesOf, e1, e2, e3, f1, f2, f3, Option.getD_some] at hp hq
  have hfree := (hfr p hp).1
  have halloc : FrameAllocated cm p := by
    rcases List.mem_append.mp hq with hq12 | hq3
    · rcases List.mem_append.mp hq12 with hq1 | hq2
      · exact a1 p hq1
      · exact a2 p hq2
    · exact a3 p hq3
  exact hfree.not_allocated halloc

/-- Witness for C7: the copy of `parentSpace` shares no frame with it. -/
theorem as_copy_no_shared_frames_witness :
    ∃ new, forkResult.2.2.2 = some new ∧ ∀ p ∈ framesOf new, p ∉ framesOf parentSpace :=
  as_copy_no_shared_frames quietEnv thirtyFrames patternMemory parentSpace
    (bootstrapped_coremapOf _ (by decide)) populated_parentSpace forkResult (by rfl) (by rfl)

/-! ## Bit masks -/

theorem and_split (q r h m : Nat) (hr : r < 4096) (hm : m < 4096) :
    (4096 * q + r) &&& (4096 * h + m) = 4096 * (q &&& h) + (r &&& m) := by
  have e : (4096 : Nat) = 2 ^ 12 := by norm_num
  have hrm : r &&& m < 2 ^ 12 := Nat.and_lt_two_pow r (by omega)
  rw [e] at hr hm ⊢
  apply Nat.eq_of_testBit_eq
  intro j
  rw [Nat.testBit_and, Nat.testBit_mul_pow_two_add q hr, Nat.testBit_mul_pow_two_add h hm,
    Nat.testBit_mul_pow_two_add (q &&& h) hrm]
  by_cases hj : j < 12 <;> simp [hj]

theorem or_split (q r h m : Nat) (hr : r < 4096) (hm : m < 4096) :
    (4096 * q + r) ||| (4096 * h + m) = 4096 * (q ||| h) + (r ||| m) := by
  have e : (4096 : Nat) = 2 ^ 12 := by norm_num
  rw [e] at hr hm ⊢
  have hrm : r ||| m < 2 ^ 12 := Nat.or_lt_two_pow hr hm
  apply Nat.eq_of_testBit_eq
  intro j
  rw [Nat.testBit_or, Nat.testBit_mul_pow_two_add q hr, Nat.testBit_mul_pow_two_add h hm,
    Nat.testBit_mul_pow_two_add (q ||| h) hrm]
  by_cases hj : j < 12 <;> simp [hj]

theorem and_page_number (q : Nat) (hq : q < 1048576) : q &&& 1048575 = q := by
  have := Nat.and_pow_two_sub_one_eq_mod q 20
  norm_num at this
  rw [this]
  exact Nat.mod_eq_of_lt hq

theorem and_PAGE_FRAME (x : Nat) (hx : x < 4294967296) :
    x &&& PAGE_FRAME = 4096 * (x / 4096) := by
  have h1 : x = 4096 * (x / 4096) + x % 4096 := (Nat.div_add_mod x 4096).symm
  have h2 : PAGE_FRAME = 4096 * 1048575 + 0 := by simp [PAGE_FRAME]
  rw [h2]
  conv_lhs => rw [h1]
  rw [and_split _ _ _ _ (Nat.mod_lt _ (by norm_num)) (by norm_num),
    and_page_number _ (by omega)]
  simp

theorem and_PAGE_FRAME_aligned {p : Nat} (hp : PageAligned p) : p &&& PAGE_FRAME = p := by
  obtain ⟨h1, h2⟩ := hp
  rw [and_PAGE_FRAME p h2]
  simp only [PAGE_SIZE] at h1
  omega

theorem entryLo_bits {p : Nat} (hp : PageAligned p) (ro done : Bool) :
    entryLo p ro done &&& TLBLO_PPAGE = p ∧
    entryLo p ro done &&& TLBLO_VALID = TLBLO_VALID ∧
    (entryLo p ro done &&& TLBLO_DIRTY = 0 ↔ (ro = true ∧ done = true)) ∧
    (entryLo p ro done &&& TLBLO_DIRTY = 0 ∨ entryLo p ro done &&& TLBLO_DIRTY = TLBLO_DIRTY) := by
  obtain ⟨h1, h2⟩ := hp
  simp only [PAGE_SIZE] at h1
  have hq : p / 4096 < 1048576 := by omega
  have hp' : p = 4096 * (p / 4096) + 0 := by omega
  have hor : p ||| TLBLO_DIRTY ||| TLBLO_VALID = 4096 * (p / 4096) + 1536 := by
    conv_lhs => rw [hp']
    rw [show TLBLO_DIRTY = 4096 * 0 + 1024 by simp [TLBLO_DIRTY],
      show TLBLO_VALID = 4096 * 0 + 512 by simp [TLBLO_VALID],
      or_split _ _ _ _ (by norm_num) (by norm_num), or_split _ _ _ _ (by norm_num) (by norm_num)]
    simp
  have hclr : (4096 * (p / 4096) + 1536) &&& (4294967295 - TLBLO_DIRTY)
      = 4096 * (p / 4096) + 512 := by
    rw [show 4294967295 - TLBLO_DIRTY = 4096 * 1048575 + 3071 by simp [TLBLO_DIRTY],
      and_split _ _ _ _ (by norm_num) (by norm_num), and_page_number _ hq]
    rfl
  have mP : ∀ r, r < 4096 → (4096 * (p / 4096) + r) &&& TLBLO_PPAGE = p := by
    intro r hr
    rw [show TLBLO_PPAGE = 4096 * 1048575 + 0 by simp [TLBLO_PPAGE],
      and_split _ _ _ _ hr (by norm_num), and_page_number _ hq]
    simp
    omega
  have mLow : ∀ r m, r < 4096 → m < 4096 → (4096 * (p / 4096) + r) &&& m = r &&& m := by
    intro r m hr hm
    have := and_split (p / 4096) r 0 m hr hm
    simpa using this
  by_cases hc : ro = true ∧ done = true
  · have hE : entryLo p ro done = 4096 * (p / 4096) + 512 := by
      obtain ⟨rfl, rfl⟩ := hc
      simp only [entryLo, Bool.and_self, if_true, hor, hclr]
    rw [hE]
    refine ⟨mP _ (by norm_num), ?_, ?_, ?_⟩
    · rw [show TLBLO_VALID = 512 by rfl, mLow _ _ (by norm_num) (by norm_num)]
      rfl
    · rw [show TLBLO_DIRTY = 1024 by rfl, mLow _ _ (by norm_num) (by norm_num)]
      exact ⟨fun _ => hc, fun _ => rfl⟩
    · left
      rw [show TLBLO_DIRTY = 1024 by rfl, mLow _ _ (by norm_num) (by norm_num)]
      rfl
  · have hE : entryLo p ro done = 4096 * (p / 4096) + 1536 := by
      have hf : (ro && done) = false := by
        cases ro <;> cases done <;> first | rfl | exact absurd ⟨rfl, rfl⟩ hc
      simp only [entryLo, hf, Bool.false_eq_true, if_false, hor]
    rw [hE]
    refine ⟨mP _ (by norm_num), ?_, ?_, ?_⟩
    · rw [show TLBLO_VALID = 512 by rfl, mLow _ _ (by norm_num) (by norm_num)]
      rfl
    · rw [show TLBLO_DIRTY = 1024 by rfl, mLow _ _ (by norm_num) (by norm_num)]
      refine ⟨fun h => ?_, fun h => absurd h hc⟩
      exact absurd h (by decide)
    · right
      rw [show TLBLO_DIRTY = 1024 by rfl, mLow _ _ (by norm_num) (by norm_num)]
      rfl

/-! ## The fault handler -/

theorem assertAlignedLoop_ok (l : List Nat) (hl : ∀ p ∈ l, PageAligned p) :
    ∀ (k i : Nat), i + k ≤ l.length → assertAlignedLoop (some l) k i = .ok () := by
  intro k
  induction k with
  | zero => intro i _; rfl
  | succ k ih =>
    intro i hi
    have hlt : i < l.length := by omega
    rw [assertAlignedLoop]
    simp only [loadWord, List.getElem?_eq_getElem hlt]
    rw [if_pos (and_PAGE_FRAME_aligned (hl _ (List.getElem_mem hlt)))]
    exact ih (i + 1) (by omega)

theorem vmFaultAsserts_ok {as : addrspace} (hwf : WellFormed as) :
    vmFaultAsserts as = .ok () := by
  obtain ⟨l₁, e1, k1, a1⟩ := hwf.text
  obtain ⟨l₂, e2, k2, a2⟩ := hwf.data
  obtain ⟨l₃, e3, k3, a3⟩ := hwf.stack
  have t1 := hwf.text_top
  have t2 := hwf.data_top
  have v1 : as.as_vbase1 &&& PAGE_FRAME = as.as_vbase1 :=
    and_PAGE_FRAME_aligned ⟨hwf.vbase1_al, by simp only [USERSTACK, MIPS_KSEG0, PAGE_SIZE] at t1; omega⟩
  have v2 : as.as_vbase2 &&& PAGE_FRAME = as.as_vbase2 :=
    and_PAGE_FRAME_aligned ⟨hwf.vbase2_al, by simp only [USERSTACK, MIPS_KSEG0, PAGE_SIZE] at t2; omega⟩
  unfold vmFaultAsserts
  rw [if_neg hwf.vbase1_ne, e1, e2, e3]
  simp only [Option.isNone_some, Bool.false_eq_true, if_false, hwf.npages1_ne, hwf.npages2_ne,
    hwf.vbase2_ne, v1, v2, ne_eq, not_true_eq_false]
  rw [assertAlignedLoop_ok l₁ a1 _ 0 (by omega)]
  simp only
  rw [assertAlignedLoop_ok l₂ a2 _ 0 (by omega)]
  simp only
  exact assertAlignedLoop_ok l₃ a3 _ 0 (by omega)

theorem translate_ok (l : List Nat) (hl : ∀ p ∈ l, PageAligned p) (fa base : Nat)
    (hfa : fa < 2147483648) (hle : base ≤ fa) (hal : (fa - base) % 4096 = 0)
    (hin : fa < base + l.length * PAGE_SIZE) :
    ∃ frame, (fa - base) / PAGE_SIZE < l.length ∧
      loadWord (some l) ((fa - base) / PAGE_SIZE) = .ok frame ∧ PageAligned frame ∧
      translate (some l) fa base = .ok frame := by
  simp only [PAGE_SIZE] at hin ⊢
  have hidx : (fa - base) / 4096 < l.length := by omega
  have hdiff : toInt (sub32 fa base) = ((fa - base : Nat) : Int) := by
    have h1 : sub32 fa base = fa - base := by
      simp only [sub32]
      omega
    rw [h1]
    have h2 := toInt_small (x := fa - base) (by omega)
    rwa [show u32 (fa - base) = fa - base by simp only [u32]; omega] at h2
  have hfr := hl _ (List.getElem_mem hidx)
  refine ⟨l[(fa - base) / 4096], hidx, ?_, hfr, ?_⟩
  · simp [loadWord, List.getElem?_eq_getElem hidx]
  · simp only [translate, hdiff, PAGE_SIZE]
    rw [← Int.ofNat_tdiv, ← Int.ofNat_tmod, hal]
    have hnn : ¬ (((fa - base) / 4096 : Nat) : Int) < 0 := by omega
    rw [if_neg hnn]
    simp only [Int.toNat_ofNat, loadWord, List.getElem?_eq_getElem hidx]
    congr 1
    have := hfr.2
    omega

theorem tlbScan_spec (tlb : TLB) :
    ∀ (k i : Nat), i + k ≤ tlb.length →
      (∃ j, tlbScan tlb k i = .ok (some j) ∧ i ≤ j ∧ j < i + k ∧
        (∃ e, tlb[j]? = some e ∧ e.2 &&& TLBLO_VALID = 0) ∧
        ∀ m e, i ≤ m → m < j → tlb[m]? = some e → e.2 &&& TLBLO_VALID ≠ 0) ∨
      (tlbScan tlb k i = .ok none ∧
        ∀ m e, i ≤ m → m < i + k → tlb[m]? = some e → e.2 &&& TLBLO_VALID ≠ 0) := by
  intro k
  induction k with
  | zero =>
    intro i _
    exact Or.inr ⟨rfl, fun m e h1 h2 => by omega⟩
  | succ k ih =>
    intro i hi
    have hlt : i < tlb.length := by omega
    rw [tlbScan, List.getElem?_eq_getElem hlt]
    by_cases hv : tlb[i].2 &&& TLBLO_VALID ≠ 0
    · simp only []
      rw [if_pos hv]
      have hstep : ∀ m e, i ≤ m → m < i + 1 → tlb[m]? = some e → e.2 &&& TLBLO_VALID ≠ 0 := by
        intro m e h1 h2 hm
        have hmi : m = i := by omega
        subst hmi
        rw [List.getElem?_eq_getElem hlt] at hm
        cases hm
        exact hv
      rcases ih (i + 1) (by omega) with ⟨j, h1, h2, h3, h4, h5⟩ | ⟨h1, h2⟩
      · refine Or.inl ⟨j, h1, by omega, by omega, h4, ?_⟩
        intro m e hm1 hm2 hm
        by_cases hmi : m < i + 1
        · exact hstep m e hm1 hmi hm
        · exact h5 m e (by omega) hm2 hm
      · refine Or.inr ⟨h1, ?_⟩
        intro m e hm1 hm2 hm
        by_cases hmi : m < i + 1
        · exact hstep m e hm1 hmi hm
        · exact h2 m e (by omega) (by omega) hm
    · simp only []
      rw [if_neg hv]
      refine Or.inl ⟨i, rfl, le_refl _, by omega, ⟨tlb[i], List.getElem?_eq_getElem hlt, ?_⟩,
        fun m e h1 h2 => by omega⟩
      simpa using hv

theorem tlbInstall_spec (random : Nat) (tlb : TLB) (ehi elo : Nat)
    (htlb : tlb.length = NUM_TLB) :
    ∃ idx, idx < NUM_TLB ∧ tlbInstall random tlb ehi elo = .ok (tlb.set idx (ehi, elo)) ∧
      ((∃ e, tlb[idx]? = some e ∧ e.2 &&& TLBLO_VALID = 0) ∧
          (∀ m e, m < idx → tlb[m]? = some e → e.2 &&& TLBLO_VALID ≠ 0) ∨
        (∀ m e, m < NUM_TLB → tlb[m]? = some e → e.2 &&& TLBLO_VALID ≠ 0) ∧
          idx = random % NUM_TLB) := by
  unfold tlbInstall
  rcases tlbScan_spec tlb NUM_TLB 0 (by omega) with ⟨j, h1, _, h3, h4, h5⟩ | ⟨h1, h2⟩
  · rw [h1]
    exact ⟨j, by omega, rfl, Or.inl ⟨h4, fun m e hm => h5 m e (Nat.zero_le _) hm⟩⟩
  · rw [h1]
    exact ⟨random % NUM_TLB, Nat.mod_lt _ (by decide), rfl,
      Or.inr ⟨fun m e hm => h2 m e (Nat.zero_le _) (by omega), rfl⟩⟩

theorem page_base_bounds (va : Nat) (hva : va < 4294967296) :
    (va &&& PAGE_FRAME) % 4096 = 0 ∧ va &&& PAGE_FRAME < 4294967296 := by
  rw [and_PAGE_FRAME va hva]
  omega

theorem locate_text {as : addrspace} (hwf : WellFormed as) {p : Nat} (hp : p % 4096 = 0)
    (hin : InText as p) :
    ∃ frame, (p - as.as_vbase1) / PAGE_SIZE < as.as_npages1 ∧
      loadWord as.as_pbase1 ((p - as.as_vbase1) / PAGE_SIZE) = .ok frame ∧
      PageAligned frame ∧ locate as p = .ok (some (true, frame)) := by
  obtain ⟨l, e, k, a⟩ := hwf.text
  have t := hwf.text_top
  have al := hwf.vbase1_al
  obtain ⟨h1, h2⟩ := hin
  simp only [USERSTACK, MIPS_KSEG0, PAGE_SIZE] at t al h2
  obtain ⟨frame, hi, hload, hfr, htr⟩ := translate_ok l a p as.as_vbase1 (by omega) h1
    (by omega) (by rw [k]; simp only [PAGE_SIZE]; omega)
  refine ⟨frame, by rw [← k]; exact hi, by rw [e]; exact hload, hfr, ?_⟩
  have hcond : as.as_vbase1 ≤ p ∧ p < vtop1 as := by
    refine ⟨h1, ?_⟩
    simp only [vtop1, u32, PAGE_SIZE]
    omega
  unfold locate
  rw [if_pos hcond, e, htr]

theorem locate_data {as : addrspace} (hwf : WellFormed as) {p : Nat} (hp : p % 4096 = 0)
    (hin : InData as p) :
    ∃ frame, (p - as.as_vbase2) / PAGE_SIZE < as.as_npages2 ∧
      loadWord as.as_pbase2 ((p - as.as_vbase2) / PAGE_SIZE) = .ok frame ∧
      PageAligned frame ∧ locate as p = .ok (some (false, frame)) := by
  obtain ⟨l, e, k, a⟩ := hwf.data
  have t := hwf.data_top
  have t1 := hwf.text_top
  have al := hwf.vbase2_al
  have hap := hwf.apart
  obtain ⟨h1, h2⟩ := hin
  simp only [USERSTACK, MIPS_KSEG0, PAGE_SIZE] at t t1 al h2 hap
  obtain ⟨frame, hi, hload, hfr, htr⟩ := translate_ok l a p as.as_vbase2 (by omega) h1
    (by omega) (by rw [k]; simp only [PAGE_SIZE]; omega)
  refine ⟨frame, by rw [← k]; exact hi, by rw [e]; exact hload, hfr, ?_⟩
  have hnot : ¬ (as.as_vbase1 ≤ p ∧ p < vtop1 as) := by
    simp only [vtop1, u32, PAGE_SIZE]
    omega
  have hcond : as.as_vbase2 ≤ p ∧ p < vtop2 as := by
    refine ⟨h1, ?_⟩
    simp only [vtop2, u32, PAGE_SIZE]
    omega
  unfold locate
  rw [if_neg hnot, if_pos hcond, e, htr]

theorem locate_stack {as : addrspace} (hwf : WellFormed as) {p : Nat} (hp : p % 4096 = 0)
    (hin : InStack p) :
    ∃ frame, (p - (USERSTACK - 12 * PAGE_SIZE)) / PAGE_SIZE < 12 ∧
      loadWord as.as_stackpbase ((p - (USERSTACK - 12 * PAGE_SIZE)) / PAGE_SIZE) = .ok frame ∧
      PageAligned frame ∧ locate as p = .ok (some (false, frame)) := by
  obtain ⟨l, e, k, a⟩ := hwf.stack
  have t1 := hwf.text_top
  have t2 := hwf.data_top
  obtain ⟨h1, h2⟩ := hin
  have hsb : stackbase = 2147483648 - 12 * 4096 := by
    simp [stackbase, sub32, u32, USERSTACK, MIPS_KSEG0, DUMBVM_STACKPAGES, PAGE_SIZE]
  simp only [USERSTACK, MIPS_KSEG0, PAGE_SIZE, DUMBVM_STACKPAGES] at t1 t2 h1 h2 k
  obtain ⟨frame, hi, hload, hfr, htr⟩ := translate_ok l a p (2147483648 - 12 * 4096) (by omega) h1
    (by omega) (by rw [k]; simp only [PAGE_SIZE]; omega)
  simp only [USERSTACK, MIPS_KSEG0, PAGE_SIZE]
  refine ⟨frame, by simp only [PAGE_SIZE] at hi; omega, by rw [e]; exact hload, hfr, ?_⟩
  have hnot1 : ¬ (as.as_vbase1 ≤ p ∧ p < vtop1 as) := by
    simp only [vtop1, u32, PAGE_SIZE]
    omega
  have hnot2 : ¬ (as.as_vbase2 ≤ p ∧ p < vtop2 as) := by
    simp only [vtop2, u32, PAGE_SIZE]
    omega
  have hcond : stackbase ≤ p ∧ p < USERSTACK := by
    rw [hsb]
    simp only [USERSTACK, MIPS_KSEG0]
    omega
  unfold locate
  rw [if_neg hnot1, if_neg hnot2, if_pos hcond, e, hsb, htr]

theorem vm_fault_resolved (random : Nat) (tlb : TLB) (as : addrspace) (faulttype : Int)
    (va : Nat) (hwf : WellFormed as) (htlb : tlb.length = NUM_TLB)
    (hty : faulttype = VM_FAULT_READ ∨ faulttype = VM_FAULT_WRITE)
    {ro : Bool} {frame : Nat} (hfr : PageAligned frame)
    (hloc : locate as (va &&& PAGE_FRAME) = .ok (some (ro, frame))) :
    ∃ idx, idx < NUM_TLB ∧
      vm_fault random tlb (some (some as)) faulttype va
        = .ok (0, tlb.set idx (va &&& PAGE_FRAME, entryLo frame ro as.loadelf_done)) ∧
      ((∃ e, tlb[idx]? = some e ∧ e.2 &&& TLBLO_VALID = 0) ∧
          (∀ m e, m < idx → tlb[m]? = some e → e.2 &&& TLBLO_VALID ≠ 0) ∨
        (∀ m e, m < NUM_TLB → tlb[m]? = some e → e.2 &&& TLBLO_VALID ≠ 0) ∧
          idx = random % NUM_TLB) := by
  obtain ⟨idx, h1, h2, h3⟩ := tlbInstall_spec random tlb (va &&& PAGE_FRAME)
    (entryLo frame ro as.loadelf_done) htlb
  refine ⟨idx, h1, ?_, h3⟩
  have hne : faulttype ≠ VM_FAULT_READONLY := by
    rcases hty with h | h <;> rw [h] <;> decide
  unfold vm_fault
  rw [if_neg hne, if_pos hty]
  simp only [vmFaultAsserts_ok hwf, hloc, and_PAGE_FRAME_aligned hfr, ne_eq, not_true_eq_false,
    if_false, h2]

theorem wellFormed_loadedSpace : WellFormed loadedSpace :=
  { vbase1_ne := by decide, vbase2_ne := by decide, npages1_ne := by decide,
    npages2_ne := by decide, vbase1_al := by decide, vbase2_al := by decide,
    text := ⟨_, rfl, rfl, by decide⟩, data := ⟨_, rfl, rfl, by decide⟩,
    stack := ⟨_, rfl, rfl, by decide⟩, text_top := by decide, data_top := by decide,
    apart := by decide }

/-- C8: for a well-formed current address space, a full-size TLB and a READ or WRITE
fault at a 32-bit address `va` with page base `p = va & PAGE_FRAME`: if `p` lies in the
text region (resp. the data region, the stack region), `vm_fault` returns `0` and writes
one TLB slot with `ehi = p`, with the frame bits of `elo` equal to
`as_pbase1[(p - vbase1) / PAGE_SIZE]` (resp. `as_pbase2[...]`, `as_stackpbase[...]`) and
with `TLBLO_VALID` set; the index is below `as_npages1` (resp. `as_npages2`, 12). -/
theorem vm_fault_installs_frame (random : Nat) (tlb : TLB) (as : addrspace) (faulttype : Int)
    (va : Nat) (hwf : WellFormed as) (htlb : tlb.length = NUM_TLB)
    (hty : faulttype = VM_FAULT_READ ∨ faulttype = VM_FAULT_WRITE) (hva : va < 4294967296) :
    (InText as (va &&& PAGE_FRAME) →
      ((va &&& PAGE_FRAME) - as.as_vbase1) / PAGE_SIZE < as.as_npages1 ∧
      Installs random tlb as faulttype va as.as_pbase1
        (((va &&& PAGE_FRAME) - as.as_vbase1) / PAGE_SIZE)) ∧
    (InData as (va &&& PAGE_FRAME) →
      ((va &&& PAGE_FRAME) - as.as_vbase2) / PAGE_SIZE < as.as_npages2 ∧
      Installs random tlb as faulttype va as.as_pbase2
        (((va &&& PAGE_FRAME) - as.as_vbase2) / PAGE_SIZE)) ∧
    (InStack (va &&& PAGE_FRAME) →
      ((va &&& PAGE_FRAME) - (USERSTACK - 12 * PAGE_SIZE)) / PAGE_SIZE < 12 ∧
      Installs random tlb as faulttype va as.as_stackpbase
        (((va &&& PAGE_FRAME) - (USERSTACK - 12 * PAGE_SIZE)) / PAGE_SIZE)) := by
  have hp := (page_base_bounds va hva).1
  refine ⟨fun hin => ?_, fun hin => ?_, fun hin => ?_⟩
  · obtain ⟨frame, hi, hload, hfr, hloc⟩ := locate_text hwf hp hin
    obtain ⟨idx, h1, h2, _⟩ := vm_fault_resolved random tlb as faulttype va hwf htlb hty hfr hloc
    obtain ⟨b1, b2, _, _⟩ := entryLo_bits hfr true as.loadelf_done
    exact ⟨hi, idx, _, frame, h2, h1, hload, b1, b2⟩
  · obtain ⟨frame, hi, hload, hfr, hloc⟩ := locate_data hwf hp hin
    obtain ⟨idx, h1, h2, _⟩ := vm_fault_resolved random tlb as faulttype va hwf htlb hty hfr hloc
    obtain ⟨b1, b2, _, _⟩ := entryLo_bits hfr false as.loadelf_done
    exact ⟨hi, idx, _, frame, h2, h1, hload, b1, b2⟩
  · obtain ⟨frame, hi, hload, hfr, hloc⟩ := locate_stack hwf hp hin
    obtain ⟨idx, h1, h2, _⟩ := vm_fault_resolved random tlb as faulttype va hwf htlb hty hfr hloc
    obtain ⟨b1, b2, _, _⟩ := entryLo_bits hfr false as.loadelf_done
    exact ⟨hi, idx, _, frame, h2, h1, hload, b1, b2⟩

/-- Witness for C8: a READ fault at `0x401234` in `loadedSpace` is resolved through
`as_pbase1[1]`. -/
theorem vm_fault_installs_frame_witness :
    ((0x401234 &&& PAGE_FRAME) - loadedSpace.as_vbase1) / PAGE_SIZE < loadedSpace.as_npages1 ∧
    Installs 0 emptyTLB loadedSpace VM_FAULT_READ 0x401234 loadedSpace.as_pbase1
      (((0x401234 &&& PAGE_FRAME) - loadedSpace.as_vbase1) / PAGE_SIZE) :=
  (vm_fault_installs_frame 0 emptyTLB loadedSpace VM_FAULT_READ 0x401234 wellFormed_loadedSpace
    (by decide) (Or.inl rfl) (by decide)).1 (by decide)

theorem locate_none {as : addrspace} (hwf : WellFormed as) {p : Nat}
    (h1 : ¬ InText as p) (h2 : ¬ InData as p) (h3 : ¬ InStack p) :
    locate as p = .ok none := by
  have t1 := hwf.text_top
  have t2 := hwf.data_top
  have hsb : stackbase = 2147483648 - 12 * 4096 := by
    simp [stackbase, sub32, u32, USERSTACK, MIPS_KSEG0, DUMBVM_STACKPAGES, PAGE_SIZE]
  simp only [InText, InData, InStack, USERSTACK, MIPS_KSEG0, PAGE_SIZE] at t1 t2 h1 h2 h3
  have hnot1 : ¬ (as.as_vbase1 ≤ p ∧ p < vtop1 as) := by
    simp only [vtop1, u32, PAGE_SIZE]
    omega
  have hnot2 : ¬ (as.as_vbase2 ≤ p ∧ p < vtop2 as) := by
    simp only [vtop2, u32, PAGE_SIZE]
    omega
  have hnot3 : ¬ (stackbase ≤ p ∧ p < USERSTACK) := by
    rw [hsb]
    simp only [USERSTACK, MIPS_KSEG0]
    omega
  unfold locate
  rw [if_neg hnot1, if_neg hnot2, if_neg hnot3]

theorem vm_fault_unmapped (random : Nat) (tlb : TLB) (as : addrspace) (faulttype : Int)
    (va : Nat) (hwf : WellFormed as)
    (hty : faulttype = VM_FAULT_READ ∨ faulttype = VM_FAULT_WRITE)
    (h1 : ¬ InText as (va &&& PAGE_FRAME)) (h2 : ¬ InData as (va &&& PAGE_FRAME))
    (h3 : ¬ InStack (va &&& PAGE_FRAME)) :
    vm_fault random tlb (some (some as)) faulttype va = .ok (EFAULT, tlb) := by
  have hne : faulttype ≠ VM_FAULT_READONLY := by
    rcases hty with h | h <;> rw [h] <;> decide
  unfold vm_fault
  rw [if_neg hne, if_pos hty]
  simp only [vmFaultAsserts_ok hwf, locate_none hwf h1 h2 h3]

theorem vm_fault_success_kind (random : Nat) (tlb tlb' : TLB)
    (curproc : Option (Option addrspace)) (faulttype : Int) (va : Nat)
    (hok : vm_fault random tlb curproc faulttype va = .ok (0, tlb')) :
    faulttype = VM_FAULT_READ ∨ faulttype = VM_FAULT_WRITE := by
  by_contra hty
  unfold vm_fault at hok
  by_cases hro : faulttype = VM_FAULT_READONLY
  · rw [if_pos hro] at hok
    simp [EINVAL] at hok
  · rw [if_neg hro, if_neg hty] at hok
    simp [EINVAL] at hok

/-- C9: for a well-formed current address space, a full-size TLB and a fault at a 32-bit
address `va`, every `vm_fault` that returns `0` is a READ or WRITE fault on a page of one
of the three regions and has written one slot, either the first invalid one or, when all
are valid, the one picked by `tlb_random`; in both cases the `TLBLO_DIRTY` bit of the
installed `elo` is clear if and only if the page lies in the text region and
`loadelf_done` is true, and it is set otherwise. -/
theorem vm_fault_dirty_bit (random : Nat) (tlb tlb' : TLB) (as : addrspace) (faulttype : Int)
    (va : Nat) (hwf : WellFormed as) (htlb : tlb.length = NUM_TLB) (hva : va < 4294967296)
    (hok : vm_fault random tlb (some (some as)) faulttype va = .ok (0, tlb')) :
    (faulttype = VM_FAULT_READ ∨ faulttype = VM_FAULT_WRITE) ∧
    (InText as (va &&& PAGE_FRAME) ∨ InData as (va &&& PAGE_FRAME) ∨
      InStack (va &&& PAGE_FRAME)) ∧
    ∃ idx elo, tlb' = tlb.set idx (va &&& PAGE_FRAME, elo) ∧ idx < NUM_TLB ∧
      ((∃ e, tlb[idx]? = some e ∧ e.2 &&& TLBLO_VALID = 0) ∨
        (∀ m e, m < NUM_TLB → tlb[m]? = some e → e.2 &&& TLBLO_VALID ≠ 0) ∧
          idx = random % NUM_TLB) ∧
      (elo &&& TLBLO_DIRTY = 0 ↔ (InText as (va &&& PAGE_FRAME) ∧ as.loadelf_done = true)) ∧
      (elo &&& TLBLO_DIRTY = 0 ∨ elo &&& TLBLO_DIRTY = TLBLO_DIRTY) := by
  have hty := vm_fault_success_kind random tlb tlb' _ faulttype va hok
  have hp := (page_base_bounds va hva).1
  have core : ∀ (ro : Bool) (frame : Nat), PageAligned frame →
      locate as (va &&& PAGE_FRAME) = .ok (some (ro, frame)) →
      (ro = true ↔ InText as (va &&& PAGE_FRAME)) →
      ∃ idx elo, tlb' = tlb.set idx (va &&& PAGE_FRAME, elo) ∧ idx < NUM_TLB ∧
        ((∃ e, tlb[idx]? = some e ∧ e.2 &&& TLBLO_VALID = 0) ∨
          (∀ m e, m < NUM_TLB → tlb[m]? = some e → e.2 &&& TLBLO_VALID ≠ 0) ∧
            idx = random % NUM_TLB) ∧
        (elo &&& TLBLO_DIRTY = 0 ↔ (InText as (va &&& PAGE_FRAME) ∧ as.loadelf_done = true)) ∧
        (elo &&& TLBLO_DIRTY = 0 ∨ elo &&& TLBLO_DIRTY = TLBLO_DIRTY) := by
    intro ro frame hfr hloc hro
    obtain ⟨idx, h1, h2, h3⟩ := vm_fault_resolved random tlb as faulttype va hwf htlb hty hfr hloc
    obtain ⟨_, _, b3, b4⟩ := entryLo_bits hfr ro as.loadelf_done
    rw [h2] at hok
    simp only [Except.ok.injEq, Prod.mk.injEq, true_and] at hok
    refine ⟨idx, _, hok.symm, h1, ?_, ?_, b4⟩
    · rcases h3 with ⟨h, _⟩ | h
      · exact Or.inl h
      · exact Or.inr h
    · rw [b3, hro]
  have t1 := hwf.text_top
  have hap := hwf.apart
  refine ⟨hty, ?_⟩
  by_cases hT : InText as (va &&& PAGE_FRAME)
  · obtain ⟨frame, _, _, hfr, hloc⟩ := locate_text hwf hp hT
    exact ⟨Or.inl hT, core true frame hfr hloc ⟨fun _ => hT, fun _ => rfl⟩⟩
  · by_cases hD : InData as (va &&& PAGE_FRAME)
    · obtain ⟨frame, _, _, hfr, hloc⟩ := locate_data hwf hp hD
      exact ⟨Or.inr (Or.inl hD),
        core false frame hfr hloc ⟨(fun h => by cases h), fun h => absurd h hT⟩⟩
    · by_cases hS : InStack (va &&& PAGE_FRAME)
      · obtain ⟨frame, _, _, hfr, hloc⟩ := locate_stack hwf hp hS
        exact ⟨Or.inr (Or.inr hS),
          core false frame hfr hloc ⟨(fun h => by cases h), fun h => absurd h hT⟩⟩
      · rw [vm_fault_unmapped random tlb as faulttype va hwf hty hT hD hS] at hok
        simp [EFAULT] at hok

/-- Witness for C9: a WRITE fault on the data page of `loadedSpace` with an empty TLB
fills slot 0 with a writable entry. -/
theorem vm_fault_dirty_bit_witness :
    (VM_FAULT_WRITE = VM_FAULT_READ ∨ VM_FAULT_WRITE = VM_FAULT_WRITE) ∧
    (InText loadedSpace (0x10000010 &&& PAGE_FRAME) ∨
      InData loadedSpace (0x10000010 &&& PAGE_FRAME) ∨ InStack (0x10000010 &&& PAGE_FRAME)) ∧
    ∃ idx elo, emptyTLB.set 0 (0x10000000, 0x3600)
        = emptyTLB.set idx (0x10000010 &&& PAGE_FRAME, elo) ∧ idx < NUM_TLB ∧
      ((∃ e, emptyTLB[idx]? = some e ∧ e.2 &&& TLBLO_VALID = 0) ∨
        (∀ m e, m < NUM_TLB → emptyTLB[m]? = some e → e.2 &&& TLBLO_VALID ≠ 0) ∧
          idx = 0 % NUM_TLB) ∧
      (elo &&& TLBLO_DIRTY = 0 ↔
        (InText loadedSpace (0x10000010 &&& PAGE_FRAME) ∧ loadedSpace.loadelf_done = true)) ∧
      (elo &&& TLBLO_DIRTY = 0 ∨ elo &&& TLBLO_DIRTY = TLBLO_DIRTY) :=
  vm_fault_dirty_bit 0 emptyTLB (emptyTLB.set 0 (0x10000000, 0x3600)) loadedSpace
    VM_FAULT_WRITE 0x10000010 wellFormed_loadedSpace (by decide) (by decide) (by rfl)

/-! ## Claims about `as_complete_load` -/

/-- C10 (as amended): `as_complete_load` returns `0` and leaves the address space as it
was; in particular `loadelf_done` keeps the value it had. -/
theorem as_complete_load_unchanged (as : addrspace) :
    as_complete_load as = (0, as) ∧
      (as_complete_load as).2.loadelf_done = as.loadelf_done :=
  ⟨rfl, rfl⟩

/-- C10 (as stated) fails: after `as_complete_load` on an address space whose
`loadelf_done` is false, the flag is still false. -/
theorem as_complete_load_counterexample :
    definedSpace.loadelf_done = false ∧
      ¬ ((as_complete_load definedSpace).2.loadelf_done = true) :=
  ⟨rfl, by decide⟩

/-! ## Claims about the failure codes of `vm_fault` -/

/-- C11 (as amended): for every fault address, `vm_fault` with kind `READONLY` returns
`EINVAL` and leaves the TLB unchanged; this is the same code it returns, also with the
TLB unchanged, for every kind that is none of `READ`, `WRITE`, `READONLY`. -/
theorem vm_fault_readonly_code (random : Nat) (tlb : TLB) (curproc : Option (Option addrspace))
    (va : Nat) :
    vm_fault random tlb curproc VM_FAULT_READONLY va = .ok (EINVAL, tlb) ∧
    ∀ kind : Int, kind ≠ VM_FAULT_READ → kind ≠ VM_FAULT_WRITE →
      vm_fault random tlb curproc kind va = .ok (EINVAL, tlb) := by
  refine ⟨by simp [vm_fault], ?_⟩
  intro kind h1 h2
  unfold vm_fault
  by_cases hro : kind = VM_FAULT_READONLY
  · rw [if_pos hro]
  · rw [if_neg hro, if_neg (by simp [h1, h2])]

/-- Witness for C11: the unknown kind `7`. -/
theorem vm_fault_readonly_code_witness :
    vm_fault 0 emptyTLB none 7 0x401234 = .ok (EINVAL, emptyTLB) :=
  (vm_fault_readonly_code 0 emptyTLB none 0x401234).2 7 (by decide) (by decide)

/-- C11 (as stated) fails: the code returned for `READONLY` is not different from the code
returned for an unknown kind; both calls return `EINVAL`. -/
theorem vm_fault_readonly_counterexample :
    vm_fault 0 emptyTLB (some (some loadedSpace)) VM_FAULT_READONLY 0x401234
      = .ok (EINVAL, emptyTLB) ∧
    vm_fault 0 emptyTLB (some (some loadedSpace)) 7 0x401234 = .ok (EINVAL, emptyTLB) ∧
    ¬ ((returned (vm_fault 0 emptyTLB (some (some loadedSpace)) VM_FAULT_READONLY 0x401234)).1
      ≠ (returned (vm_fault 0 emptyTLB (some (some loadedSpace)) 7 0x401234)).1) :=
  ⟨by rfl, by rfl, by decide⟩

/-- C12: for a well-formed current address space and a READ or WRITE fault whose page base
lies in none of the text region, the data region and the stack region, `vm_fault` returns
`EFAULT` and the TLB is as before. -/
theorem vm_fault_bad_address (random : Nat) (tlb : TLB) (as : addrspace) (faulttype : Int)
    (va : Nat) (hwf : WellFormed as)
    (hty : faulttype = VM_FAULT_READ ∨ faulttype = VM_FAULT_WRITE)
    (h1 : ¬ InText as (va &&& PAGE_FRAME)) (h2 : ¬ InData as (va &&& PAGE_FRAME))
    (h3 : ¬ InStack (va &&& PAGE_FRAME)) :
    vm_fault random tlb (some (some as)) faulttype va = .ok (EFAULT, tlb) :=
  vm_fault_unmapped random tlb as faulttype va hwf hty h1 h2 h3

/-- Witness for C12: a READ fault at `0x20000000`, outside the regions of `loadedSpace`. -/
theorem vm_fault_bad_address_witness :
    vm_fault 0 emptyTLB (some (some loadedSpace)) VM_FAULT_READ 0x20000000
      = .ok (EFAULT, emptyTLB) :=
  vm_fault_bad_address 0 emptyTLB loadedSpace VM_FAULT_READ 0x20000000 wellFormed_loadedSpace
    (Or.inl rfl) (by decide) (by decide) (by decide)

/-! ## Claims about `as_define_region` -/

theorem regionBase_aligned (vaddr : Nat) (hv : vaddr < 4294967296) :
    regionBase vaddr &&& (PAGE_SIZE - 1) = 0 := by
  have h := Nat.and_pow_two_sub_one_eq_mod (4096 * (vaddr / 4096)) 12
  norm_num at h
  rw [regionBase, and_PAGE_FRAME vaddr hv]
  simp only [PAGE_SIZE]
  norm_num
  exact h

theorem regionPages_le (vaddr sz : Nat) : regionPages vaddr sz ≤ 1048575 := by
  have hlt : u32 (u32 (sz + (vaddr &&& (4294967295 - PAGE_FRAME))) + PAGE_SIZE - 1) < 4294967296 := by
    simp only [u32]
    omega
  rw [regionPages, and_PAGE_FRAME _ hlt]
  simp only [PAGE_SIZE] at hlt ⊢
  omega

theorem regionPages_cover (vaddr sz : Nat)
    (hw : sz + vaddr % PAGE_SIZE + PAGE_SIZE - 1 < 4294967296) :
    sz ≤ u32 (regionPages vaddr sz * PAGE_SIZE) := by
  have hoff : vaddr &&& (4294967295 - PAGE_FRAME) = vaddr % 4096 := by
    have h := Nat.and_pow_two_sub_one_eq_mod vaddr 12
    norm_num at h
    simpa [PAGE_FRAME] using h
  have hlt : u32 (u32 (sz + (vaddr &&& (4294967295 - PAGE_FRAME))) + PAGE_SIZE - 1) < 4294967296 := by
    simp only [u32]
    omega
  rw [regionPages, and_PAGE_FRAME _ hlt, hoff]
  simp only [u32, PAGE_SIZE] at hw ⊢
  omega

theorem take_set_self (l : List Nat) (i v : Nat) :
    List.take i (l.set i v) = List.take i l := by
  apply List.ext_getElem?
  intro n
  by_cases h : n < i
  · rw [List.getElem?_take_of_lt h, List.getElem?_take_of_lt h,
      List.getElem?_set_ne (by omega)]
  · rw [List.getElem?_take_eq_none (by omega), List.getElem?_take_eq_none (by omega)]

theorem zeroFillLoop_content :
    ∀ (k i : Nat) (l : List Nat), i + k = l.length →
      zeroFillLoop k i (some l) = .ok (some (l.take i ++ List.replicate k 0)) := by
  intro k
  induction k with
  | zero =>
    intro i l h
    simp only [zeroFillLoop, List.replicate_zero, List.append_nil]
    rw [List.take_of_length_le (by omega)]
  | succ k ih =>
    intro i l h
    have hi : i < l.length := by omega
    rw [zeroFillLoop]
    simp only [storeWord, hi, if_true]
    rw [ih (i + 1) (l.set i 0) (by simp only [List.length_set]; omega)]
    congr 2
    rw [List.replicate_succ, List.take_succ]
    simp [List.getElem?_set_self hi, take_set_self]

theorem zeroFill_fresh (env : Env) (n : Nat) (hn : n ≤ 1048575)
    (hk : env.kmalloc_null (u32 (4 * n)) = false) :
    zeroFillLoop n 0 (kmalloc_array env (u32 (4 * n))) = .ok (some (List.replicate n 0)) := by
  have hlen : u32 (4 * n) / 4 = n := by
    simp only [u32]
    omega
  rw [kmalloc_array, hk]
  simp only [Bool.false_eq_true, if_false]
  rw [zeroFillLoop_content n 0 _ (by simp [hlen])]
  simp

theorem as_define_region_first (env : Env) (as : addrspace) (vaddr sz : Nat)
    (h1 : as.as_vbase1 = 0) (code : Nat) (as' : addrspace)
    (h : as_define_region env as vaddr sz = .ok (code, as')) :
    code = 0 ∧ as'.as_vbase1 = regionBase vaddr ∧ as'.as_npages1 = regionPages vaddr sz := by
  unfold as_define_region at h
  rw [if_pos h1] at h
  split at h
  · cases h
  · simp only [Except.ok.injEq, Prod.mk.injEq] at h
    obtain ⟨rfl, rfl⟩ := h
    exact ⟨rfl, rfl, rfl⟩

theorem as_define_region_second (env : Env) (as : addrspace) (vaddr sz : Nat)
    (h1 : as.as_vbase1 ≠ 0) (as' : addrspace)
    (h : as_define_region env as vaddr sz = .ok (0, as')) :
    as'.as_vbase2 = regionBase vaddr ∧ as'.as_npages2 = regionPages vaddr sz := by
  unfold as_define_region at h
  rw [if_neg h1] at h
  split at h
  · split at h
    · cases h
    · simp only [Except.ok.injEq, Prod.mk.injEq] at h
      obtain ⟨-, rfl⟩ := h
      exact ⟨rfl, rfl⟩
  · simp only [Except.ok.injEq, Prod.mk.injEq, EUNIMP] at h
    omega

/-- C13 (as amended): for a 32-bit `vaddr` and any `sz`, after a call of `as_define_region` that
returns 0, the base recorded for the region the call defined (region 1 when `as_vbase1`
was 0 before the call, region 2 otherwise) has its low twelve bits clear, and when
`sz + vaddr % PAGE_SIZE + PAGE_SIZE - 1` is below `2^32` the recorded page count times
`PAGE_SIZE`, in 32-bit arithmetic, is at least `sz`. -/
theorem as_define_region_rounding (env : Env) (as as' : addrspace) (vaddr sz : Nat)
    (hv : vaddr < 4294967296)
    (h : as_define_region env as vaddr sz = .ok (0, as')) :
    (as.as_vbase1 = 0 →
      as'.as_vbase1 &&& (PAGE_SIZE - 1) = 0 ∧
      (sz + vaddr % PAGE_SIZE + PAGE_SIZE - 1 < 4294967296 →
        sz ≤ u32 (as'.as_npages1 * PAGE_SIZE))) ∧
    (as.as_vbase1 ≠ 0 →
      as'.as_vbase2 &&& (PAGE_SIZE - 1) = 0 ∧
      (sz + vaddr % PAGE_SIZE + PAGE_SIZE - 1 < 4294967296 →
        sz ≤ u32 (as'.as_npages2 * PAGE_SIZE))) := by
  constructor
  · intro h1
    obtain ⟨-, hb, hn⟩ := as_define_region_first env as vaddr sz h1 0 as' h
    rw [hb, hn]
    exact ⟨regionBase_aligned vaddr hv, regionPages_cover vaddr sz⟩
  · intro h1
    obtain ⟨hb, hn⟩ := as_define_region_second env as vaddr sz h1 as' h
    rw [hb, hn]
    exact ⟨regionBase_aligned vaddr hv, regionPages_cover vaddr sz⟩

/-- Witness for C13: a two-page request at `0x400123` on a fresh address space records
base `0x400000` and three pages. -/
theorem as_define_region_rounding_witness :
    (freshSpace.as_vbase1 = 0 →
      (returned (as_define_region quietEnv freshSpace 0x400123 0x2000)).2.as_vbase1
          &&& (PAGE_SIZE - 1) = 0 ∧
      (0x2000 + 0x400123 % PAGE_SIZE + PAGE_SIZE - 1 < 4294967296 →
        0x2000 ≤ u32 ((returned (as_define_region quietEnv freshSpace 0x400123 0x2000)).2.as_npages1
          * PAGE_SIZE))) ∧
    (freshSpace.as_vbase1 ≠ 0 →
      (returned (as_define_region quietEnv freshSpace 0x400123 0x2000)).2.as_vbase2
          &&& (PAGE_SIZE - 1) = 0 ∧
      (0x2000 + 0x400123 % PAGE_SIZE + PAGE_SIZE - 1 < 4294967296 →
        0x2000 ≤ u32 ((returned (as_define_region quietEnv freshSpace 0x400123 0x2000)).2.as_npages2
          * PAGE_SIZE))) :=
  as_define_region_rounding quietEnv freshSpace
    (returned (as_define_region quietEnv freshSpace 0x400123 0x2000)).2 0x400123 0x2000
    (by decide) (by rfl)

/-- C13 (as stated) fails: with `vaddr = 0x400000` and `sz = 0xFFFFFFFF` the call returns 0
and records zero pages for region 1, so `npages * PAGE_SIZE` is below `sz`. -/
theorem as_define_region_rounding_counterexample :
    (returned (as_define_region quietEnv freshSpace 0x400000 0xFFFFFFFF)).1 = 0 ∧
    (returned (as_define_region quietEnv freshSpace 0x400000 0xFFFFFFFF)).2.as_npages1 = 0 ∧
    ¬ (0xFFFFFFFF ≤
      u32 ((returned (as_define_region quietEnv freshSpace 0x400000 0xFFFFFFFF)).2.as_npages1
        * PAGE_SIZE)) :=
  ⟨by rfl, by rfl, by decide⟩

theorem as_define_region_fresh (env : Env) (as : addrspace) (vaddr sz : Nat)
    (h1 : as.as_vbase1 = 0)
    (hk : env.kmalloc_null (u32 (4 * regionPages vaddr sz)) = false) :
    as_define_region env as vaddr sz =
      .ok (0, { as with as_vbase1 := regionBase vaddr, as_npages1 := regionPages vaddr sz,
                        as_pbase1 := some (List.replicate (regionPages vaddr sz) 0) }) := by
  unfold as_define_region
  rw [if_pos h1, zeroFill_fresh env _ (regionPages_le vaddr sz) hk]

theorem as_define_region_next (env : Env) (as : addrspace) (vaddr sz : Nat)
    (h1 : as.as_vbase1 ≠ 0) (h2 : as.as_vbase2 = 0)
    (hk : env.kmalloc_null (u32 (4 * regionPages vaddr sz)) = false) :
    as_define_region env as vaddr sz =
      .ok (0, { as with as_vbase2 := regionBase vaddr, as_npages2 := regionPages vaddr sz,
                        as_pbase2 := some (List.replicate (regionPages vaddr sz) 0) }) := by
  unfold as_define_region
  rw [if_neg h1, if_pos h2, zeroFill_fresh env _ (regionPages_le vaddr sz) hk]

theorem as_define_region_full (env : Env) (as : addrspace) (vaddr sz : Nat)
    (h1 : as.as_vbase1 ≠ 0) (h2 : as.as_vbase2 ≠ 0) :
    as_define_region env as vaddr sz = .ok (EUNIMP, as) := by
  unfold as_define_region
  rw [if_neg h1, if_neg h2]

/-- C14 (as amended): on the address space returned by `as_create`, when the page bases of
the first two requests are not 0 and `kmalloc` serves the two page tables, the first
`as_define_region` returns 0 and fills region 1 with a page table of zero entries, the
second returns 0 and fills region 2 likewise while region 1 stays as the first call left
it, and the third returns `EUNIMP` with the address space as the second call left it. -/
theorem as_define_region_sequence (env : Env) (as0 : addrspace)
    (v1 s1 v2 s2 v3 s3 : Nat) (hc : as_create env = some as0)
    (hb1 : regionBase v1 ≠ 0) (hb2 : regionBase v2 ≠ 0)
    (hk1 : env.kmalloc_null (u32 (4 * regionPages v1 s1)) = false)
    (hk2 : env.kmalloc_null (u32 (4 * regionPages v2 s2)) = false) :
    ∃ a1 a2 : addrspace,
      as_define_region env as0 v1 s1 = .ok (0, a1) ∧
      a1.as_vbase1 = regionBase v1 ∧ a1.as_npages1 = regionPages v1 s1 ∧
      a1.as_pbase1 = some (List.replicate (regionPages v1 s1) 0) ∧
      a1.as_vbase2 = 0 ∧ a1.as_npages2 = 0 ∧ a1.as_pbase2 = none ∧
      as_define_region env a1 v2 s2 = .ok (0, a2) ∧
      a2.as_vbase2 = regionBase v2 ∧ a2.as_npages2 = regionPages v2 s2 ∧
      a2.as_pbase2 = some (List.replicate (regionPages v2 s2) 0) ∧
      a2.as_vbase1 = a1.as_vbase1 ∧ a2.as_npages1 = a1.as_npages1 ∧
      a2.as_pbase1 = a1.as_pbase1 ∧
      as_define_region env a2 v3 s3 = .ok (EUNIMP, a2) := by
  have h0 : as0.as_vbase1 = 0 ∧ as0.as_vbase2 = 0 ∧ as0.as_npages2 = 0 ∧
      as0.as_pbase2 = none := by
    unfold as_create at hc
    split at hc
    · cases hc
    · simp only [Option.some.injEq] at hc
      subst hc
      exact ⟨rfl, rfl, rfl, rfl⟩
  obtain ⟨z1, z2, z3, z4⟩ := h0
  refine ⟨_, _, as_define_region_fresh env as0 v1 s1 z1 hk1, rfl, rfl, rfl, z2, z3, z4,
    as_define_region_next env _ v2 s2 hb1 z2 hk2, rfl, rfl, rfl, rfl, rfl, rfl,
    as_define_region_full env _ v3 s3 hb1 hb2⟩

/-- Witness for C14: text at `0x400000`, data at `0x10000000`, a third request at
`0x20000000`, on the address space created under `quietEnv`. -/
theorem as_define_region_sequence_witness :
    ∃ a1 a2 : addrspace,
      as_define_region quietEnv freshSpace 0x400000 0x2000 = .ok (0, a1) ∧
      a1.as_vbase1 = regionBase 0x400000 ∧ a1.as_npages1 = regionPages 0x400000 0x2000 ∧
      a1.as_pbase1 = some (List.replicate (regionPages 0x400000 0x2000) 0) ∧
      a1.as_vbase2 = 0 ∧ a1.as_npages2 = 0 ∧ a1.as_pbase2 = none ∧
      as_define_region quietEnv a1 0x10000000 0x1000 = .ok (0, a2) ∧
      a2.as_vbase2 = regionBase 0x10000000 ∧
      a2.as_npages2 = regionPages 0x10000000 0x1000 ∧
      a2.as_pbase2 = some (List.replicate (regionPages 0x10000000 0x1000) 0) ∧
      a2.as_vbase1 = a1.as_vbase1 ∧ a2.as_npages1 = a1.as_npages1 ∧
      a2.as_pbase1 = a1.as_pbase1 ∧
      as_define_region quietEnv a2 0x20000000 0x1000 = .ok (EUNIMP, a2) :=
  as_define_region_sequence quietEnv freshSpace 0x400000 0x2000 0x10000000 0x1000
    0x20000000 0x1000 (by rfl) (by decide) (by decide) (by rfl) (by rfl)

/-- C14 (as stated) fails: after a first request at `0x123` (page base 0) the second
request, at `0x400000`, returns 0 but is recorded in region 1, replacing what the first
call stored there, and region 2 stays empty. -/
theorem as_define_region_sequence_counterexample :
    as_create quietEnv = some freshSpace ∧
    (returned (as_define_region quietEnv freshSpace 0x123 0x2000)).1 = 0 ∧
    (returned (as_define_region quietEnv freshSpace 0x123 0x2000)).2.as_npages1 = 3 ∧
    (returned (as_define_region quietEnv
      (returned (as_define_region quietEnv freshSpace 0x123 0x2000)).2 0x400000 0x1000)).1 = 0 ∧
    (returned (as_define_region quietEnv
      (returned (as_define_region quietEnv freshSpace 0x123 0x2000)).2 0x400000 0x1000)).2.as_npages1
        = 1 ∧
    (returned (as_define_region quietEnv
      (returned (as_define_region quietEnv freshSpace 0x123 0x2000)).2 0x400000 0x1000)).2.as_vbase2
        = 0 ∧
    (returned (as_define_region quietEnv
      (returned (as_define_region quietEnv freshSpace 0x123 0x2000)).2 0x400000 0x1000)).2.as_pbase2
        = none :=
  ⟨by rfl, by rfl, by rfl, by rfl, by rfl, by rfl, by rfl⟩

/-! ## Claim about `vm_bootstrap` -/

theorem vm_bootstrap_slots (lo hi : Nat) :
    (vm_bootstrap lo hi).slots = List.replicate (sub32 hi lo / (PAGE_SIZE + 4)) 0 := rfl

/-- C20 fails on the code: with `lo = 0x30000` and `hi = 0x432000`,
`vm_bootstrap` zeroes a table of 1024 slots in the 4096 bytes between `lo` and
`frame_start = 0x31000`, yet sets `number_of_pages` to
`n = (frame_end - frame_start) / PAGE_SIZE = 1025`: `4 * n` exceeds `frame_start - lo`,
`n` exceeds `(hi - lo) / (PAGE_SIZE + 4)`, and slot 1024 is not in the zeroed table. -/
theorem vm_bootstrap_table_short :
    (vm_bootstrap 0x30000 0x432000).frame_start = 0x31000 ∧
    (vm_bootstrap 0x30000 0x432000).frame_end = 0x432000 ∧
    ((vm_bootstrap 0x30000 0x432000).frame_end - (vm_bootstrap 0x30000 0x432000).frame_start)
      / PAGE_SIZE = 1025 ∧
    (vm_bootstrap 0x30000 0x432000).number_of_pages = 1025 ∧
    (vm_bootstrap 0x30000 0x432000).slots.length = 1024 ∧
    ¬ (4 * 1025 ≤ (vm_bootstrap 0x30000 0x432000).frame_start - 0x30000) ∧
    ¬ (1025 ≤ (0x432000 - 0x30000) / (PAGE_SIZE + 4)) ∧
    (vm_bootstrap 0x30000 0x432000).slots[1024]? = none := by
  have hs : (vm_bootstrap 0x30000 0x432000).slots = List.replicate 1024 0 := by
    have hn : sub32 0x432000 0x30000 / (PAGE_SIZE + 4) = 1024 := by rfl
    rw [vm_bootstrap_slots, hn]
  refine ⟨by rfl, by rfl, by rfl, by rfl, ?_, by decide, by decide, ?_⟩
  · rw [hs, List.length_replicate]
  · rw [hs]
    exact List.getElem?_eq_none (by rw [List.length_replicate])

/-! ## Claims about `sys_waitpid` -/

theorem waitScan_skip (procs : List (Option proc)) (pid : Int) (rest : List Nat) :
    ∀ cs : List Nat, (∀ q ∈ cs, ∃ r, deref procs q = .ok r ∧ r.pid ≠ pid) →
      waitScan procs pid (cs ++ rest) = waitScan procs pid rest := by
  intro cs
  induction cs with
  | nil => intro _; rfl
  | cons q cs ih =>
    intro h
    obtain ⟨r, hr, hne⟩ := h q (List.mem_cons_self _ _)
    rw [List.cons_append, waitScan, hr]
    simp only [hne, if_false]
    exact ih (fun q' hq' => h q' (List.mem_cons_of_mem _ hq'))

/-- C15: `sys_waitpid` returns `EINVAL` when `options` is not 0; otherwise `ESRCH` when
`pid` is negative; otherwise, when every child pointer of the current process refers to
a record whose PID differs from `pid`, it returns `ECHILD` and stores -1 in `*retval`.
In each of the three cases it makes no call of `copyout`. -/
theorem sys_waitpid_failures (copyout_result : Nat) (k : Kernel) (curproc : Nat) (pid : Int)
    (status : Nat) (options : Int) :
    (options ≠ 0 →
      sys_waitpid copyout_result k curproc pid status options
        = .ok { result := EINVAL, retval := none, copyouts := [] }) ∧
    (options = 0 → pid < 0 →
      sys_waitpid copyout_result k curproc pid status options
        = .ok { result := ESRCH, retval := some (-1), copyouts := [] }) ∧
    (options = 0 → ¬ pid < 0 → ∀ p, deref k.procs curproc = .ok p →
      (∀ q ∈ p.children, ∃ r, deref k.procs q = .ok r ∧ r.pid ≠ pid) →
      sys_waitpid copyout_result k curproc pid status options
        = .ok { result := ECHILD, retval := some (-1), copyouts := [] }) := by
  refine ⟨?_, ?_, ?_⟩
  · intro ho
    unfold sys_waitpid
    rw [if_pos ho]
  · intro ho hp
    unfold sys_waitpid
    rw [if_neg (by simpa using ho), if_pos hp]
  · intro ho hp p hd hall
    have hscan : waitScan k.procs pid p.children = .ok none := by
      have := waitScan_skip k.procs pid [] p.children hall
      rw [List.append_nil] at this
      rw [this]
      rfl
    unfold sys_waitpid
    rw [if_neg (by simpa using ho), if_neg hp, hd]
    simp only []
    rw [hscan]

/-- Witness for C15: on `familyKernel` the parent waits with a non-zero option, for a
negative PID, and for PID 9, which none of its children has. -/
theorem sys_waitpid_failures_witness :
    sys_waitpid 0 familyKernel 0 3 0x7fff0000 1
      = .ok { result := EINVAL, retval := none, copyouts := [] } ∧
    sys_waitpid 0 familyKernel 0 (-4) 0x7fff0000 0
      = .ok { result := ESRCH, retval := some (-1), copyouts := [] } ∧
    sys_waitpid 0 familyKernel 0 9 0x7fff0000 0
      = .ok { result := ECHILD, retval := some (-1), copyouts := [] } :=
  ⟨(sys_waitpid_failures 0 familyKernel 0 3 0x7fff0000 1).1 (by decide),
   (sys_waitpid_failures 0 familyKernel 0 (-4) 0x7fff0000 0).2.1 rfl (by decide),
   (sys_waitpid_failures 0 familyKernel 0 9 0x7fff0000 0).2.2 rfl (by decide) _ rfl
     (by
      intro q hq
      simp only [List.mem_singleton] at hq
      subst hq
      exact ⟨_, rfl, by decide⟩)⟩

theorem free_kpages_keeps {st : Coremap} (hb : Bootstrapped st) (addr : Nat) :
    ∃ st', free_kpages st addr = .ok st' ∧ Bootstrapped st' := by
  have htab := hb.table
  unfold free_kpages
  simp only []
  by_cases hle : sub32 (sub32 addr MIPS_KSEG0) st.frame_start / PAGE_SIZE ≤ st.number_of_pages
  · obtain ⟨slots', h, hlen, _⟩ := freeLoop_total
      (st.number_of_pages - sub32 (sub32 addr MIPS_KSEG0) st.frame_start / PAGE_SIZE)
      (sub32 (sub32 addr MIPS_KSEG0) st.frame_start / PAGE_SIZE) 1 st.slots (by omega)
    rw [h]
    exact ⟨_, rfl, ⟨hb.created, by simpa [htab] using hlen, hb.aligned, hb.nonzero,
      hb.extent, hb.bound⟩⟩
  · rw [show st.number_of_pages - sub32 (sub32 addr MIPS_KSEG0) st.frame_start / PAGE_SIZE = 0
      by omega]
    exact ⟨_, rfl, ⟨hb.created, hb.table, hb.aligned, hb.nonzero, hb.extent, hb.bound⟩⟩

theorem destroyLoop_total (l : List Nat) :
    ∀ (k i : Nat) (cm : Coremap), i + k ≤ l.length → Bootstrapped cm →
      ∃ cm', destroyLoop (some l) k i cm = .ok cm' ∧ Bootstrapped cm' := by
  intro k
  induction k with
  | zero => intro i cm _ hb; exact ⟨cm, rfl, hb⟩
  | succ k ih =>
    intro i cm hlen hb
    have hi : i < l.length := by omega
    obtain ⟨cm1, h1, hb1⟩ := free_kpages_keeps hb (PADDR_TO_KVADDR (l.get ⟨i, hi⟩))
    obtain ⟨cm2, h2, hb2⟩ := ih (i + 1) cm1 (by omega) hb1
    refine ⟨cm2, ?_, hb2⟩
    rw [destroyLoop]
    simp only [loadWord, List.getElem?_eq_getElem hi]
    rw [List.get_eq_getElem] at h1
    rw [h1]
    exact h2

theorem as_destroy_total (cm : Coremap) (as : addrspace) (hb : Bootstrapped cm)
    (l₁ l₂ l₃ : List Nat) (h1 : as.as_pbase1 = some l₁) (h2 : as.as_pbase2 = some l₂)
    (h3 : as.as_stackpbase = some l₃) (k1 : as.as_npages1 ≤ l₁.length)
    (k2 : as.as_npages2 ≤ l₂.length) (k3 : DUMBVM_STACKPAGES ≤ l₃.length) :
    ∃ cm', as_destroy cm as = .ok cm' ∧ Bootstrapped cm' := by
  obtain ⟨c1, e1, b1⟩ := destroyLoop_total l₁ as.as_npages1 0 cm (by omega) hb
  obtain ⟨c2, e2, b2⟩ := destroyLoop_total l₂ as.as_npages2 0 c1 (by omega) b1
  obtain ⟨c3, e3, b3⟩ := destroyLoop_total l₃ DUMBVM_STACKPAGES 0 c2 (by omega) b2
  refine ⟨c3, ?_, b3⟩
  unfold as_destroy
  rw [h1, e1]
  simp only []
  rw [h2, e2]
  simp only []
  rw [h3, e3]

theorem deref_lt {procs : List (Option proc)} {p : Nat} {r : proc}
    (h : deref procs p = .ok r) : p < procs.length ∧ procs[p]? = some (some r) := by
  unfold deref at h
  split at h
  · rename_i r' hr
    simp only [Except.ok.injEq] at h
    subst h
    refine ⟨?_, hr⟩
    by_contra hcon
    rw [List.getElem?_eq_none_iff.mpr (by omega)] at hr
    cases hr
  · cases h

theorem deref_of_getElem? {procs : List (Option proc)} {p : Nat} {r : proc}
    (h : procs[p]? = some (some r)) : deref procs p = .ok r := by
  unfold deref
  rw [h]

theorem sys_fork_success (env : Env) (fe : ForkEnv) (k : Kernel) (curproc : Nat)
    (tf : Option Nat) (pid : Int) (k1 : Kernel)
    (h : sys_fork env fe k curproc tf = .ok (0, some pid, k1)) :
    ∃ parent cm mem res, deref k.procs curproc = .ok parent ∧
      as_copy_from env k.coremap k.mem parent.p_addrspace = .ok (0, cm, mem, res) ∧
      k1 = { procs := forkedProcs k.procs curproc parent pid res, coremap := cm, mem := mem } := by
  unfold sys_fork at h
  split at h
  · cases h
  · split at h
    · cases h
    · rename_i parent hpar
      split at h
      · cases h
      · split at h
        · simp [ENOMEM] at h
        · rename_i c_proc procs1 hcreate
          have hc : ∃ np, fe.newpid = some np ∧ c_proc = k.procs.length ∧
              procs1 = k.procs ++ [some (blankProc np)] := by
            unfold proc_create_runprogram at hcreate
            split at hcreate
            · cases hcreate
            · rename_i np hnp
              simp only [Option.some.injEq, Prod.mk.injEq] at hcreate
              exact ⟨np, hnp, hcreate.1.symm, hcreate.2.symm⟩
          obtain ⟨np, -, rfl, rfl⟩ := hc
          split at h
          · simp [ENOMEM] at h
          · split at h
            · cases h
            · rename_i err cm mem res hcopy
              split at h
              · split at h
                · cases h
                · simp [ENOMEM] at h
              · rename_i herr
                have herr : err = 0 := by simpa using herr
                subst herr
                have hd : deref (k.procs ++ [some (blankProc np)]) k.procs.length
                    = .ok (blankProc np) := by
                  apply deref_of_getElem?
                  rw [List.getElem?_append_right (le_refl _)]
                  simp
                rw [hd] at h
                simp only [] at h
                split at h
                · split at h
                  · cases h
                  · split at h
                    · cases h
                    · simp [ENOMEM] at h
                · simp only [Except.ok.injEq, Prod.mk.injEq, Option.some.injEq, true_and] at h
                  obtain ⟨rfl, rfl⟩ := h
                  exact ⟨parent, cm, mem, res, hpar, hcopy, rfl⟩

theorem forkedProcs_child (procs : List (Option proc)) (curproc : Nat) (parent : proc)
    (pid : Int) (res : Option addrspace) :
    (forkedProcs procs curproc parent pid res)[procs.length]?
      = some (some { blankProc pid with p_addrspace := res, parent := some curproc }) := by
  unfold forkedProcs
  rw [List.getElem?_set_self (by simp)]

theorem forkedProcs_parent (procs : List (Option proc)) (curproc : Nat) (parent : proc)
    (pid : Int) (res : Option addrspace) (hcur : curproc < procs.length) :
    (forkedProcs procs curproc parent pid res)[curproc]?
      = some (some { parent with children := parent.children ++ [procs.length] }) := by
  unfold forkedProcs
  rw [List.getElem?_set_ne (by omega), List.getElem?_set_self (by simp; omega)]

theorem forkedProcs_other (procs : List (Option proc)) (curproc : Nat) (parent : proc)
    (pid : Int) (res : Option addrspace) (q : Nat) (hq : q < procs.length)
    (hne : q ≠ curproc) :
    (forkedProcs procs curproc parent pid res)[q]? = procs[q]? := by
  unfold forkedProcs
  rw [List.getElem?_set_ne (by omega), List.getElem?_set_ne (fun h => hne h.symm),
    List.getElem?_set_ne (by omega), List.getElem?_append_left hq]

theorem as_copy_from_spec (env : Env) (cm : Coremap) (mem : Memory) (old : Option addrspace)
    (cm' : Coremap) (mem' : Memory) (res : Option addrspace) (hb : Bootstrapped cm)
    (hpop : ∀ as, old = some as → Populated cm as)
    (h : as_copy_from env cm mem old = .ok (0, cm', mem', res)) :
    ∃ o new, old = some o ∧ res = some new ∧ CopyPost cm cm' mem mem' o new := by
  unfold as_copy_from at h
  split at h
  · rename_i as
    obtain ⟨new, hres, hpost⟩ := as_copy_spec env cm mem as cm' mem' res hb (hpop as rfl) h
    exact ⟨as, new, rfl, hres, hpost⟩
  · split at h
    · simp [ENOMEM] at h
    · cases h

/-- C16: when `sys_fork` of a parent succeeds and reports child PID `p`, the child (the
record at the pointer the fork added) then runs `sys__exit c`, and the parent then calls
`sys_waitpid p status 0` with a writable status pointer, the exit runs to its
`thread_exit` and the wait returns 0, stores `p` in `*retval` and makes one call of
`copyout`, handing `_MKWAIT_EXIT c` over for `status`. The kernel state before the fork
is well formed: the coremap is bootstrapped, the parent's address space is populated, PIDs
are positive, and the parent's earlier children are records with PIDs other than `p`. -/
theorem fork_exit_waitpid (env : Env) (fe : ForkEnv) (k k1 : Kernel) (curproc : Nat)
    (tf : Option Nat) (p c : Int) (status : Nat)
    (hb : Bootstrapped k.coremap) (hp : 0 < p)
    (hpop : ∀ parent as, deref k.procs curproc = .ok parent → parent.p_addrspace = some as →
      Populated k.coremap as)
    (huniq : ∀ parent, deref k.procs curproc = .ok parent →
      ∀ q ∈ parent.children, ∃ r, deref k.procs q = .ok r ∧ r.pid ≠ p)
    (hfork : sys_fork env fe k curproc tf = .ok (0, some p, k1)) :
    ∃ k2, sys__exit k1 k.procs.length c = .ok k2 ∧
      sys_waitpid 0 k2 curproc p status 0
        = .ok { result := 0, retval := some p, copyouts := [(status, _MKWAIT_EXIT c)] } := by
  obtain ⟨parent, cm, mem, res, hpar, hcopy, rfl⟩ :=
    sys_fork_success env fe k curproc tf p k1 hfork
  obtain ⟨hcur, hparent⟩ := deref_lt hpar
  obtain ⟨o, new, ho, rfl, post⟩ := as_copy_from_spec env k.coremap k.mem parent.p_addrspace
    cm mem res hb (fun as has => hpop parent as hpar has) hcopy
  obtain ⟨n₁, n₂, n₃, o₁, o₂, o₃, ⟨e1, e2, e3⟩, -, ⟨g1, g2, g3⟩, -⟩ := post.frames
  obtain ⟨cm2, hdes, -⟩ := as_destroy_total cm new post.boot n₁ n₂ n₃ e1 e2 e3
    (by rw [post.npages1, g1]) (by rw [post.npages2, g2]) (by rw [g3])
  have hchild := deref_of_getElem?
    (forkedProcs_child k.procs curproc parent p (some new))
  refine ⟨⟨(forkedProcs k.procs curproc parent p (some new)).set k.procs.length
    (some { blankProc p with parent := some curproc, terminated := true, exit_code := c }),
    cm2, mem⟩, ?_, ?_⟩
  · unfold sys__exit
    simp only []
    rw [hchild]
    simp only []
    rw [hdes]
    rfl
  · have hlen : (forkedProcs k.procs curproc parent p (some new)).length
        = k.procs.length + 1 := by
      simp [forkedProcs]
    have hpar2 : deref ((forkedProcs k.procs curproc parent p (some new)).set k.procs.length
        (some { blankProc p with parent := some curproc, terminated := true, exit_code := c }))
        curproc = .ok { parent with children := parent.children ++ [k.procs.length] } := by
      apply deref_of_getElem?
      rw [List.getElem?_set_ne (by omega)]
      exact forkedProcs_parent k.procs curproc parent p (some new) hcur
    have hchild2 : deref ((forkedProcs k.procs curproc parent p (some new)).set k.procs.length
        (some { blankProc p with parent := some curproc, terminated := true, exit_code := c }))
        k.procs.length
          = .ok { blankProc p with parent := some curproc, terminated := true, exit_code := c } := by
      apply deref_of_getElem?
      rw [List.getElem?_set_self (by omega)]
    have hold : ∀ q ∈ parent.children, ∃ r,
        deref ((forkedProcs k.procs curproc parent p (some new)).set k.procs.length
          (some { blankProc p with parent := some curproc, terminated := true, exit_code := c }))
          q = .ok r ∧ r.pid ≠ p := by
      intro q hq
      obtain ⟨r, hr, hne⟩ := huniq parent hpar q hq
      obtain ⟨hql, hqr⟩ := deref_lt hr
      by_cases hqc : q = curproc
      · subst hqc
        rw [hpar] at hr
        cases hr
        exact ⟨_, hpar2, hne⟩
      · refine ⟨r, deref_of_getElem? ?_, hne⟩
        rw [List.getElem?_set_ne (by omega),
          forkedProcs_other k.procs curproc parent p (some new) q hql hqc]
        exact hqr
    have hscan := waitScan_skip
      ((forkedProcs k.procs curproc parent p (some new)).set k.procs.length
        (some { blankProc p with parent := some curproc, terminated := true, exit_code := c }))
      p [k.procs.length] parent.children hold
    unfold sys_waitpid
    simp only [ne_eq, not_true_eq_false, if_false]
    rw [if_neg (by omega), hpar2]
    simp only []
    rw [hscan, waitScan, hchild2]
    simp [blankProc]

/-- Witness for C16: on `loneKernel` the process with PID 2 forks a child with PID 3, the
child exits with code 7, and the parent waits for PID 3. -/
theorem fork_exit_waitpid_witness :
    ∃ k2, sys__exit (returned (sys_fork quietEnv ⟨some 3, false, 0⟩ loneKernel 0 (some 1))).2.2
        loneKernel.procs.length 7 = .ok k2 ∧
      sys_waitpid 0 k2 0 3 0x7fff0000 0
        = .ok { result := 0, retval := some 3, copyouts := [(0x7fff0000, _MKWAIT_EXIT 7)] } :=
  fork_exit_waitpid quietEnv ⟨some 3, false, 0⟩ loneKernel
    (returned (sys_fork quietEnv ⟨some 3, false, 0⟩ loneKernel 0 (some 1))).2.2 0 (some 1) 3 7
    0x7fff0000 (bootstrapped_coremapOf _ (by decide)) (by decide)
    (fun parent as h1 h2 => by
      have h0 : deref loneKernel.procs 0 = .ok (loneKernel.procs.getD 0 none).get! := rfl
      rw [h0] at h1
      cases h1
      cases h2
      exact populated_parentSpace)
    (fun parent h1 q hq => by
      have h0 : deref loneKernel.procs 0 = .ok (loneKernel.procs.getD 0 none).get! := rfl
      rw [h0] at h1
      cases h1
      cases hq)
    (by rfl)

/-! ## Claims about `sys_execv` -/

theorem cstring_no_nul (s : List Nat) : ∀ c ∈ cstring s, c ≠ 0 := by
  intro c hc
  have := List.mem_takeWhile_imp hc
  simpa using this

theorem cstring_buffer (s : List Nat) : cstring (cstring s ++ [0]) = cstring s := by
  unfold cstring
  induction s with
  | nil => simp [List.takeWhile]
  | cons c s ih =>
    by_cases hc : c = 0
    · subst hc
      simp [List.takeWhile]
    · simp [List.takeWhile_cons, hc]
      simpa using ih

theorem strlen_buffer (s : List Nat) : strlen (cstring s ++ [0]) = (cstring s).length := by
  unfold strlen
  rw [cstring_buffer]

theorem copyinArgs_spec (fault : Nat → Nat) :
    ∀ (args : List (List Nat)) (i : Nat) (bufs : List (List Nat)),
      copyinArgs fault i args = .ok bufs → bufs = args.map (fun a => cstring a ++ [0]) := by
  intro args
  induction args with
  | nil =>
    intro i bufs h
    simp only [copyinArgs, Except.ok.injEq] at h
    subst h
    rfl
  | cons a rest ih =>
    intro i bufs h
    rw [copyinArgs] at h
    unfold copyinstr at h
    split at h
    · cases h
    · rename_i buf hbuf
      split at hbuf
      · cases hbuf
      · split at hbuf
        · cases hbuf
        · simp only [Except.ok.injEq] at hbuf
          subst hbuf
          split at h
          · cases h
          · rename_i bufs' hrest
            simp only [Except.ok.injEq] at h
            subst h
            rw [ih (i + 1) bufs' hrest]
            rfl

theorem copyout_ok (fault : Nat → Nat → Nat) (um um' : Memory) (src : List Nat)
    (d len : Nat) (h : copyout fault um src d len = .ok um') :
    d + len ≤ USERSTACK ∧
    (∀ a, d ≤ a → a < d + len → um' a = src.getD (a - d) 0) ∧
    (∀ a, a < d ∨ d + len ≤ a → um' a = um a) := by
  unfold copyout at h
  split at h
  · cases h
  · rename_i hle
    split at h
    · cases h
    · simp only [Except.ok.injEq] at h
      subst h
      refine ⟨by omega, ?_, ?_⟩
      · intro a h1 h2
        simp only [h1, h2, and_self, if_true]
      · intro a ha
        have : ¬ (d ≤ a ∧ a < d + len) := by omega
        simp only [this, if_false]

theorem sub32_exact (sp len : Nat) (hsp : sp ≤ USERSTACK)
    (h : sub32 sp len + len ≤ USERSTACK) : sub32 sp len + len = sp := by
  simp only [sub32, USERSTACK, MIPS_KSEG0] at *
  omega

theorem pushStrings_spec (fault : Nat → Nat → Nat) :
    ∀ (bufs : List (List Nat)) (sp : Nat) (um : Memory) (sp' : Nat) (addrs : List Nat)
      (um' : Memory), sp ≤ USERSTACK → pushStrings fault bufs sp um = .ok (sp', addrs, um') →
      sp' ≤ sp ∧ addrs.length = bufs.length ∧
      (∀ a, a < sp' ∨ sp ≤ a → um' a = um a) ∧
      (∀ (i : Nat) b, bufs[i]? = some b → ∃ w, addrs[i]? = some w ∧ sp' ≤ w ∧
        w + (strlen b + 1) ≤ sp ∧ ∀ j, j < strlen b + 1 → um' (w + j) = b.getD j 0) ∧
      (∀ (i i' : Nat) b w w', i < i' → bufs[i]? = some b → addrs[i]? = some w →
        addrs[i']? = some w' → w + (strlen b + 1) ≤ w') := by
  intro bufs
  induction bufs with
  | nil =>
    intro sp um sp' addrs um' _ h
    simp only [pushStrings, Except.ok.injEq, Prod.mk.injEq] at h
    obtain ⟨rfl, rfl, rfl⟩ := h
    refine ⟨le_refl _, rfl, fun _ _ => rfl, ?_, ?_⟩
    · intro i b hb
      simp at hb
    · intro i i' b w w' _ hb
      simp at hb
  | cons buf rest ih =>
    intro sp um sp' addrs um' hsp h
    rw [pushStrings] at h
    split at h
    · cases h
    · rename_i sp1 addrs1 um1 hrest
      obtain ⟨h1, h2, h3, h4, h5⟩ := ih sp um sp1 addrs1 um1 hsp hrest
      simp only [] at h
      split at h
      · cases h
      · rename_i um2 hco
        simp only [Except.ok.injEq, Prod.mk.injEq] at h
        obtain ⟨rfl, rfl, rfl⟩ := h
        obtain ⟨c1, c2, c3⟩ := copyout_ok _ _ _ _ _ _ hco
        have hex := sub32_exact sp1 (strlen buf + 1) (by omega) c1
        refine ⟨by omega, by simp [h2], ?_, ?_, ?_⟩
        · intro a ha
          rw [c3 a (by omega), h3 a (by omega)]
        · intro i b hb
          cases i with
          | zero =>
            simp only [List.getElem?_cons_zero, Option.some.injEq] at hb
            subst hb
            refine ⟨_, List.getElem?_cons_zero, le_refl _, by omega, ?_⟩
            intro j hj
            rw [c2 _ (by omega) (by omega), Nat.add_sub_cancel_left]
          | succ i =>
            simp only [List.getElem?_cons_succ] at hb
            obtain ⟨w, hw, k1, k2, k3⟩ := h4 i b hb
            refine ⟨w, by simpa using hw, by omega, k2, ?_⟩
            intro j hj
            rw [c3 _ (by omega)]
            exact k3 j hj
        · intro i i' b w w' hlt hb hw hw'
          cases i' with
          | zero => omega
          | succ i' =>
            simp only [List.getElem?_cons_succ] at hw'
            cases i with
            | zero =>
              simp only [List.getElem?_cons_zero, Option.some.injEq] at hb hw
              subst hb
              subst hw
              have hlt' : i' < addrs1.length := by
                by_contra hcon
                rw [List.getElem?_eq_none_iff.mpr (by omega)] at hw'
                cases hw'
              obtain ⟨b', hb'⟩ : ∃ b', rest[i']? = some b' := by
                cases hr : rest[i']? with
                | some b' => exact ⟨b', rfl⟩
                | none =>
                  rw [List.getElem?_eq_none_iff] at hr
                  omega
              obtain ⟨w2, hw2, k1, -⟩ := h4 i' b' hb'
              rw [hw2] at hw'
              cases hw'
              omega
            | succ i =>
              simp only [List.getElem?_cons_succ] at hb hw
              exact h5 i i' b w w' (by omega) hb hw hw'

theorem wordBytes_value (w : Nat) :
    (wordBytes w).getD 0 0 * 16777216 + (wordBytes w).getD 1 0 * 65536
      + (wordBytes w).getD 2 0 * 256 + (wordBytes w).getD 3 0 = u32 w := by
  simp only [wordBytes, List.getD_cons_zero, List.getD_cons_succ, u32]
  omega

theorem pushWords_spec (fault : Nat → Nat → Nat) :
    ∀ (ws : List Nat) (sp : Nat) (um : Memory) (sp' : Nat) (um' : Memory),
      sp ≤ USERSTACK → pushWords fault ws sp um = .ok (sp', um') →
      sp' + 4 * ws.length = sp ∧
      (∀ a, a < sp' ∨ sp ≤ a → um' a = um a) ∧
      (∀ (i : Nat) w, ws[i]? = some w → readWord um' (sp' + 4 * i) = u32 w) := by
  intro ws
  induction ws with
  | nil =>
    intro sp um sp' um' _ h
    simp only [pushWords, Except.ok.injEq, Prod.mk.injEq] at h
    obtain ⟨rfl, rfl⟩ := h
    refine ⟨rfl, fun _ _ => rfl, ?_⟩
    intro i w hw
    simp at hw
  | cons w0 rest ih =>
    intro sp um sp' um' hsp h
    rw [pushWords] at h
    split at h
    · cases h
    · rename_i sp1 um1 hrest
      obtain ⟨h1, h2, h3⟩ := ih sp um sp1 um1 hsp hrest
      simp only [] at h
      split at h
      · cases h
      · rename_i um2 hco
        simp only [Except.ok.injEq, Prod.mk.injEq] at h
        obtain ⟨rfl, rfl⟩ := h
        obtain ⟨c1, c2, c3⟩ := copyout_ok _ _ _ _ _ _ hco
        have hex := sub32_exact sp1 4 (by omega) c1
        generalize sub32 sp1 4 = s at c1 c2 c3 hex
        refine ⟨by simp only [List.length_cons]; omega, ?_, ?_⟩
        · intro a ha
          rw [c3 a (by omega), h2 a (by omega)]
        · intro i w hw
          cases i with
          | zero =>
            simp only [List.getElem?_cons_zero, Option.some.injEq] at hw
            subst hw
            have b0 := c2 s (by omega) (by omega)
            have b1 := c2 (s + 1) (by omega) (by omega)
            have b2 := c2 (s + 2) (by omega) (by omega)
            have b3 := c2 (s + 3) (by omega) (by omega)
            rw [Nat.sub_self] at b0
            rw [Nat.add_sub_cancel_left] at b1 b2 b3
            unfold readWord
            rw [Nat.mul_zero, Nat.add_zero, b0, b1, b2, b3]
            exact wordBytes_value _
          | succ i =>
            simp only [List.getElem?_cons_succ] at hw
            have := h3 i w hw
            have e : s + 4 * (i + 1) = sp1 + 4 * i := by omega
            rw [e]
            unfold readWord at this ⊢
            rw [c3 _ (by omega), c3 _ (by omega), c3 _ (by omega), c3 _ (by omega)]
            exact this

theorem buffer_getD (a : List Nat) (j : Nat) :
    (cstring a ++ [0]).getD j 0 = (cstring a).getD j 0 := by
  by_cases hj : j < (cstring a).length
  · rw [List.getD_append _ _ _ _ hj]
  · have h1 : (cstring a).getD j 0 = 0 := List.getD_eq_default _ _ (by omega)
    rw [h1]
    by_cases hj2 : j < (cstring a ++ [0]).length
    · rw [List.getD_eq_getElem _ _ hj2, List.getElem_append_right (by omega)]
      simp
    · exact List.getD_eq_default _ _ (by omega)

theorem execCopyin_spec (xe : ExecEnv) (name : List Nat) (args bufs : List (List Nat))
    (h : execCopyin xe name args = .ok bufs) :
    bufs = args.map (fun a => cstring a ++ [0]) := by
  unfold execCopyin at h
  split at h
  · cases h
  · split at h
    · cases h
    · split at h
      · cases h
      · split at h
        · cases h
        · exact copyinArgs_spec _ _ _ _ h

theorem sub32_align (sp : Nat) (hsp : sp ≤ USERSTACK) :
    sub32 sp (sp % 4) ≤ sp ∧ sub32 sp (sp % 4) % 4 = 0 := by
  simp only [sub32, USERSTACK, MIPS_KSEG0] at *
  omega

theorem u32_user (w : Nat) (h : w ≤ USERSTACK) : u32 w = w := by
  simp only [u32, USERSTACK, MIPS_KSEG0] at *
  omega

/-- Layout of the argument block that `execStack` builds below `top`: `A` is the final
stack pointer and `um'` the final user memory. -/
theorem execStack_spec (xe : ExecEnv) (args : List (List Nat)) (um um' : Memory) (A : Nat)
    (h : execStack xe (args.map (fun a => cstring a ++ [0])) USERSTACK um = .ok (A, um')) :
    A % 4 = 0 ∧
    (∀ (i : Nat) a, args[i]? = some a →
      readWord um' (A + 4 * i) < USERSTACK ∧
      readWord um' (A + 4 * i) + ((cstring a).length + 1) ≤ USERSTACK ∧
      (∀ j, j < (cstring a).length →
        um' (readWord um' (A + 4 * i) + j) = (cstring a).getD j 0) ∧
      um' (readWord um' (A + 4 * i) + (cstring a).length) = 0 ∧
      A + 4 * (args.length + 1) ≤ readWord um' (A + 4 * i) ∧
      ∀ (i' : Nat), i < i' → i' < args.length →
        readWord um' (A + 4 * i) + ((cstring a).length + 1) ≤ readWord um' (A + 4 * i')) ∧
    readWord um' (A + 4 * args.length) = 0 := by
  unfold execStack at h
  split at h
  · cases h
  · split at h
    · cases h
    · rename_i sp1 addrs um1 hps
      obtain ⟨p1, p2, p3, p4, p5⟩ :=
        pushStrings_spec _ _ _ _ _ _ _ (le_refl _) hps
      simp only [] at h
      have hsp2 : ∃ sp2, sp2 ≤ sp1 ∧ sp2 % 4 = 0 ∧
          pushWords xe.copyout_fault (addrs ++ [0]) sp2 um1 = .ok (A, um') := by
        by_cases hr : sp1 % 4 > 0
        · rw [if_pos hr] at h
          exact ⟨_, (sub32_align sp1 p1).1, (sub32_align sp1 p1).2, h⟩
        · rw [if_neg hr] at h
          exact ⟨sp1, le_refl _, by omega, h⟩
      obtain ⟨sp2, q1, q2, hpw⟩ := hsp2
      obtain ⟨w1, w2, w3⟩ := pushWords_spec _ _ _ _ _ _ (by omega) hpw
      simp only [List.length_append, List.length_singleton, List.length_map] at w1 p2
      have hword : ∀ (i : Nat) w, addrs[i]? = some w → w ≤ USERSTACK →
          readWord um' (A + 4 * i) = w := by
        intro i w hw hle
        have hi : i < addrs.length := by
          by_contra hcon
          rw [List.getElem?_eq_none_iff.mpr (by omega)] at hw
          cases hw
        have := w3 i w (by rw [List.getElem?_append_left hi]; exact hw)
        rw [this]
        exact u32_user w hle
      refine ⟨by omega, ?_, ?_⟩
      · intro i a ha
        have hb : (args.map (fun a => cstring a ++ [0]))[i]? = some (cstring a ++ [0]) := by
          rw [List.getElem?_map, ha]
          rfl
        obtain ⟨w, hw, k1, k2, k3⟩ := p4 i _ hb
        rw [strlen_buffer] at k2 k3
        rw [hword i w hw (by omega)]
        refine ⟨by omega, k2, ?_, ?_, by omega, ?_⟩
        · intro j hj
          rw [w2 _ (by omega), k3 j (by omega), buffer_getD]
        · rw [w2 _ (by omega), k3 _ (by omega), buffer_getD]
          exact List.getD_eq_default _ _ (le_refl _)
        · intro i' hlt hi'
          obtain ⟨w', hw'⟩ : ∃ w', addrs[i']? = some w' := by
            cases hr : addrs[i']? with
            | some w' => exact ⟨w', rfl⟩
            | none =>
              rw [List.getElem?_eq_none_iff] at hr
              omega
          obtain ⟨a', ha'⟩ : ∃ a', args[i']? = some a' := by
            cases hr : args[i']? with
            | some a' => exact ⟨a', rfl⟩
            | none =>
              rw [List.getElem?_eq_none_iff] at hr
              omega
          have hb' : (args.map (fun a => cstring a ++ [0]))[i']? = some (cstring a' ++ [0]) := by
            rw [List.getElem?_map, ha']
            rfl
          obtain ⟨w'', hw'', -, m2, -⟩ := p4 i' _ hb'
          rw [hw'] at hw''
          cases hw''
          have := p5 i i' _ w w' hlt hb hw hw'
          rw [strlen_buffer] at this
          rw [hword i' w' hw' (by omega)]
          exact this
      · have := w3 addrs.length 0 (by simp)
        rw [p2] at this
        rw [this]
        rfl

theorem sys_execv_entered (env : Env) (xe : ExecEnv) (um : Memory)
    (progname : Option (List Nat)) (args : List (List Nat)) (argc argv sp entry : Nat)
    (st : ExecState)
    (h : sys_execv env xe um progname (some args)
      = .ok (.enter_new_process argc argv sp entry, st)) :
    argc = args.length ∧ sp = ROUNDUP argv 8 ∧ entry = xe.entrypoint ∧
    execStack xe (args.map (fun a => cstring a ++ [0])) USERSTACK xe.loaded_umem
      = .ok (argv, st.umem) := by
  unfold sys_execv at h
  simp only [] at h
  split at h
  · cases h
  · cases h
  · rename_i pn oa name argvl ha
    cases ha
    split at h
    · simp at h
    · rename_i args_copy hcopy
      have hbufs := execCopyin_spec xe name args args_copy hcopy
      subst hbufs
      split at h
      · simp at h
      · split at h
        · simp at h
        · split at h
          · simp at h
          · unfold as_define_stack at h
            split at h
            · cases h
            · rename_i result stackptr hds
              split at hds
              · cases hds
              · simp only [Except.ok.injEq, Prod.mk.injEq] at hds
                obtain ⟨rfl, rfl⟩ := hds
                simp only [ne_eq, not_true_eq_false, if_false] at h
                split at h
                · simp at h
                · rename_i A um' hstack
                  simp only [Except.ok.injEq, Prod.mk.injEq, ExecExit.enter_new_process.injEq]
                    at h
                  obtain ⟨⟨rfl, rfl, rfl, rfl⟩, rfl⟩ := h
                  exact ⟨rfl, rfl, rfl, hstack⟩

/-- C17: when `sys_execv` reaches `enter_new_process` for the argument strings
`a_0 .. a_(k-1)` (the bytes before the first NUL at each `args[i]`): the count passed is
`k`; the pointer `argv` passed is a multiple of 4; for every `i < k` the word at
`argv + 4 * i` is an address below `USERSTACK` where user memory holds the bytes of `a_i`
followed by a NUL, all below `USERSTACK`; the word at `argv + 4 * k` is 0; the pointer
vector ends at or below every string area, and the area of string `i` ends at or below
the start of the area of string `i'` for `i < i'`, so the areas do not overlap. -/
theorem sys_execv_argument_block (env : Env) (xe : ExecEnv) (um : Memory)
    (progname : Option (List Nat)) (args : List (List Nat)) (argc argv sp entry : Nat)
    (st : ExecState)
    (h : sys_execv env xe um progname (some args)
      = .ok (.enter_new_process argc argv sp entry, st)) :
    argc = args.length ∧ argv % 4 = 0 ∧
    (∀ (i : Nat) a, args[i]? = some a →
      readWord st.umem (argv + 4 * i) < USERSTACK ∧
      readWord st.umem (argv + 4 * i) + ((cstring a).length + 1) ≤ USERSTACK ∧
      (∀ j, j < (cstring a).length →
        st.umem (readWord st.umem (argv + 4 * i) + j) = (cstring a).getD j 0) ∧
      st.umem (readWord st.umem (argv + 4 * i) + (cstring a).length) = 0 ∧
      argv + 4 * (args.length + 1) ≤ readWord st.umem (argv + 4 * i) ∧
      ∀ (i' : Nat), i < i' → i' < args.length →
        readWord st.umem (argv + 4 * i) + ((cstring a).length + 1)
          ≤ readWord st.umem (argv + 4 * i')) ∧
    readWord st.umem (argv + 4 * args.length) = 0 := by
  obtain ⟨h1, -, -, h4⟩ := sys_execv_entered env xe um progname args argc argv sp entry st h
  obtain ⟨k1, k2, k3⟩ := execStack_spec xe args xe.loaded_umem st.umem argv h4
  exact ⟨h1, k1, k2, k3⟩

/-- Witness for C17: program name `p`, arguments `ab` and `c`, every external call
succeeding; the pointer vector is at `0x7fffffec`. -/
theorem sys_execv_argument_block_witness :
    2 = [[97, 98], [99]].length ∧ 2147483628 % 4 = 0 ∧
    (∀ (i : Nat) a, [[97, 98], [99]][i]? = some a →
      readWord (returned (sys_execv quietEnv calmExec zeroMemory (some [112])
          (some [[97, 98], [99]]))).2.umem (2147483628 + 4 * i) < USERSTACK ∧
      readWord (returned (sys_execv quietEnv calmExec zeroMemory (some [112])
          (some [[97, 98], [99]]))).2.umem (2147483628 + 4 * i) + ((cstring a).length + 1)
        ≤ USERSTACK ∧
      (∀ j, j < (cstring a).length →
        (returned (sys_execv quietEnv calmExec zeroMemory (some [112])
          (some [[97, 98], [99]]))).2.umem
            (readWord (returned (sys_execv quietEnv calmExec zeroMemory (some [112])
              (some [[97, 98], [99]]))).2.umem (2147483628 + 4 * i) + j)
          = (cstring a).getD j 0) ∧
      (returned (sys_execv quietEnv calmExec zeroMemory (some [112])
          (some [[97, 98], [99]]))).2.umem
        (readWord (returned (sys_execv quietEnv calmExec zeroMemory (some [112])
          (some [[97, 98], [99]]))).2.umem (2147483628 + 4 * i) + (cstring a).length) = 0 ∧
      2147483628 + 4 * ([[97, 98], [99]].length + 1)
        ≤ readWord (returned (sys_execv quietEnv calmExec zeroMemory (some [112])
          (some [[97, 98], [99]]))).2.umem (2147483628 + 4 * i) ∧
      ∀ (i' : Nat), i < i' → i' < [[97, 98], [99]].length →
        readWord (returned (sys_execv quietEnv calmExec zeroMemory (some [112])
          (some [[97, 98], [99]]))).2.umem (2147483628 + 4 * i) + ((cstring a).length + 1)
          ≤ readWord (returned (sys_execv quietEnv calmExec zeroMemory (some [112])
            (some [[97, 98], [99]]))).2.umem (2147483628 + 4 * i')) ∧
    readWord (returned (sys_execv quietEnv calmExec zeroMemory (some [112])
      (some [[97, 98], [99]]))).2.umem (2147483628 + 4 * [[97, 98], [99]].length) = 0 :=
  sys_execv_argument_block quietEnv calmExec zeroMemory (some [112]) [[97, 98], [99]]
    2 2147483628 2147483632 4194304
    (returned (sys_execv quietEnv calmExec zeroMemory (some [112]) (some [[97, 98], [99]]))).2
    (by rfl)

/-- C18 fails on the code: for the program name `p` and the argument
vector `["a"]`, with every external call succeeding, `sys_execv` calls `enter_new_process`
with the argv vector at `0x7ffffff4` and the stack pointer
`ROUNDUP(0x7ffffff4, 8) = 0x7ffffff8`. That stack pointer is a multiple of 8, but it is
not `0x7ffffff4 - 0x7ffffff4 % 8`, and it lies above the start of the argv vector. -/
theorem sys_execv_stack_pointer_rounded_up :
    (returned (sys_execv quietEnv calmExec zeroMemory (some [112]) (some [[97]]))).1
      = .enter_new_process 1 0x7ffffff4 0x7ffffff8 0x400000 ∧
    ROUNDUP 0x7ffffff4 8 = 0x7ffffff8 ∧
    0x7ffffff8 % 8 = 0 ∧
    ¬ (0x7ffffff8 = 0x7ffffff4 - 0x7ffffff4 % 8) ∧
    0x7ffffff4 < 0x7ffffff8 :=
  ⟨by rfl, by rfl, by decide, by decide, by decide⟩

/-- C19 fails on the code: when `load_elf` returns the code 13,
`sys_execv` returns 13 after two calls of `vfs_close` on the one file it opened, and the
current address space is the one the call created, not the caller's. When instead the
first `copyout` fails with the code 6, `sys_execv` returns 6 after `as_destroy(old_as)`
destroyed the caller's address space, and the current address space is again the created
one. -/
theorem sys_execv_failure_paths :
    ((returned (sys_execv quietEnv badElfExec zeroMemory (some [112]) (some [[97]]))).1
        = .error 13 ∧
      (returned (sys_execv quietEnv badElfExec zeroMemory (some [112]) (some [[97]]))).2.vfs_opens
        = 1 ∧
      (returned (sys_execv quietEnv badElfExec zeroMemory (some [112]) (some [[97]]))).2.vfs_closes
        = 2 ∧
      (returned (sys_execv quietEnv badElfExec zeroMemory (some [112])
        (some [[97]]))).2.p_addrspace = .created ∧
      (returned (sys_execv quietEnv badElfExec zeroMemory (some [112])
        (some [[97]]))).2.old_destroyed = false) ∧
    ((returned (sys_execv quietEnv faultyStackExec zeroMemory (some [112]) (some [[97]]))).1
        = .error 6 ∧
      (returned (sys_execv quietEnv faultyStackExec zeroMemory (some [112])
        (some [[97]]))).2.vfs_closes = 1 ∧
      (returned (sys_execv quietEnv faultyStackExec zeroMemory (some [112])
        (some [[97]]))).2.p_addrspace = .created ∧
      (returned (sys_execv quietEnv faultyStackExec zeroMemory (some [112])
        (some [[97]]))).2.old_destroyed = true) :=
  ⟨⟨by rfl, by rfl, by rfl, by rfl, by rfl⟩, ⟨by rfl, by rfl, by rfl, by rfl⟩⟩

/-! ## The run encoding under `getppages` and `free_kpages` -/

theorem getD_set_int (l : List Int) (i j : Nat) (v : Int) (hi : i < l.length) :
    (l.set i v).getD j 0 = if j = i then v else l.getD j 0 := by
  rw [List.getD_eq_getElem?_getD, List.getD_eq_getElem?_getD]
  by_cases h : j = i
  · subst h
    rw [List.getElem?_set_self hi, if_pos rfl]
    rfl
  · rw [List.getElem?_set_ne (fun h' => h h'.symm), if_neg h]

theorem getD_of_getElem? {l : List Int} {i : Nat} {v : Int} (h : l[i]? = some v) :
    l.getD i 0 = v := by
  rw [List.getD_eq_getElem?_getD, h]
  rfl

theorem getElem?_of_lt_getD {l : List Int} {i : Nat} (h : i < l.length) :
    l[i]? = some (l.getD i 0) := by
  rw [List.getD_eq_getElem?_getD, List.getElem?_eq_getElem h]
  rfl

theorem RunEncoded.except {slots : List Int} (h : RunEncoded slots) (i : Nat) (index : Int) :
    RunEncodedExcept slots i index := by
  intro j hj
  rcases h j hj with h0 | h1 | ⟨h2, h3, h4⟩
  · exact Or.inl h0
  · exact Or.inr (Or.inl h1)
  · exact Or.inr (Or.inr ⟨h2, h3, Or.inl h4⟩)

theorem RunEncodedExcept.done {slots : List Int} {i : Nat} {index : Int}
    (h : RunEncodedExcept slots i index) (hi : slots.length ≤ i) : RunEncoded slots := by
  intro j hj
  rcases h j hj with h0 | h1 | ⟨h2, h3, h4 | ⟨h5, -⟩⟩
  · exact Or.inl h0
  · exact Or.inr (Or.inl h1)
  · exact Or.inr (Or.inr ⟨h2, h3, h4⟩)
  · omega

theorem freeLoop_encoding :
    ∀ (k i : Nat) (index : Int) (slots : List Int), i + k ≤ slots.length →
      RunEncodedExcept slots i index →
      ∃ slots' index', freeLoop k i index slots = .ok slots' ∧
        slots'.length = slots.length ∧ RunEncodedExcept slots' (i + k) index' := by
  intro k
  induction k with
  | zero =>
    intro i index slots _ h
    exact ⟨slots, index, rfl, rfl, h⟩
  | succ k ih =>
    intro i index slots hlen h
    have hi : i < slots.length := by omega
    rw [freeLoop, getElem?_of_lt_getD hi]
    by_cases hv : slots.getD i 0 = index
    · simp only [hv, if_true]
      have hinv : RunEncodedExcept (slots.set i 0) (i + 1) (index + 1) := by
        intro j hj
        rw [List.length_set] at hj
        rw [getD_set_int _ _ _ _ hi, getD_set_int _ _ _ _ hi]
        by_cases hji : j = i
        · rw [if_pos hji]
          exact Or.inl rfl
        · rw [if_neg hji]
          rcases h j hj with h0 | h1 | ⟨h2, h3, h4 | ⟨h5, -⟩⟩
          · exact Or.inl h0
          · exact Or.inr (Or.inl h1)
          · refine Or.inr (Or.inr ⟨h2, h3, ?_⟩)
            by_cases hp : j - 1 = i
            · rw [if_pos hp]
              right
              rw [hp, hv] at h4
              exact ⟨by omega, by omega, rfl⟩
            · rw [if_neg hp]
              exact Or.inl h4
          · exact absurd h5 hji
      obtain ⟨slots', index', e1, e2, e3⟩ := ih (i + 1) (index + 1) (slots.set i 0)
        (by rw [List.length_set]; omega) hinv
      refine ⟨slots', index', e1, by rw [e2, List.length_set], ?_⟩
      rw [show i + (k + 1) = i + 1 + k by omega]
      exact e3
    · simp only [hv, if_false]
      have hinv : RunEncodedExcept slots (i + 1) index := by
        intro j hj
        rcases h j hj with h0 | h1 | ⟨h2, h3, h4 | ⟨h5, h6, -⟩⟩
        · exact Or.inl h0
        · exact Or.inr (Or.inl h1)
        · exact Or.inr (Or.inr ⟨h2, h3, Or.inl h4⟩)
        · subst h5
          exact absurd h6 hv
      obtain ⟨slots', index', e1, e2, e3⟩ := ih (i + 1) index slots (by omega) hinv
      refine ⟨slots', index', e1, e2, ?_⟩
      rw [show i + (k + 1) = i + 1 + k by omega]
      exact e3

theorem free_kpages_encoding {st : Coremap} (hb : Bootstrapped st) (henc : RunEncoded st.slots)
    (addr : Nat) :
    ∃ st', free_kpages st addr = .ok st' ∧ Bootstrapped st' ∧ RunEncoded st'.slots := by
  have htab := hb.table
  unfold free_kpages
  simp only []
  by_cases hle : sub32 (sub32 addr MIPS_KSEG0) st.frame_start / PAGE_SIZE ≤ st.number_of_pages
  · obtain ⟨slots', index', h, hlen, hinv⟩ := freeLoop_encoding
      (st.number_of_pages - sub32 (sub32 addr MIPS_KSEG0) st.frame_start / PAGE_SIZE)
      (sub32 (sub32 addr MIPS_KSEG0) st.frame_start / PAGE_SIZE) 1 st.slots (by omega)
      (henc.except _ _)
    rw [h]
    refine ⟨_, rfl, ⟨hb.created, by simpa [htab] using hlen, hb.aligned, hb.nonzero,
      hb.extent, hb.bound⟩, ?_⟩
    exact hinv.done (by omega)
  · rw [show st.number_of_pages - sub32 (sub32 addr MIPS_KSEG0) st.frame_start / PAGE_SIZE = 0
      by omega]
    exact ⟨_, rfl, ⟨hb.created, hb.table, hb.aligned, hb.nonzero, hb.extent, hb.bound⟩, henc⟩

theorem Allocated.encoding {st st' : Coremap} {s n : Nat} (hb : Bootstrapped st)
    (h : Allocated st st' s n) (hfit : Fits st n s) (henc : RunEncoded st.slots) :
    RunEncoded st'.slots := by
  have hlen := h.length
  have htab := hb.table
  have hinside : ∀ m, s ≤ m → m < s + n → st'.slots.getD m 0 = ((m - s : Nat) : Int) + 1 := by
    intro m h1 h2
    have := h.run (m - s) (by omega)
    rw [show s + (m - s) = m by omega] at this
    exact getD_of_getElem? this
  have houtside : ∀ m, (m < s ∨ s + n ≤ m) → st'.slots.getD m 0 = st.slots.getD m 0 := by
    intro m hm
    rw [List.getD_eq_getElem?_getD, List.getD_eq_getElem?_getD, h.frame m hm]
  have hfree : ∀ m, s ≤ m → m < s + n → st.slots.getD m 0 = 0 := by
    intro m h1 h2
    have := hfit.2 (m - s) (by omega)
    rw [show s + (m - s) = m by omega] at this
    exact getD_of_getElem? this
  intro m hm
  rw [hlen] at hm
  by_cases hin : s ≤ m ∧ m < s + n
  · rw [hinside m hin.1 hin.2]
    by_cases hms : m = s
    · right; left
      rw [hms, Nat.sub_self]
      rfl
    · right; right
      refine ⟨by omega, by omega, ?_⟩
      rw [hinside (m - 1) (by omega) (by omega)]
      omega
  · rw [houtside m (by omega)]
    rcases henc m hm with h0 | h1 | ⟨h2, h3, h4⟩
    · exact Or.inl h0
    · exact Or.inr (Or.inl h1)
    · refine Or.inr (Or.inr ⟨h2, h3, ?_⟩)
      by_cases hp : s ≤ m - 1 ∧ m - 1 < s + n
      · have := hfree (m - 1) hp.1 hp.2
        omega
      · rw [houtside (m - 1) (by omega)]
        exact h4

theorem getppages_zero (env : Env) {st : Coremap} (hb : Bootstrapped st) :
    getppages env st 0 = .ok (st.frame_start, st) := by
  have h1 := hb.extent
  have h2 := hb.bound
  unfold getppages
  rw [hb.created, if_pos rfl]
  unfold searchLoop
  have he : u32 (0 * PAGE_SIZE + st.frame_start) ≤ st.frame_end := by
    simp only [u32, PAGE_SIZE] at *
    omega
  rw [if_pos he]
  rfl

theorem getppages_encoding (env : Env) {st : Coremap} (hb : Bootstrapped st)
    (henc : RunEncoded st.slots) (n addr : Nat) (st' : Coremap)
    (h : getppages env st n = .ok (addr, st')) :
    Bootstrapped st' ∧ RunEncoded st'.slots := by
  by_cases hn : n = 0
  · subst hn
    rw [getppages_zero env hb] at h
    simp only [Except.ok.injEq, Prod.mk.injEq] at h
    obtain ⟨-, rfl⟩ := h
    exact ⟨hb, henc⟩
  · rcases getppages_outcome env hb n (by omega) with ⟨s, st2, e, hfit, -, hal⟩ | ⟨e, -⟩ | ⟨e, -⟩
    · rw [e] at h
      simp only [Except.ok.injEq, Prod.mk.injEq] at h
      obtain ⟨-, rfl⟩ := h
      exact ⟨hal.bootstrapped hb, hal.encoding hb hfit henc⟩
    · rw [e] at h
      simp only [Except.ok.injEq, Prod.mk.injEq] at h
      obtain ⟨-, rfl⟩ := h
      exact ⟨hb, henc⟩
    · rw [e] at h
      cases h

theorem runEncoded_replicate (n : Nat) : RunEncoded (List.replicate n 0) := by
  intro i hi
  left
  rw [List.getD_eq_getElem?_getD, List.getElem?_replicate]
  rw [List.length_replicate] at hi
  simp [hi]

/-! ## Claim about scattered free frames -/

theorem count_set_zero : ∀ (l : List Int) (s : Nat), l[s]? = some 0 →
    (l.set s 1).count 0 + 1 = l.count 0 := by
  intro l
  induction l with
  | nil => intro s h; simp at h
  | cons a l ih =>
    intro s h
    cases s with
    | zero =>
      simp only [List.getElem?_cons_zero, Option.some.injEq] at h
      subst h
      simp [List.count_cons]
    | succ s =>
      simp only [List.getElem?_cons_succ] at h
      have := ih s h
      simp only [List.set_cons_succ, List.count_cons]
      omega

theorem Allocated.zeroSlots {st st' : Coremap} {s : Nat} (h : Allocated st st' s 1)
    (hs : st.slots[s]? = some 0) : zeroSlots st' + 1 = zeroSlots st := by
  have hset : st'.slots = st.slots.set s 1 := by
    apply List.ext_getElem?
    intro m
    by_cases hm : m = s
    · subst hm
      have hlt : m < st.slots.length := by
        by_contra hc
        rw [List.getElem?_eq_none_iff.mpr (by omega)] at hs
        cases hs
      have := h.run 0 (by omega)
      rw [Nat.add_zero] at this
      rw [this, List.getElem?_set_self hlt]
      rfl
    · rw [h.frame m (by omega), List.getElem?_set_ne (fun h' => hm h'.symm)]
  unfold DumbVM.zeroSlots
  rw [hset]
  exact count_set_zero _ _ hs

theorem getppages_one (env : Env) {st : Coremap} (hb : Bootstrapped st)
    (hw : st.frame_end + PAGE_SIZE < 4294967296) :
    (∃ s st', getppages env st 1 = .ok (st.frame_start + PAGE_SIZE * s, st') ∧
        Allocated st st' s 1 ∧ zeroSlots st' + 1 = zeroSlots st) ∨
    (getppages env st 1 = .ok (0, st) ∧ zeroSlots st = 0) := by
  rcases getppages_outcome env hb 1 (le_refl _) with ⟨s, st', e, hfit, -, hal⟩ | ⟨e, hno⟩ |
    ⟨-, -, hwrap⟩
  · left
    refine ⟨s, st', e, hal, hal.zeroSlots ?_⟩
    have := hfit.2 0 (by omega)
    rwa [Nat.add_zero] at this
  · right
    refine ⟨e, ?_⟩
    unfold zeroSlots
    rw [List.count_eq_zero]
    intro hmem
    obtain ⟨s, hs⟩ := List.mem_iff_getElem?.mp hmem
    have hlt : s < st.slots.length := by
      by_contra hc
      rw [List.getElem?_eq_none_iff.mpr (by omega)] at hs
      cases hs
    refine hno s ⟨by rw [← hb.table]; omega, ?_⟩
    intro i hi
    have : i = 0 := by omega
    subst this
    rwa [Nat.add_zero]
  · simp only [PAGE_SIZE] at hw hwrap
    omega

theorem allocLoop_count (env : Env) :
    ∀ (k i : Nat) (cm : Coremap) (mem : Memory) (l : List Nat), Bootstrapped cm →
      cm.frame_end + PAGE_SIZE < 4294967296 → i + k ≤ l.length →
      ∃ ret cm' mem' l', allocLoop env k i cm mem (some l) = .ok (ret, cm', mem', some l') ∧
        l'.length = l.length ∧ Bootstrapped cm' ∧ cm'.frame_end = cm.frame_end ∧
        ((k ≤ zeroSlots cm ∧ ret = 0 ∧ zeroSlots cm' + k = zeroSlots cm) ∨
          (zeroSlots cm < k ∧ ret = ENOMEM)) := by
  intro k
  induction k with
  | zero =>
    intro i cm mem l hb _ _
    exact ⟨0, cm, mem, l, rfl, rfl, hb, rfl, Or.inl ⟨Nat.zero_le _, rfl, rfl⟩⟩
  | succ k ih =>
    intro i cm mem l hb hw hlen
    have hi : i < l.length := by omega
    rw [allocLoop]
    rcases getppages_one env hb hw with ⟨s, cm1, e, hal, hz⟩ | ⟨e, hz⟩
    · rw [e]
      simp only [storeWord, hi, if_true]
      have hne : cm.frame_start + PAGE_SIZE * s ≠ 0 := by
        have := hb.nonzero
        omega
      rw [if_neg hne]
      have hb1 := hal.bootstrapped hb
      obtain ⟨ret, cm', mem', l', e', hl', hb', hfe, hcase⟩ :=
        ih (i + 1) cm1 (as_zero_region mem (cm.frame_start + PAGE_SIZE * s) 1)
          (l.set i (cm.frame_start + PAGE_SIZE * s)) hb1 (by rw [hal.stop]; exact hw)
          (by rw [List.length_set]; omega)
      refine ⟨ret, cm', mem', l', e', by rw [hl', List.length_set], hb',
        by rw [hfe, hal.stop], ?_⟩
      rcases hcase with ⟨c1, c2, c3⟩ | ⟨c1, c2⟩
      · exact Or.inl ⟨by omega, c2, by omega⟩
      · exact Or.inr ⟨by omega, c2⟩
    · rw [e]
      simp only [storeWord, hi, if_true]
      exact ⟨ENOMEM, cm, mem, _, rfl, by rw [List.length_set], hb, rfl,
        Or.inr ⟨by omega, rfl⟩⟩

theorem assertZeroLoop_replicate (n : Nat) :
    ∀ (k i : Nat), i + k ≤ n → assertZeroLoop (some (List.replicate n 0)) k i = .ok () := by
  intro k
  induction k with
  | zero => intro i _; rfl
  | succ k ih =>
    intro i h
    rw [assertZeroLoop]
    simp only [loadWord, List.getElem?_replicate, show i < n by omega, if_true]
    exact ih (i + 1) (by omega)

/-- C22 (as amended): on a bootstrapped coremap whose managed range ends below
`2^32 - PAGE_SIZE`, for an address space that meets the preconditions of `as_prepare_load`
and a successful `kmalloc` of the stack table, `as_prepare_load` returns, and it returns 0
exactly when the number of zero slots of the coremap is at least
`npages1 + npages2 + 12`, wherever those slots lie; otherwise it returns `ENOMEM`. -/
theorem as_prepare_load_scattered (env : Env) (cm : Coremap) (mem : Memory) (as : addrspace)
    (hb : Bootstrapped cm) (hw : cm.frame_end + PAGE_SIZE < 4294967296)
    (hpre : PrepareLoadPre as)
    (hk : env.kmalloc_null (u32 (DUMBVM_STACKPAGES * 4)) = false) :
    ∃ ret cm' mem' as', as_prepare_load env cm mem as = .ok (ret, cm', mem', as') ∧
      (ret = 0 ↔ as.as_npages1 + as.as_npages2 + DUMBVM_STACKPAGES ≤ zeroSlots cm) ∧
      (ret ≠ 0 → ret = ENOMEM) := by
  have hstack : ∃ l, kmalloc_array env (u32 (DUMBVM_STACKPAGES * 4)) = some l ∧
      l.length = DUMBVM_STACKPAGES := by
    refine ⟨_, by rw [kmalloc_array, hk]; rfl, ?_⟩
    simp [DUMBVM_STACKPAGES, u32]
  obtain ⟨l3, hl3, hlen3⟩ := hstack
  have henomem : ENOMEM ≠ 0 := by decide
  unfold as_prepare_load
  rw [hpre.text, hpre.data, hpre.stack,
    assertZeroLoop_replicate _ _ 0 (by omega), hl3]
  simp only []
  rw [assertZeroLoop_replicate _ _ 0 (by omega)]
  simp only [Option.isSome_none, Bool.false_eq_true, if_false]
  obtain ⟨r1, cm1, mem1, l1, e1, -, hb1, hf1, c1⟩ := allocLoop_count env as.as_npages1 0 cm mem
    (List.replicate as.as_npages1 0) hb hw (by simp)
  rw [e1]
  simp only []
  rcases c1 with ⟨a1, rfl, z1⟩ | ⟨a1, rfl⟩
  · rw [if_neg (by simp)]
    obtain ⟨r2, cm2, mem2, l2, e2, -, hb2, hf2, c2⟩ := allocLoop_count env as.as_npages2 0 cm1
      mem1 (List.replicate as.as_npages2 0) hb1 (by rw [hf1]; exact hw) (by simp)
    rw [e2]
    simp only []
    rcases c2 with ⟨a2, rfl, z2⟩ | ⟨a2, rfl⟩
    · rw [if_neg (by simp)]
      obtain ⟨r3, cm3, mem3, l3', e3, -, hb3, hf3, c3⟩ := allocLoop_count env
        DUMBVM_STACKPAGES 0 cm2 mem2 l3 hb2 (by rw [hf2, hf1]; exact hw) (by omega)
      rw [e3]
      refine ⟨_, _, _, _, rfl, ?_, ?_⟩
      · rcases c3 with ⟨a3, rfl, z3⟩ | ⟨a3, rfl⟩
        · exact ⟨fun _ => by omega, fun _ => rfl⟩
        · exact ⟨fun h => absurd h henomem, fun h => by omega⟩
      · rcases c3 with ⟨a3, rfl, z3⟩ | ⟨a3, rfl⟩
        · intro h; exact absurd rfl h
        · intro _; rfl
    · rw [if_pos henomem]
      exact ⟨_, _, _, _, rfl, ⟨fun h => absurd h henomem, fun h => by omega⟩, fun _ => rfl⟩
  · rw [if_pos henomem]
    exact ⟨_, _, _, _, rfl, ⟨fun h => absurd h henomem, fun h => by omega⟩, fun _ => rfl⟩

/-- Witness for C22: `definedSpace` needs fourteen frames and `sixteenFrames` has fourteen
free slots, one of them apart from the others. -/
theorem as_prepare_load_scattered_witness :
    ∃ ret cm' mem' as',
      as_prepare_load quietEnv sixteenFrames zeroMemory definedSpace
        = .ok (ret, cm', mem', as') ∧
      (ret = 0 ↔ definedSpace.as_npages1 + definedSpace.as_npages2 + DUMBVM_STACKPAGES
        ≤ zeroSlots sixteenFrames) ∧
      (ret ≠ 0 → ret = ENOMEM) :=
  as_prepare_load_scattered quietEnv sixteenFrames zeroMemory definedSpace
    (bootstrapped_coremapOf _ (by decide)) (by decide) ⟨rfl, rfl, rfl⟩ (by rfl)

/-- C22 (as stated) fails. On the bootstrapped coremap `topFrame`, whose only frame is in
use and ends at `2^32 - PAGE_SIZE`, there are fewer than 12 zero slots, yet
`as_prepare_load` does not return `ENOMEM`: the end address of the search wraps to 0 and
the scan leaves the table. On `sixteenFrames`, with 14 zero slots for a request of 12,
`as_prepare_load` does not return 0 when `kmalloc` of the stack table returns `NULL`: the
table is written through the `NULL` pointer. -/
theorem as_prepare_load_scattered_counterexample :
    (Bootstrapped topFrame ∧ PrepareLoadPre emptyRegions ∧
      zeroSlots topFrame < emptyRegions.as_npages1 + emptyRegions.as_npages2 + 12 ∧
      as_prepare_load quietEnv topFrame zeroMemory emptyRegions = .error .badAccess) ∧
    (Bootstrapped sixteenFrames ∧
      emptyRegions.as_npages1 + emptyRegions.as_npages2 + 12 ≤ zeroSlots sixteenFrames ∧
      as_prepare_load starvedEnv sixteenFrames zeroMemory emptyRegions
        = .error .badAccess) :=
  ⟨⟨⟨rfl, rfl, by decide, by decide, by decide, by decide⟩, ⟨rfl, rfl, rfl⟩, by decide,
      by rfl⟩,
    ⟨bootstrapped_coremapOf _ (by decide), by decide, by rfl⟩⟩

/-! ## Claim about the TLB slot chosen by `vm_fault` -/

theorem vm_fault_ok_inv (random : Nat) (tlb tlb' : TLB)
    (curproc : Option (Option addrspace)) (faulttype : Int) (va : Nat)
    (hok : vm_fault random tlb curproc faulttype va = .ok (0, tlb')) :
    ∃ as ro paddr, curproc = some (some as) ∧ faulttype ≠ VM_FAULT_READONLY ∧
      (faulttype = VM_FAULT_READ ∨ faulttype = VM_FAULT_WRITE) ∧
      vmFaultAsserts as = .ok () ∧
      locate as (va &&& PAGE_FRAME) = .ok (some (ro, paddr)) ∧
      ¬ (paddr &&& PAGE_FRAME ≠ paddr) ∧
      tlbInstall random tlb (va &&& PAGE_FRAME) (entryLo paddr ro as.loadelf_done)
        = .ok tlb' := by
  have hty := vm_fault_success_kind random tlb tlb' curproc faulttype va hok
  unfold vm_fault at hok
  by_cases hro : faulttype = VM_FAULT_READONLY
  · rw [if_pos hro] at hok
    simp [EINVAL] at hok
  · rw [if_neg hro, if_pos hty] at hok
    cases curproc with
    | none => simp [EFAULT] at hok
    | some p =>
      cases p with
      | none => simp [EFAULT] at hok
      | some as =>
        simp only [] at hok
        cases ha : vmFaultAsserts as with
        | error e => rw [ha] at hok; cases hok
        | ok u =>
          rw [ha] at hok
          simp only [] at hok
          cases hl : locate as (va &&& PAGE_FRAME) with
          | error e => rw [hl] at hok; cases hok
          | ok r =>
            rw [hl] at hok
            cases r with
            | none => simp [EFAULT] at hok
            | some pr =>
              obtain ⟨ro, paddr⟩ := pr
              simp only [] at hok
              by_cases hal : paddr &&& PAGE_FRAME ≠ paddr
              · rw [if_pos hal] at hok
                cases hok
              · rw [if_neg hal] at hok
                cases ht : tlbInstall random tlb (va &&& PAGE_FRAME)
                    (entryLo paddr ro as.loadelf_done) with
                | error e => rw [ht] at hok; cases hok
                | ok t =>
                  rw [ht] at hok
                  simp only [Except.ok.injEq, Prod.mk.injEq, true_and] at hok
                  subst hok
                  exact ⟨as, ro, paddr, rfl, hro, hty, ha, hl, hal, ht⟩

theorem vm_fault_of_install (random : Nat) (tlb tlb' : TLB) (as : addrspace)
    (faulttype : Int) (va : Nat) (ro : Bool) (paddr : Nat)
    (hro : faulttype ≠ VM_FAULT_READONLY)
    (hty : faulttype = VM_FAULT_READ ∨ faulttype = VM_FAULT_WRITE)
    (ha : vmFaultAsserts as = .ok ())
    (hl : locate as (va &&& PAGE_FRAME) = .ok (some (ro, paddr)))
    (hal : ¬ (paddr &&& PAGE_FRAME ≠ paddr))
    (ht : tlbInstall random tlb (va &&& PAGE_FRAME) (entryLo paddr ro as.loadelf_done)
      = .ok tlb') :
    vm_fault random tlb (some (some as)) faulttype va = .ok (0, tlb') := by
  unfold vm_fault
  rw [if_neg hro, if_pos hty]
  simp only []
  rw [ha]
  simp only []
  rw [hl]
  simp only []
  rw [if_neg hal, ht]

/-- C23: for a TLB of `NUM_TLB` entries, a call of `vm_fault` that returns 0 changes
exactly one slot, to the new entry. When some slot has its `VALID` bit clear, that slot is
the lowest-indexed such slot, whatever `tlb_random` would pick; only when every slot is
valid is it the slot picked by `tlb_random`. Whether the call returns 0 does not depend
on the TLB: the same fault returns 0 on every TLB state, a full one included. -/
theorem vm_fault_tlb_slot (random : Nat) (tlb tlb' : TLB)
    (curproc : Option (Option addrspace)) (faulttype : Int) (va : Nat)
    (htlb : tlb.length = NUM_TLB)
    (hok : vm_fault random tlb curproc faulttype va = .ok (0, tlb')) :
    (∃ idx elo, idx < NUM_TLB ∧ tlb' = tlb.set idx (va &&& PAGE_FRAME, elo) ∧
      (∀ m : Nat, m ≠ idx → tlb'[m]? = tlb[m]?) ∧
      ((∃ e, tlb[idx]? = some e ∧ e.2 &&& TLBLO_VALID = 0) ∧
          (∀ m e, m < idx → tlb[m]? = some e → e.2 &&& TLBLO_VALID ≠ 0) ∨
        (∀ m e, m < NUM_TLB → tlb[m]? = some e → e.2 &&& TLBLO_VALID ≠ 0) ∧
          idx = random % NUM_TLB)) ∧
    (∀ (random2 : Nat) (tlb2 : TLB), tlb2.length = NUM_TLB →
      ∃ tlb2', vm_fault random2 tlb2 curproc faulttype va = .ok (0, tlb2')) := by
  obtain ⟨as, ro, paddr, rfl, hro, hty, ha, hl, hal, ht⟩ :=
    vm_fault_ok_inv random tlb tlb' curproc faulttype va hok
  constructor
  · obtain ⟨idx, h1, h2, h3⟩ := tlbInstall_spec random tlb (va &&& PAGE_FRAME)
      (entryLo paddr ro as.loadelf_done) htlb
    rw [h2] at ht
    simp only [Except.ok.injEq] at ht
    subst ht
    refine ⟨idx, _, h1, rfl, ?_, h3⟩
    intro m hm
    rw [List.getElem?_set_ne (fun h => hm h.symm)]
  · intro random2 tlb2 htlb2
    obtain ⟨idx, -, h2, -⟩ := tlbInstall_spec random2 tlb2 (va &&& PAGE_FRAME)
      (entryLo paddr ro as.loadelf_done) htlb2
    exact ⟨_, vm_fault_of_install random2 tlb2 _ as faulttype va ro paddr hro hty ha hl hal h2⟩

/-- Witness for C23: a READ fault on the first text page of `loadedSpace` with slots 0 and
1 of the TLB valid; the entry goes to slot 2. -/
theorem vm_fault_tlb_slot_witness :
    (∃ idx elo, idx < NUM_TLB ∧
      (returned (vm_fault 7 partTLB (some (some loadedSpace)) VM_FAULT_READ 0x400000)).2
        = partTLB.set idx (0x400000 &&& PAGE_FRAME, elo) ∧
      (∀ m : Nat, m ≠ idx →
        (returned (vm_fault 7 partTLB (some (some loadedSpace)) VM_FAULT_READ 0x400000)).2[m]?
          = partTLB[m]?) ∧
      ((∃ e, partTLB[idx]? = some e ∧ e.2 &&& TLBLO_VALID = 0) ∧
          (∀ m e, m < idx → partTLB[m]? = some e → e.2 &&& TLBLO_VALID ≠ 0) ∨
        (∀ m e, m < NUM_TLB → partTLB[m]? = some e → e.2 &&& TLBLO_VALID ≠ 0) ∧
          idx = 7 % NUM_TLB)) ∧
    (∀ (random2 : Nat) (tlb2 : TLB), tlb2.length = NUM_TLB →
      ∃ tlb2', vm_fault random2 tlb2 (some (some loadedSpace)) VM_FAULT_READ 0x400000
        = .ok (0, tlb2')) :=
  vm_fault_tlb_slot 7 partTLB
    (returned (vm_fault 7 partTLB (some (some loadedSpace)) VM_FAULT_READ 0x400000)).2
    (some (some loadedSpace)) VM_FAULT_READ 0x400000 (by rfl) (by rfl)

/-! ## Claim about the failure paths of `sys_fork` -/

/-- C24 fails on the code: on `loneKernel`, whose process has no children, a `sys_fork`
in which `thread_fork` fails returns `ENOMEM` with the destroyed child record still in
the parent's children array, and so does a `sys_fork` in which `kmalloc` of the trapframe
copy fails. On `crowdedKernel`, where `as_copy` runs out of frames, `sys_fork` does not
return: `as_destroy` reads the stack table of the address space that `as_create` made,
which is `NULL`. -/
theorem sys_fork_failure_leaves_child :
    (returned (deref loneKernel.procs 0)).children = [] ∧
    ((returned (sys_fork quietEnv ⟨some 3, false, 3⟩ loneKernel 0 (some 1))).1 = ENOMEM ∧
      (returned (deref (returned (sys_fork quietEnv ⟨some 3, false, 3⟩ loneKernel 0
        (some 1))).2.2.procs 0)).children = [1] ∧
      (returned (sys_fork quietEnv ⟨some 3, false, 3⟩ loneKernel 0 (some 1))).2.2.procs[1]?
        = some none) ∧
    ((returned (sys_fork quietEnv ⟨some 3, true, 0⟩ loneKernel 0 (some 1))).1 = ENOMEM ∧
      (returned (deref (returned (sys_fork quietEnv ⟨some 3, true, 0⟩ loneKernel 0
        (some 1))).2.2.procs 0)).children = [1] ∧
      (returned (sys_fork quietEnv ⟨some 3, true, 0⟩ loneKernel 0 (some 1))).2.2.procs[1]?
        = some none) ∧
    sys_fork quietEnv ⟨some 3, false, 0⟩ crowdedKernel 0 (some 1) = .error .badAccess :=
  ⟨by rfl, ⟨by rfl, by rfl, by rfl⟩, ⟨by rfl, by rfl, by rfl⟩, by rfl⟩

/-! ## Claim about the `loadelf_done` flag of a copied address space -/

theorem as_prepare_load_flag (env : Env) (cm : Coremap) (mem : Memory) (as : addrspace)
    (ret : Nat) (cm' : Coremap) (mem' : Memory) (as' : addrspace)
    (h : as_prepare_load env cm mem as = .ok (ret, cm', mem', as')) :
    as'.loadelf_done = as.loadelf_done := by
  unfold as_prepare_load at h
  split at h
  · cases h
  · split at h
    · cases h
    · split at h
      · cases h
      · split at h
        · cases h
        · split at h
          · simp only [Except.ok.injEq, Prod.mk.injEq] at h
            obtain ⟨-, -, -, rfl⟩ := h
            rfl
          · split at h
            · cases h
            · split at h
              · simp only [Except.ok.injEq, Prod.mk.injEq] at h
                obtain ⟨-, -, -, rfl⟩ := h
                rfl
              · split at h
                · cases h
                · simp only [Except.ok.injEq, Prod.mk.injEq] at h
                  obtain ⟨-, -, -, rfl⟩ := h
                  rfl

theorem as_copy_flag (env : Env) (cm : Coremap) (mem : Memory) (old : addrspace)
    (cm' : Coremap) (mem' : Memory) (res : Option addrspace)
    (h : as_copy env cm mem old = .ok (0, cm', mem', res)) :
    ∃ new, res = some new ∧ new.loadelf_done = false := by
  unfold as_copy at h
  split at h
  · simp [ENOMEM] at h
  · rename_i created hcreate
    have hcr : created.loadelf_done = false := by
      unfold as_create at hcreate
      split at hcreate
      · cases hcreate
      · simp only [Option.some.injEq] at hcreate
        subst hcreate
        rfl
    split at h
    · cases h
    · split at h
      · cases h
      · split at h
        · cases h
        · rename_i r cmP memP new hprep
          have hflag := as_prepare_load_flag _ _ _ _ _ _ _ _ hprep
          split at h
          · split at h <;> simp [ENOMEM] at h
          · split at h
            · cases h
            · split at h
              · cases h
              · split at h
                · cases h
                · split at h
                  · cases h
                  · split at h
                    · cases h
                    · split at h
                      · cases h
                      · simp only [Except.ok.injEq, Prod.mk.injEq, true_and] at h
                        obtain ⟨-, -, rfl⟩ := h
                        exact ⟨new, rfl, by rw [hflag]; exact hcr⟩

theorem or_dirty_and (p : Nat) :
    (p ||| TLBLO_DIRTY ||| TLBLO_VALID) &&& TLBLO_DIRTY = TLBLO_DIRTY := by
  apply Nat.eq_of_testBit_eq
  intro i
  simp only [Nat.testBit_and, Nat.testBit_or]
  cases Nat.testBit p i <;> cases Nat.testBit TLBLO_DIRTY i <;>
    cases Nat.testBit TLBLO_VALID i <;> rfl

/-- C25: the address space that a successful `as_copy` stores has `loadelf_done = false`,
whatever the flag of the source is; hence every entry that a successful `vm_fault`
installs for the copy, an entry for a text page included, has the `DIRTY` bit set. -/
theorem as_copy_pages_writable (env : Env) (cm : Coremap) (mem : Memory) (old : addrspace)
    (cm' : Coremap) (mem' : Memory) (res : Option addrspace)
    (h : as_copy env cm mem old = .ok (0, cm', mem', res)) :
    ∃ new, res = some new ∧ new.loadelf_done = false ∧
      ∀ (random : Nat) (tlb tlb' : TLB) (faulttype : Int) (va : Nat),
        tlb.length = NUM_TLB →
        vm_fault random tlb (some (some new)) faulttype va = .ok (0, tlb') →
        ∃ idx elo, idx < NUM_TLB ∧ tlb' = tlb.set idx (va &&& PAGE_FRAME, elo) ∧
          elo &&& TLBLO_DIRTY = TLBLO_DIRTY := by
  obtain ⟨new, hres, hflag⟩ := as_copy_flag env cm mem old cm' mem' res h
  refine ⟨new, hres, hflag, ?_⟩
  intro random tlb tlb' faulttype va htlb hok
  obtain ⟨as, ro, paddr, hcur, -, -, -, -, -, ht⟩ :=
    vm_fault_ok_inv random tlb tlb' (some (some new)) faulttype va hok
  simp only [Option.some.injEq] at hcur
  subst hcur
  obtain ⟨idx, h1, h2, -⟩ := tlbInstall_spec random tlb (va &&& PAGE_FRAME)
    (entryLo paddr ro new.loadelf_done) htlb
  rw [h2] at ht
  simp only [Except.ok.injEq] at ht
  refine ⟨idx, _, h1, ht.symm, ?_⟩
  rw [hflag]
  simp only [entryLo, Bool.and_false, Bool.false_eq_true, if_false]
  exact or_dirty_and paddr

/-- Witness for C25: the copy of `parentSpace`, whose `loadelf_done` is true; a WRITE
fault on its text page at `0x400000` installs a writable entry in slot 0. -/
theorem as_copy_pages_writable_witness :
    parentSpace.loadelf_done = true ∧
    (∃ new, forkResult.2.2.2 = some new ∧ new.loadelf_done = false ∧
      ∀ (random : Nat) (tlb tlb' : TLB) (faulttype : Int) (va : Nat),
        tlb.length = NUM_TLB →
        vm_fault random tlb (some (some new)) faulttype va = .ok (0, tlb') →
        ∃ idx elo, idx < NUM_TLB ∧ tlb' = tlb.set idx (va &&& PAGE_FRAME, elo) ∧
          elo &&& TLBLO_DIRTY = TLBLO_DIRTY) ∧
    (returned (vm_fault 0 emptyTLB (some forkResult.2.2.2) VM_FAULT_WRITE 0x400000)).1 = 0 ∧
    ((returned (vm_fault 0 emptyTLB (some forkResult.2.2.2) VM_FAULT_WRITE 0x400000)).2.getD 0
      (0, 0)).2 &&& TLBLO_DIRTY = TLBLO_DIRTY :=
  ⟨rfl,
   as_copy_pages_writable quietEnv thirtyFrames patternMemory parentSpace forkResult.2.1
     forkResult.2.2.1 forkResult.2.2.2 (by rfl),
   by rfl, by rfl⟩

/-! ## The search on the memory behind the table -/

theorem scanLoop_raw (st : Coremap) (behind : Nat → Int) (addr : Nat) :
    ∀ (k i : Nat) (r : Option Nat), scanLoop st addr k i = .ok r →
      scanLoopRaw st behind addr k i = r := by
  intro k
  induction k with
  | zero =>
    intro i r h
    simp only [scanLoop, Except.ok.injEq] at h
    subst h
    rfl
  | succ k ih =>
    intro i r h
    rw [scanLoop] at h
    rw [scanLoopRaw]
    cases hs : st.slots[scanIndex st addr i]? with
    | none => rw [hs] at h; cases h
    | some entry =>
      rw [hs] at h
      simp only [] at h
      have hr : readSlot st.slots behind (scanIndex st addr i) = entry := by
        rw [readSlot, hs]
      rw [hr]
      by_cases he : entry ≠ 0
      · rw [if_pos he] at h ⊢
        simp only [Except.ok.injEq] at h
        exact h
      · rw [if_neg he] at h ⊢
        exact ih (i + 1) r h

theorem markLoop_raw (st : Coremap) (behind : Nat → Int) (addr : Nat) :
    ∀ (k j : Nat) (slots slots' : List Int), markLoop st addr k j slots = .ok slots' →
      markLoopRaw st addr k j slots behind = (slots', behind) := by
  intro k
  induction k with
  | zero =>
    intro j slots slots' h
    simp only [markLoop, Except.ok.injEq] at h
    subst h
    rfl
  | succ k ih =>
    intro j slots slots' h
    rw [markLoop] at h
    rw [markLoopRaw]
    by_cases hlt : markIndex st addr j < slots.length
    · rw [if_pos hlt] at h
      have hw : writeSlot slots behind (markIndex st addr j) (toInt (u32 (j + 1)))
          = (slots.set (markIndex st addr j) (toInt (u32 (j + 1))), behind) := by
        rw [writeSlot, if_pos hlt]
      rw [hw]
      exact ih (j + 1) _ slots' h
    · rw [if_neg hlt] at h
      cases h

theorem searchLoop_raw (st : Coremap) (behind : Nat → Int) (n : Nat) :
    ∀ (fuel addr e a : Nat) (st' : Coremap), searchLoop st n fuel addr e = .ok (a, st') →
      ∀ fuel', fuel ≤ fuel' → searchLoopRaw st behind n fuel' addr e = .ok (a, st', behind) := by
  intro fuel
  induction fuel with
  | zero =>
    intro addr e a st' h
    simp [searchLoop] at h
  | succ fuel ih =>
    intro addr e a st' h fuel' hle
    obtain ⟨f, rfl⟩ : ∃ f, fuel' = f + 1 := ⟨fuel' - 1, by omega⟩
    rw [searchLoop] at h
    rw [searchLoopRaw]
    by_cases hg : e ≤ st.frame_end
    · rw [if_pos hg] at h ⊢
      cases hs : scanLoop st addr n 0 with
      | error x => rw [hs] at h; cases h
      | ok r =>
        rw [hs] at h
        rw [scanLoop_raw st behind addr n 0 r hs]
        cases r with
        | some i =>
          simp only [] at h ⊢
          exact ih _ _ a st' h f (by omega)
        | none =>
          simp only [] at h ⊢
          cases hm : markLoop st addr n 0 st.slots with
          | error x => rw [hm] at h; cases h
          | ok slots' =>
            rw [hm] at h
            simp only [Except.ok.injEq, Prod.mk.injEq] at h
            obtain ⟨rfl, rfl⟩ := h
            rw [markLoop_raw st behind addr n 0 st.slots slots' hm]
    · rw [if_neg hg] at h ⊢
      simp only [Except.ok.injEq, Prod.mk.injEq] at h
      obtain ⟨rfl, rfl⟩ := h
      rfl

theorem getppages_raw (env : Env) {st : Coremap} (hb : Bootstrapped st)
    (behind : Nat → Int) (n a : Nat) (st' : Coremap)
    (h : getppages env st n = .ok (a, st')) :
    getppagesRaw env st behind n = .ok (a, st', behind) := by
  have h1 := hb.extent
  have h2 := hb.bound
  unfold getppages at h
  unfold getppagesRaw
  rw [hb.created, if_pos rfl] at h ⊢
  exact searchLoop_raw st behind n _ _ _ a st' h 1048577 (by simp only [PAGE_SIZE] at h1; omega)

theorem scanLoopRaw_none (st : Coremap) (behind : Nat → Int) (addr : Nat) :
    ∀ (k i : Nat),
      (∀ m, i ≤ m → m < i + k → readSlot st.slots behind (scanIndex st addr m) = 0) →
      scanLoopRaw st behind addr k i = none := by
  intro k
  induction k with
  | zero => intro i _; rfl
  | succ k ih =>
    intro i h
    rw [scanLoopRaw, if_neg (by rw [h i (le_refl i) (by omega)]; exact fun hne => hne rfl)]
    exact ih (i + 1) (fun m h1 h2 => h m (by omega) (by omega))

theorem scanLoopRaw_found (st : Coremap) (behind : Nat → Int) (addr : Nat) :
    ∀ (k i j : Nat), i ≤ j → j < i + k →
      (∀ m, i ≤ m → m < j → readSlot st.slots behind (scanIndex st addr m) = 0) →
      readSlot st.slots behind (scanIndex st addr j) ≠ 0 →
      scanLoopRaw st behind addr k i = some j := by
  intro k
  induction k with
  | zero => intro i j h1 h2; omega
  | succ k ih =>
    intro i j h1 h2 hz hj
    rw [scanLoopRaw]
    by_cases hij : i = j
    · subst hij
      rw [if_pos hj]
    · rw [if_neg (by rw [hz i (le_refl i) (by omega)]; exact fun hne => hne rfl)]
      exact ih (i + 1) j (by omega) (by omega) (fun m h3 h4 => hz m (by omega) h4) hj

theorem markLoopRaw_last (st : Coremap) (addr : Nat) :
    ∀ (k j : Nat) (slots : List Int) (behind : Nat → Int),
      markLoopRaw st addr (k + 1) j slots behind =
        writeSlot (markLoopRaw st addr k j slots behind).1
          (markLoopRaw st addr k j slots behind).2
          (markIndex st addr (j + k)) (toInt (u32 (j + k + 1))) := by
  intro k
  induction k with
  | zero => intro j slots behind; rfl
  | succ k ih =>
    intro j slots behind
    rw [markLoopRaw, ih (j + 1), markLoopRaw]
    have e : j + 1 + k = j + (k + 1) := by omega
    rw [e]

theorem writeSlot_length (slots : List Int) (behind : Nat → Int) (index : Nat) (v : Int) :
    (writeSlot slots behind index v).1.length = slots.length := by
  unfold writeSlot
  split
  · simp
  · rfl

theorem markLoopRaw_length (st : Coremap) (addr : Nat) :
    ∀ (k j : Nat) (slots : List Int) (behind : Nat → Int),
      (markLoopRaw st addr k j slots behind).1.length = slots.length := by
  intro k
  induction k with
  | zero => intro j slots behind; rfl
  | succ k ih =>
    intro j slots behind
    rw [markLoopRaw, ih, writeSlot_length]

theorem readSlot_wrapTable (index : Nat) (h : index ≠ 1) :
    readSlot wrapTable.slots zeroBehind index = 0 := by
  unfold readSlot wrapTable coremapOf zeroBehind
  match index, h with
  | 0, _ => rfl
  | 1, h => exact absurd rfl h
  | 2, _ => rfl
  | 3, _ => rfl
  | m + 4, _ => rfl

/-- The request of 1048575 pages on `wrapTable` with zero words behind the table: the end
address wraps, the search passes the allocated frame, the scan from the third frame finds
zero words in and behind the table, and the marking loop runs over all 1048575 indices;
its last store has table index 0, so that slot 0, a free frame outside the run, ends
holding 1048575. The page count is a variable to keep the loops folded. -/
theorem getppagesRaw_wrapTable (n : Nat) (hn : n = 1048575) :
    ∃ st' behind, getppagesRaw quietEnv wrapTable zeroBehind n = .ok (12288, st', behind) ∧
      st'.slots[0]? = some 1048575 := by
  have hfs : wrapTable.frame_start = 4096 := rfl
  have hscan1 : scanLoopRaw wrapTable zeroBehind 4096 n 0 = some 1 := by
    apply scanLoopRaw_found _ _ _ _ 0 1 (by omega) (by omega)
    · intro m _ hm
      have : m = 0 := by omega
      subst this
      rfl
    · intro h
      have : readSlot wrapTable.slots zeroBehind (scanIndex wrapTable 4096 1) = 1 := rfl
      rw [this] at h
      exact absurd h (by decide)
  have hscan2 : scanLoopRaw wrapTable zeroBehind 12288 n 0 = none := by
    apply scanLoopRaw_none
    intro m _ hm
    apply readSlot_wrapTable
    simp only [scanIndex, hfs, u32, sub32, PAGE_SIZE]
    omega
  have hrun : getppagesRaw quietEnv wrapTable zeroBehind n =
      .ok (12288,
        { wrapTable with slots := (markLoopRaw wrapTable 12288 n 0 wrapTable.slots zeroBehind).1 },
        (markLoopRaw wrapTable 12288 n 0 wrapTable.slots zeroBehind).2) := by
    unfold getppagesRaw
    rw [show wrapTable.coremap_created = true from rfl, if_pos rfl, hfs]
    rw [show u32 (n * PAGE_SIZE + 4096) = 0 from by simp only [u32, PAGE_SIZE]; omega]
    rw [show (1048577 : Nat) = 1048575 + 1 + 1 from rfl]
    rw [searchLoopRaw, if_pos (Nat.zero_le _), hscan1]
    simp only []
    rw [show u32 (4096 + u32 (PAGE_SIZE * (1 + 1))) = 12288 from by simp only [u32, PAGE_SIZE]]
    rw [show u32 (u32 (PAGE_SIZE * n) + 12288) = 8192 from by
      simp only [u32, PAGE_SIZE]; omega]
    rw [searchLoopRaw, if_pos (by rw [show wrapTable.frame_end = 20480 from rfl]; omega), hscan2]
  refine ⟨_, _, hrun, ?_⟩
  obtain ⟨k, rfl⟩ : ∃ k, n = k + 1 := ⟨n - 1, by omega⟩
  simp only []
  rw [markLoopRaw_last]
  have hi : markIndex wrapTable 12288 (0 + k) = 0 := by
    simp only [markIndex, hfs, u32, sub32, PAGE_SIZE]
    omega
  have hv : toInt (u32 (0 + k + 1)) = 1048575 := by
    have hk : 0 + k + 1 = 1048575 := by omega
    rw [hk]
    simp only [toInt, u32]
    norm_num
  have hl := markLoopRaw_length wrapTable 12288 k 0 wrapTable.slots zeroBehind
  rw [hi, hv]
  unfold writeSlot
  rw [if_pos (by rw [hl]; exact (by decide : 0 < wrapTable.slots.length))]
  simp only []
  rw [List.getElem?_set_self (by rw [hl]; exact (by decide : 0 < wrapTable.slots.length))]

/-- The result of `vm_bootstrap` on a physical range `lo ≤ hi` below `2^32` with `0 < lo`
is a bootstrapped coremap as soon as the frame count recomputed at the end of the
function equals the number of slots that were zeroed. -/
theorem vm_bootstrap_bootstrapped (lo hi : Nat) (h1 : 0 < lo) (h2 : lo ≤ hi)
    (h3 : hi < 4294967296)
    (h4 : (vm_bootstrap lo hi).slots.length = (vm_bootstrap lo hi).number_of_pages) :
    Bootstrapped (vm_bootstrap lo hi) := by
  rw [vm_bootstrap_slots, List.length_replicate] at h4
  obtain ⟨p, hp, hp2⟩ : ∃ p, sub32 hi lo / (PAGE_SIZE + 4) = p ∧ 4100 * p ≤ hi - lo :=
    ⟨_, rfl, by simp only [sub32, PAGE_SIZE]; omega⟩
  have hfirst : u32 (sub32 (PADDR_TO_KVADDR lo) MIPS_KSEG0 + u32 (p * 4)) = lo + 4 * p := by
    simp only [PADDR_TO_KVADDR, MIPS_KSEG0, u32, sub32]
    omega
  obtain ⟨fs, hfs⟩ : ∃ fs, (vm_bootstrap lo hi).frame_start = fs := ⟨_, rfl⟩
  have hfs2 : fs % 4096 = 0 ∧ ((lo + 4 * p ≤ fs ∧ fs < lo + 4 * p + 4096) ∨
      (fs = 0 ∧ 4294967296 - 4096 < lo + 4 * p)) := by
    rw [← hfs]
    simp only [vm_bootstrap, hp, hfirst]
    simp only [u32, PAGE_SIZE]
    split_ifs <;> omega
  have hn : (vm_bootstrap lo hi).number_of_pages = sub32 hi fs / PAGE_SIZE := by
    rw [← hfs]
    rfl
  have he : (vm_bootstrap lo hi).frame_end
      = u32 (u32 (PAGE_SIZE * (vm_bootstrap lo hi).number_of_pages) + fs) := by
    rw [← hfs]
    rfl
  rw [hp] at h4
  rw [hn] at h4 he
  rw [← h4] at he hn
  have hle : fs ≤ hi ∧ 0 < fs := by
    simp only [sub32, PAGE_SIZE] at h4
    omega
  refine ⟨rfl, ?_, ?_, ?_, ?_, ?_⟩
  · rw [vm_bootstrap_slots, List.length_replicate, hp, hn]
  · rw [hfs]
    simp only [PAGE_SIZE]
    exact hfs2.1
  · rw [hfs]
    exact hle.2
  · rw [he, hfs, hn]
    simp only [sub32, u32, PAGE_SIZE] at h4 ⊢
    omega
  · rw [he]
    simp only [u32]
    omega

/-! ## Claim about the effect of `getppages` -/

/-- C2 (as amended): on a bootstrapped coremap, for every `n ≥ 1` whose end address
`n * PAGE_SIZE + frame_end` stays below `2^32`, `getppages` returns, with the same result
whatever memory lies behind the table, which it leaves as it was. If it returns a
non-zero address, this is `frame_start + s * PAGE_SIZE` for a start `s` with
`s + n ≤ number_of_pages` whose `n` slots were all `0`; afterwards they hold `1, ..., n`
and every other slot (and every static) is as before. If it returns `0` the coremap is
unchanged. -/
theorem getppages_effect (env : Env) (st : Coremap) (hb : Bootstrapped st) (n : Nat)
    (hn : 1 ≤ n) (hw : n * PAGE_SIZE + st.frame_end < 4294967296) (behind : Nat → Int) :
    ∃ a st', getppagesRaw env st behind n = .ok (a, st', behind) ∧
      getppages env st n = .ok (a, st') ∧
      (a ≠ 0 → ∃ s, a = st.frame_start + s * PAGE_SIZE ∧ s + n ≤ st.number_of_pages ∧
        (∀ i, i < n → st.slots[s + i]? = some 0) ∧
        (∀ i, i < n → st'.slots[s + i]? = some ((i : Int) + 1)) ∧
        (∀ m, (m < s ∨ s + n ≤ m) → st'.slots[m]? = st.slots[m]?) ∧
        Allocated st st' s n) ∧
      (a = 0 → st' = st) := by
  have hpos := hb.nonzero
  rcases getppages_outcome env hb n hn with ⟨s0, st0, h0, hfit0, _, hal⟩ | ⟨h0, _⟩ | ⟨_, _, h0⟩
  · exact ⟨_, st0, getppages_raw env hb behind n _ st0 h0, h0,
      fun _ => ⟨s0, by rw [Nat.mul_comm], hfit0.1, hfit0.2, hal.run, hal.frame, hal⟩,
      fun hz => by omega⟩
  · exact ⟨0, st, getppages_raw env hb behind n 0 st h0, h0,
      fun hne => absurd rfl hne, fun _ => rfl⟩
  · omega

/-- Witness for C2: on ten free frames `getppages(3)` returns frame 0 and the table
becomes `1,2,3,0,0,0,0,0,0,0`. -/
theorem getppages_effect_witness :
    ∃ a st', getppagesRaw quietEnv (coremapOf [0, 0, 0, 0, 0, 0, 0, 0, 0, 0]) zeroBehind 3
        = .ok (a, st', zeroBehind) ∧
      getppages quietEnv (coremapOf [0, 0, 0, 0, 0, 0, 0, 0, 0, 0]) 3 = .ok (a, st') ∧
      (a ≠ 0 → ∃ s, a = (coremapOf [0, 0, 0, 0, 0, 0, 0, 0, 0, 0]).frame_start + s * PAGE_SIZE ∧
        s + 3 ≤ (coremapOf [0, 0, 0, 0, 0, 0, 0, 0, 0, 0]).number_of_pages ∧
        (∀ i, i < 3 → (coremapOf [0, 0, 0, 0, 0, 0, 0, 0, 0, 0]).slots[s + i]? = some 0) ∧
        (∀ i, i < 3 → st'.slots[s + i]? = some ((i : Int) + 1)) ∧
        (∀ m, (m < s ∨ s + 3 ≤ m) →
          st'.slots[m]? = (coremapOf [0, 0, 0, 0, 0, 0, 0, 0, 0, 0]).slots[m]?) ∧
        Allocated (coremapOf [0, 0, 0, 0, 0, 0, 0, 0, 0, 0]) st' s 3) ∧
      (a = 0 → st' = coremapOf [0, 0, 0, 0, 0, 0, 0, 0, 0, 0]) :=
  getppages_effect quietEnv (coremapOf [0, 0, 0, 0, 0, 0, 0, 0, 0, 0])
    (bootstrapped_coremapOf _ (by decide)) 3 (by decide) (by decide) zeroBehind

/-- C2 (as stated) fails: on the bootstrapped table `0,1,0,0` with zero words behind it,
`getppages(1048575)` returns the non-zero address `frame_start + 2 * PAGE_SIZE` although
no start `s` with that address has `s + n ≤ number_of_pages`, and slot 0, which lies
outside the run, changes from `0` to `1048575`. The end address of the request wraps
around `2^32`; `getppages`, which checks the table bounds, stops this call with a fault
at the first read past the table. -/
theorem getppages_effect_counterexample :
    Bootstrapped wrapTable ∧ 1 ≤ 1048575 ∧
    (∃ st' behind,
      getppagesRaw quietEnv wrapTable zeroBehind 1048575 = .ok (12288, st', behind) ∧
      st'.slots[0]? = some 1048575) ∧
    12288 ≠ 0 ∧ 12288 = wrapTable.frame_start + 2 * PAGE_SIZE ∧
    (¬ ∃ s, 12288 = wrapTable.frame_start + s * PAGE_SIZE ∧
      s + 1048575 ≤ wrapTable.number_of_pages) ∧
    wrapTable.slots[0]? = some 0 ∧
    getppages quietEnv wrapTable 1048575 = .error .badAccess := by
  refine ⟨bootstrapped_coremapOf _ (by decide), by decide,
    getppagesRaw_wrapTable 1048575 rfl, by decide, by rfl, ?_, by rfl,
    by rfl⟩
  rintro ⟨s, -, hs⟩
  have hnum : wrapTable.number_of_pages = 4 := rfl
  rw [hnum] at hs
  omega

/-! ## Claim about the run encoding -/

/-- C21 (as amended): the run encoding (every slot holds 0, or 1, or a value `k > 1`
right after a slot holding `k - 1`) holds for the all-zero table that `vm_bootstrap`
makes, which is a bootstrapped coremap when the physical range `0 < lo ≤ hi < 2^32` gives
a frame count equal to the number of zeroed slots. On a bootstrapped coremap with the run
encoding, `getppages` returns for every page count whose end address
`n * PAGE_SIZE + frame_end` stays below `2^32`, with the same result whatever memory lies
behind the table, and `free_kpages` returns for every address; both leave a bootstrapped
coremap with the run encoding. -/
theorem run_encoding_preserved :
    (∀ lo hi, 0 < lo → lo ≤ hi → hi < 4294967296 →
      (vm_bootstrap lo hi).slots.length = (vm_bootstrap lo hi).number_of_pages →
      Bootstrapped (vm_bootstrap lo hi) ∧ RunEncoded (vm_bootstrap lo hi).slots) ∧
    (∀ (env : Env) (st : Coremap) (n : Nat) (behind : Nat → Int), Bootstrapped st →
      RunEncoded st.slots → n * PAGE_SIZE + st.frame_end < 4294967296 →
      ∃ addr st', getppagesRaw env st behind n = .ok (addr, st', behind) ∧
        getppages env st n = .ok (addr, st') ∧ Bootstrapped st' ∧ RunEncoded st'.slots) ∧
    (∀ (st : Coremap) (addr : Nat), Bootstrapped st → RunEncoded st.slots →
      ∃ st', free_kpages st addr = .ok st' ∧ Bootstrapped st' ∧ RunEncoded st'.slots) := by
  refine ⟨fun lo hi h1 h2 h3 h4 => ⟨vm_bootstrap_bootstrapped lo hi h1 h2 h3 h4, ?_⟩,
    fun env st n behind hb henc hw => ?_,
    fun st addr hb henc => free_kpages_encoding hb henc addr⟩
  · rw [vm_bootstrap_slots]
    exact runEncoded_replicate _
  · by_cases hn : n = 0
    · subst hn
      exact ⟨_, st, getppages_raw env hb behind 0 _ st (getppages_zero env hb),
        getppages_zero env hb, hb, henc⟩
    · rcases getppages_outcome env hb n (by omega) with
        ⟨s, st2, e, hfit, -, hal⟩ | ⟨e, -⟩ | ⟨-, -, e⟩
      · exact ⟨_, st2, getppages_raw env hb behind n _ st2 e, e, hal.bootstrapped hb,
          hal.encoding hb hfit henc⟩
      · exact ⟨0, st, getppages_raw env hb behind n 0 st e, e, hb, henc⟩
      · omega

/-- Witness for C21: the bootstrap of the physical range `0x30000 .. 0x80000`,
`getppages(2)` on the table `1,0,0,1,2` and `free_kpages` of the first frame on the table
`1,1,2`. -/
theorem run_encoding_preserved_witness :
    (Bootstrapped (vm_bootstrap 0x30000 0x80000) ∧
      RunEncoded (vm_bootstrap 0x30000 0x80000).slots) ∧
    (∃ addr st', getppagesRaw quietEnv (coremapOf [1, 0, 0, 1, 2]) zeroBehind 2
        = .ok (addr, st', zeroBehind) ∧
      getppages quietEnv (coremapOf [1, 0, 0, 1, 2]) 2 = .ok (addr, st') ∧
      Bootstrapped st' ∧ RunEncoded st'.slots) ∧
    ∃ st', free_kpages (coremapOf [1, 1, 2]) (PADDR_TO_KVADDR 4096) = .ok st' ∧
      Bootstrapped st' ∧ RunEncoded st'.slots :=
  ⟨run_encoding_preserved.1 0x30000 0x80000 (by decide) (by decide) (by decide) (by rfl),
   run_encoding_preserved.2.1 quietEnv (coremapOf [1, 0, 0, 1, 2]) 2 zeroBehind
      (bootstrapped_coremapOf _ (by decide)) (by decide) (by decide),
   run_encoding_preserved.2.2 (coremapOf [1, 1, 2]) (PADDR_TO_KVADDR 4096)
      (bootstrapped_coremapOf _ (by decide)) (by decide)⟩

/-- C21 (as stated) fails: the bootstrap of the physical range `4080 .. 20480` gives four
free frames; two calls `getppages(1)` and `free_kpages` of the first frame lead to the
table `0,1,0,0`, which has the run encoding. With zero words behind the table,
`getppages(1048575)`, whose end address wraps around `2^32`, then returns and leaves
`1048575` in slot 0: the run encoding is lost. -/
theorem run_encoding_preserved_counterexample :
    vm_bootstrap 4080 20480 = coremapOf [0, 0, 0, 0] ∧
    getppages quietEnv (coremapOf [0, 0, 0, 0]) 1 = .ok (4096, coremapOf [1, 0, 0, 0]) ∧
    getppages quietEnv (coremapOf [1, 0, 0, 0]) 1 = .ok (8192, coremapOf [1, 1, 0, 0]) ∧
    free_kpages (coremapOf [1, 1, 0, 0]) (PADDR_TO_KVADDR 4096) = .ok wrapTable ∧
    Bootstrapped wrapTable ∧ RunEncoded wrapTable.slots ∧
    ∃ st' behind,
      getppagesRaw quietEnv wrapTable zeroBehind 1048575 = .ok (12288, st', behind) ∧
      ¬ RunEncoded st'.slots := by
  obtain ⟨st', behind, hrun, h0⟩ := getppagesRaw_wrapTable 1048575 rfl
  refine ⟨by rfl, by rfl, by rfl, by rfl, bootstrapped_coremapOf _ (by decide), by decide,
    st', behind, hrun, ?_⟩
  intro henc
  have hpos : 0 < st'.slots.length := by
    by_contra hlen
    rw [List.getElem?_eq_none (by omega)] at h0
    cases h0
  have hd := getD_of_getElem? h0
  rcases henc 0 hpos with h | h | ⟨-, h, -⟩
  · rw [hd] at h
    omega
  · rw [hd] at h
    omega
  · omega

end DumbVM
